import Mathlib

/-!
# ProxyObject: the event-side property model of DALi

A shallow embedding of `dali/internal/event/common/proxy-object.cpp`.

* An object is a record of its members (`ProxyObject`); the world outside the
  object that its member functions touch (the scene-graph cells it points to,
  the event buffer index of the stage, the queue of cross-thread messages and
  the calls made into the concrete type) is kept next to it in `System`.
* A member function is a function from the system before the call to an
  `Outcome`: a normal return with the system after the call, or a failed
  `DALI_ASSERT_ALWAYS` with the system as it was when the exception left the
  function.
* Headers that are not part of the sources (property values, custom
  properties, animatable cells, index ranges) are modelled from the
  specification or taken as fields of `Env`.
-/

namespace Dali

/-! ## Property values -/

/-- Modelled from the spec: the tags of `Property::Type` (declared in
property.h, which is not among the sources), as listed in the data model:
None, Boolean, Float, Vector2/3/4, Matrix, Matrix3, Rotation, String, Array,
Map. -/
inductive PropertyType where
  | NONE | BOOLEAN | FLOAT | VECTOR2 | VECTOR3 | VECTOR4
  | MATRIX | MATRIX3 | ROTATION | STRING | ARRAY | MAP
  deriving DecidableEq, Repr

/-- Modelled from the spec: `Property::Value`, the tagged union over the
property payloads (property-value.h is not among the sources). Payloads are
only ever copied by the code embedded here, so a float is kept as its bit
pattern and a vector, matrix, rotation, array or map as the list of its
components. -/
inductive PropertyValue where
  | NONE
  | BOOLEAN (b : Bool)
  | FLOAT (bits : Nat)
  | VECTOR2 (c : List Nat)
  | VECTOR3 (c : List Nat)
  | VECTOR4 (c : List Nat)
  | MATRIX (c : List Nat)
  | MATRIX3 (c : List Nat)
  | ROTATION (c : List Nat)
  | STRING (s : String)
  | ARRAY (c : List Nat)
  | MAP (c : List Nat)
  deriving DecidableEq, Repr

/-- Modelled from the spec: `Property::Value::GetType`, the stored tag. -/
def PropertyValue.GetType : PropertyValue → PropertyType
  | .NONE => .NONE
  | .BOOLEAN _ => .BOOLEAN
  | .FLOAT _ => .FLOAT
  | .VECTOR2 _ => .VECTOR2
  | .VECTOR3 _ => .VECTOR3
  | .VECTOR4 _ => .VECTOR4
  | .MATRIX _ => .MATRIX
  | .MATRIX3 _ => .MATRIX3
  | .ROTATION _ => .ROTATION
  | .STRING _ => .STRING
  | .ARRAY _ => .ARRAY
  | .MAP _ => .MAP

/-- Modelled from the spec: `Property::AccessMode`, the three access modes of
a custom property. -/
inductive AccessMode where
  | READ_ONLY | READ_WRITE | ANIMATABLE
  deriving DecidableEq, Repr

/-! ## Scene-graph cells -/

/-- Modelled from the spec: `SceneGraph::AnimatableProperty<T>`
(animatable-property.h is not among the sources), a double-buffered value
holding two copies indexed by the buffer index. `kind` is the tag of the
template argument `T`, which is what `dynamic_cast` inspects. -/
structure AnimatableProperty where
  kind : PropertyType
  mValue0 : PropertyValue
  mValue1 : PropertyValue
  deriving DecidableEq, Repr

/-- Modelled from the spec: the constructor `AnimatableProperty<T>( initialValue )`;
both buffers start at the initial value. -/
def AnimatableProperty.new (v : PropertyValue) : AnimatableProperty :=
  { kind := v.GetType, mValue0 := v, mValue1 := v }

/-- Modelled from the spec: `AnimatableProperty<T>::operator[]( bufferIndex )`,
the copy held for the given buffer index (0 or 1). -/
def AnimatableProperty.get (p : AnimatableProperty) (bufferIndex : Nat) : PropertyValue :=
  if bufferIndex = 0 then p.mValue0 else p.mValue1

/-- The switch of `RegisterProperty( name, propertyValue )` (lines 377-433):
a new `AnimatableProperty<T>` for the eight animatable types, and the
`default:` branch (which asserts) for every other type. -/
def newAnimatableProperty (v : PropertyValue) : Option AnimatableProperty :=
  match v.GetType with
  | .BOOLEAN => some (AnimatableProperty.new v)
  | .FLOAT => some (AnimatableProperty.new v)
  | .VECTOR2 => some (AnimatableProperty.new v)
  | .VECTOR3 => some (AnimatableProperty.new v)
  | .VECTOR4 => some (AnimatableProperty.new v)
  | .MATRIX => some (AnimatableProperty.new v)
  | .MATRIX3 => some (AnimatableProperty.new v)
  | .ROTATION => some (AnimatableProperty.new v)
  | _ => none

/-! ## Custom properties -/

/-- Modelled from the spec: `CustomProperty` (custom-property.h is not among
the sources): name, type, access mode, the cached value of a non-animatable
property and the link to the scene-graph cell of an animatable one (the
address of the cell in the heap of the stage). -/
structure CustomProperty where
  name : String
  value : PropertyValue
  type : PropertyType
  mProperty : Option Nat
  mAccessMode : AccessMode
  deriving DecidableEq, Repr

/-- Modelled from the spec: the constructor `CustomProperty( name, type, property )`
used for an animatable property; there is no cached value. -/
def CustomProperty.animatable (name : String) (type : PropertyType) (cell : Nat) :
    CustomProperty :=
  { name := name, value := .NONE, type := type, mProperty := some cell,
    mAccessMode := .ANIMATABLE }

/-- Modelled from the spec: the constructor `CustomProperty( name, value, accessMode )`
used for an event-side property; the type is the type of the value and there
is no scene-graph cell. -/
def CustomProperty.eventSide (name : String) (v : PropertyValue) (accessMode : AccessMode) :
    CustomProperty :=
  { name := name, value := v, type := v.GetType, mProperty := none,
    mAccessMode := accessMode }

/-- Modelled from the spec: `CustomProperty::IsAnimatable`, whether the
property has a scene-graph cell. -/
def CustomProperty.IsAnimatable (p : CustomProperty) : Bool :=
  p.mProperty.isSome

/-- Modelled from the spec: `CustomProperty::IsWritable`, every access mode
but READ_ONLY. -/
def CustomProperty.IsWritable (p : CustomProperty) : Bool :=
  p.mAccessMode = .ANIMATABLE || p.mAccessMode = .READ_WRITE

/-- The `CustomPropertyLookup`, a `std::map< Property::Index, CustomProperty >`:
the entries in increasing key order, which is the order of iteration. -/
abbrev CustomPropertyLookup := List (Int × CustomProperty)

/-- The `std::map::find`: the entry with the given key, if there is one. -/
def CustomPropertyLookup.find : CustomPropertyLookup → Int → Option CustomProperty
  | [], _ => none
  | (k, p) :: rest, index => if k = index then some p else CustomPropertyLookup.find rest index

/-- The `(*map)[ index ] = entry` of `std::map`: overwrites the entry with
that key or inserts a new one at its place in key order. -/
def CustomPropertyLookup.assign : CustomPropertyLookup → Int → CustomProperty → CustomPropertyLookup
  | [], index, e => [(index, e)]
  | (k, p) :: rest, index, e =>
    if index < k then (index, e) :: (k, p) :: rest
    else if k = index then (index, e) :: rest
    else (k, p) :: CustomPropertyLookup.assign rest index e

/-- The loop of `GetPropertyIndex` (lines 160-167): the key of the first
entry, in iteration order, whose name is `name`. -/
def CustomPropertyLookup.findName : CustomPropertyLookup → String → Option Int
  | [], _ => none
  | (k, p) :: rest, name => if p.name = name then some k else CustomPropertyLookup.findName rest name

/-! ## The object and its surroundings -/

/-- The members of `ProxyObject` that hold its properties. The map pointer
`mCustomProperties` is `none` while it is NULL. The counter is an unsigned
integer whose declaration (proxy-object.h) is not among the sources; it is
kept as a natural number. -/
structure ProxyObject where
  mNextCustomPropertyIndex : Nat
  mCustomProperties : Option CustomPropertyLookup
  deriving DecidableEq, Repr

/-- A cross-thread property-set message: the cell to set and the new value. -/
structure PropertyMessage where
  cell : Nat
  value : PropertyValue
  deriving DecidableEq, Repr

/-- The part of the stage and update manager that the object reads and
writes: the event buffer index, the scene-graph cells by address, and the
queue of messages for the update thread. -/
structure Stage where
  eventBufferIndex : Nat
  heap : List AnimatableProperty
  messages : List PropertyMessage
  deriving DecidableEq, Repr

/-- A call made by `ProxyObject` into the concrete type (the pure virtual
member functions that a derived class implements). -/
inductive HookCall where
  | InstallSceneObjectProperty (cell : Nat) (name : String) (index : Int)
  | SetDefaultProperty (index : Int) (value : PropertyValue)
  | SetCustomProperty (index : Int) (value : PropertyValue)
  deriving DecidableEq, Repr

/-- The object together with what its member functions touch outside it. -/
structure System where
  proxy : ProxyObject
  stage : Stage
  calls : List HookCall
  deriving DecidableEq, Repr

/-- The constants and the concrete type that `ProxyObject` is compiled
against. `DEFAULT_PROPERTY_MAX_COUNT` (property-index-ranges.h) and
`Property::INVALID_INDEX` (property.h) are declared in headers that are not
among the sources; the default-property member functions are pure virtual
and belong to the derived class, whose own state is the history of the calls
made into it. `debug` tells whether `DALI_ASSERT_DEBUG` is compiled in. -/
structure Env where
  DEFAULT_PROPERTY_MAX_COUNT : Nat
  INVALID_INDEX : Int
  debug : Bool
  GetDefaultPropertyCount : Nat
  GetDefaultPropertyIndex : String → Int
  GetDefaultPropertyName : Int → String
  IsDefaultPropertyWritable : Int → Bool
  IsDefaultPropertyAnimatable : Int → Bool
  GetDefaultPropertyType : Int → PropertyType
  GetDefaultProperty : List HookCall → Int → PropertyValue

/-- The result of a member function: a normal return, a failed
`DALI_ASSERT_ALWAYS` or `DALI_ASSERT_DEBUG` (an exception carrying the
message), or undefined behaviour (a null pointer dereferenced where
`DALI_ASSERT_DEBUG` is compiled out); each with the system at that point. -/
inductive Outcome (α : Type) where
  | ok (ret : α) (s : System)
  | assertion (msg : String) (s : System)
  | undefined (s : System)
  deriving DecidableEq, Repr

/-- The system in which the outcome leaves the object and its surroundings. -/
def Outcome.system {α : Type} : Outcome α → System
  | .ok _ s => s
  | .assertion _ s => s
  | .undefined s => s

/-- Whether the member function failed with an assertion. -/
def Outcome.failed {α : Type} : Outcome α → Bool
  | .assertion _ _ => true
  | _ => false

/-- The constructor `ProxyObject::ProxyObject` (lines 53-60). -/
def ProxyObject.new : ProxyObject :=
  { mNextCustomPropertyIndex := 0, mCustomProperties := none }

/-- A freshly constructed object on a given stage. -/
def System.new (stage : Stage) : System :=
  { proxy := ProxyObject.new, stage := stage, calls := [] }

/-! ## Member functions of ProxyObject -/

/-- The member function `ProxyObject::GetCustomPropertyLookup` (lines 627-635):
creates the map on first use. -/
def GetCustomPropertyLookup (s : System) : System × CustomPropertyLookup :=
  match s.proxy.mCustomProperties with
  | some m => (s, m)
  | none => ({ s with proxy := { s.proxy with mCustomProperties := some [] } }, [])

/-- The member function `ProxyObject::GetPropertyCount` (lines 120-128). -/
def GetPropertyCount (env : Env) (s : System) : Nat :=
  match s.proxy.mCustomProperties with
  | some m => env.GetDefaultPropertyCount + m.length
  | none => env.GetDefaultPropertyCount

/-- The member function `ProxyObject::GetPropertyIndex` (lines 149-172). -/
def GetPropertyIndex (env : Env) (s : System) (name : String) : Outcome Int :=
  let index := env.GetDefaultPropertyIndex name
  if env.INVALID_INDEX = index then
    match s.proxy.mCustomProperties with
    | some m =>
      match m.findName name with
      | some k => .ok k s
      | none => .ok index s
    | none => .ok index s
  else .ok index s

/-- The member function `ProxyObject::IsPropertyWritable` (lines 174-192). -/
def IsPropertyWritable (env : Env) (s : System) (index : Int) : Outcome Bool :=
  if ¬ (index > env.INVALID_INDEX) then .assertion "Property index is out of bounds" s
  else if index < (env.DEFAULT_PROPERTY_MAX_COUNT : Int) then
    .ok (env.IsDefaultPropertyWritable index) s
  else
    match s.proxy.mCustomProperties with
    | some m =>
      match m.find index with
      | none => .assertion "Cannot find property index" s
      | some entry => .ok entry.IsWritable s
    | none => .ok false s

/-- The member function `ProxyObject::GetPropertyType` (lines 214-231). -/
def GetPropertyType (env : Env) (s : System) (index : Int) : Outcome PropertyType :=
  if ¬ (index > env.INVALID_INDEX) then .assertion "Property index is out of bounds" s
  else if index < (env.DEFAULT_PROPERTY_MAX_COUNT : Int) then
    .ok (env.GetDefaultPropertyType index) s
  else
    match s.proxy.mCustomProperties with
    | some m =>
      match m.find index with
      | none => .assertion "Cannot find Property index" s
      | some entry => .ok entry.type s
    | none => .ok .NONE s

/-- The `entry->second.value = propertyValue` of `SetProperty` (line 252):
the entry that `find` returned, changed in place. -/
def CustomPropertyLookup.setValue :
    CustomPropertyLookup → Int → PropertyValue → CustomPropertyLookup
  | [], _, _ => []
  | (k, p) :: rest, index, v =>
    if k = index then (k, { p with value := v }) :: rest
    else (k, p) :: CustomPropertyLookup.setValue rest index v

/-- Modelled from the spec: `SetCustomProperty`, a pure virtual member
function that the concrete type implements (not among the sources): "for
animatable properties, forwards the new value to the scene-graph copy via a
cross-thread property-set message"; typed data "must match the stored tag or
fail". An event-side property has no scene-graph copy and nothing is sent. -/
def SetCustomProperty (s : System) (index : Int) (entry : CustomProperty)
    (value : PropertyValue) : Outcome Unit :=
  let s1 := { s with calls := s.calls ++ [HookCall.SetCustomProperty index value] }
  match entry.mProperty with
  | some cell =>
    if value.GetType = entry.type then
      .ok () { s1 with stage := { s1.stage with
                messages := s1.stage.messages ++ [{ cell := cell, value := value }] } }
    else .assertion "Property type mismatch" s1
  | none => .ok () s1

/-- The member function `ProxyObject::SetProperty` (lines 233-257). -/
def SetProperty (env : Env) (s : System) (index : Int) (propertyValue : PropertyValue) :
    Outcome Unit :=
  if ¬ (index > env.INVALID_INDEX) then .assertion "Property index is out of bounds" s
  else if index < (env.DEFAULT_PROPERTY_MAX_COUNT : Int) then
    if ¬ env.IsDefaultPropertyWritable index then .assertion "Property is read-only" s
    else .ok () { s with calls := s.calls ++ [HookCall.SetDefaultProperty index propertyValue] }
  else
    match s.proxy.mCustomProperties with
    | some m =>
      match m.find index with
      | none => .assertion "Cannot find property index" s
      | some entry =>
        if ¬ entry.IsWritable then .assertion "Property is read-only" s
        else
          let entry1 := if entry.IsWritable then { entry with value := propertyValue } else entry
          let m1 := if entry.IsWritable then m.setValue index propertyValue else m
          SetCustomProperty { s with proxy := { s.proxy with mCustomProperties := some m1 } }
            index entry1 propertyValue
    | none => .ok () s

/-- The eight types that the switches of `GetProperty` (lines 282-361) and
`RegisterProperty` (lines 377-433) have a case for. -/
def isAnimatableType : PropertyType → Bool
  | .BOOLEAN | .FLOAT | .VECTOR2 | .VECTOR3 | .VECTOR4 | .MATRIX | .MATRIX3 | .ROTATION => true
  | _ => false

/-- The `dynamic_cast< AnimatableProperty<T>* >( entry->second.GetSceneGraphProperty() )`
of `GetProperty`, with `T` the type of the `case`: the cell the entry points
to if it is an `AnimatableProperty<T>`, and NULL otherwise. -/
def castSceneGraphProperty (s : System) (entry : CustomProperty) (t : PropertyType) :
    Option AnimatableProperty :=
  match entry.mProperty with
  | none => none
  | some cell =>
    match s.stage.heap[cell]? with
    | some p => if p.kind = t then some p else none
    | none => none

/-- The member function `ProxyObject::GetProperty` (lines 259-367). The eight
cases of the switch differ only in the template argument and are written
once, for the type of the entry. -/
def GetProperty (env : Env) (s : System) (index : Int) : Outcome PropertyValue :=
  if ¬ (index > env.INVALID_INDEX) then .assertion "Property index is out of bounds" s
  else if index < (env.DEFAULT_PROPERTY_MAX_COUNT : Int) then
    .ok (env.GetDefaultProperty s.calls index) s
  else
    match s.proxy.mCustomProperties with
    | some m =>
      match m.find index with
      | none => .assertion "Cannot find property index" s
      | some entry =>
        if ¬ entry.IsAnimatable then .ok entry.value s
        else if isAnimatableType entry.type then
          match castSceneGraphProperty s entry entry.type with
          | some property => .ok (property.get s.stage.eventBufferIndex) s
          | none => if env.debug then .assertion "NULL != property" s else .undefined s
        else .assertion "PropertyType enumeration is out of bounds" s
    | none => .ok .NONE s

/-- The lines 435-442 and 465-472 of the two `RegisterProperty` overloads:
the counter starts at `DEFAULT_PROPERTY_MAX_COUNT` the first time, and
`mNextCustomPropertyIndex++` yields the index and moves the counter on. -/
def nextCustomPropertyIndex (env : Env) (s : System) : Int × System :=
  let next := if s.proxy.mNextCustomPropertyIndex = 0 then env.DEFAULT_PROPERTY_MAX_COUNT
              else s.proxy.mNextCustomPropertyIndex
  ((next : Int), { s with proxy := { s.proxy with mNextCustomPropertyIndex := next + 1 } })

/-- The member function `ProxyObject::RegisterProperty( name, propertyValue )`
(lines 369-453). The new cell gets the next free address of the heap; when
an assertion fails the `auto_ptr` frees it again. -/
def RegisterProperty (env : Env) (s : System) (name : String) (propertyValue : PropertyValue) :
    Outcome Int :=
  match GetPropertyIndex env s name with
  | .ok found s0 =>
    if ¬ (env.INVALID_INDEX = found) then .assertion "Property index is out of bounds" s0
    else
      match newAnimatableProperty propertyValue with
      | none => .assertion "PropertyType enumeration is out of bounds" s0
      | some newProperty =>
        let (index, s1) := nextCustomPropertyIndex env s0
        let (s2, m) := GetCustomPropertyLookup s1
        match m.find index with
        | some _ => .assertion "Custom property already registered" s2
        | none =>
          let cell := s2.stage.heap.length
          let m1 := m.assign index (CustomProperty.animatable name propertyValue.GetType cell)
          .ok index
            { proxy := { s2.proxy with mCustomProperties := some m1 },
              stage := { s2.stage with heap := s2.stage.heap ++ [newProperty] },
              calls := s2.calls ++ [HookCall.InstallSceneObjectProperty cell name index] }
  | .assertion msg s0 => .assertion msg s0
  | .undefined s0 => .undefined s0

/-- The member function
`ProxyObject::RegisterProperty( name, propertyValue, accessMode )` (lines 455-477). -/
def RegisterPropertyWithMode (env : Env) (s : System) (name : String)
    (propertyValue : PropertyValue) (accessMode : AccessMode) : Outcome Int :=
  if AccessMode.ANIMATABLE = accessMode then RegisterProperty env s name propertyValue
  else
    let (index, s1) := nextCustomPropertyIndex env s
    let (s2, m) := GetCustomPropertyLookup s1
    let m1 := m.assign index (CustomProperty.eventSide name propertyValue accessMode)
    .ok index { s2 with proxy := { s2.proxy with mCustomProperties := some m1 } }

/-! ## Sequences of operations -/

/-- The C++ type of a cell fixes the type of both of its copies. -/
def AnimatableProperty.wellTyped (p : AnimatableProperty) : Bool :=
  p.mValue0.GetType = p.kind && p.mValue1.GetType = p.kind

/-- Every cell of the stage holds values of its own type. -/
def Stage.wellTyped (st : Stage) : Bool :=
  st.heap.all AnimatableProperty.wellTyped

/-- What the update thread and the other objects of the stage may do between
two calls on the object: flip the buffer index, rewrite the values of cells,
drain or fill the message queue and create further cells. A cell that exists
keeps its address and its C++ type. -/
def Stage.evolves (old new : Stage) : Bool :=
  (old.heap.map AnimatableProperty.kind).isPrefixOf (new.heap.map AnimatableProperty.kind)
    && new.wellTyped

/-- One event in the life of an object: a call of one of its member
functions, or progress of the rest of the system. -/
inductive Op where
  | RegisterProperty (name : String) (value : PropertyValue)
  | RegisterPropertyWithMode (name : String) (value : PropertyValue) (accessMode : AccessMode)
  | SetProperty (index : Int) (value : PropertyValue)
  | GetProperty (index : Int)
  | GetPropertyIndex (name : String)
  | update (stage : Stage)
  deriving DecidableEq, Repr

/-- The system after an event; a failed assertion leaves the system as it was
when the exception was thrown. -/
def step (env : Env) (s : System) : Op → System
  | .RegisterProperty name value => (RegisterProperty env s name value).system
  | .RegisterPropertyWithMode name value accessMode =>
    (RegisterPropertyWithMode env s name value accessMode).system
  | .SetProperty index value => (SetProperty env s index value).system
  | .GetProperty index => (GetProperty env s index).system
  | .GetPropertyIndex name => (GetPropertyIndex env s name).system
  | .update stage => if s.stage.evolves stage then { s with stage := stage } else s

/-- The system after a sequence of events. -/
def run (env : Env) (s : System) (ops : List Op) : System :=
  ops.foldl (step env) s

/-- The index that an event returns from a successful registration. -/
def registered (env : Env) (s : System) : Op → Option Int
  | .RegisterProperty name value =>
    match RegisterProperty env s name value with
    | .ok index _ => some index
    | _ => none
  | .RegisterPropertyWithMode name value accessMode =>
    match RegisterPropertyWithMode env s name value accessMode with
    | .ok index _ => some index
    | _ => none
  | _ => none

/-- The indices returned by the successful registrations of a sequence of
events, in the order of the calls. -/
def registrations (env : Env) (s : System) : List Op → List Int
  | [] => []
  | op :: ops => (registered env s op).toList ++ registrations env (step env s op) ops

/-- A state of an object that has been constructed on some stage and then
used through its member functions. -/
def Reachable (env : Env) (s : System) : Prop :=
  ∃ (stage : Stage) (ops : List Op), stage.wellTyped = true ∧ run env (System.new stage) ops = s

/-- The index ranges of the data model: indices from 0 are default or custom
properties, so the invalid-index sentinel is a negative number. -/
def Env.sentinelNegative (env : Env) : Prop :=
  env.INVALID_INDEX < 0

/-! ## A small concrete type -/

/-- A concrete type with two default properties, "size" (writable) and
"id" (read-only), and room for ten default indices. -/
def demoEnv : Env :=
  { DEFAULT_PROPERTY_MAX_COUNT := 10
    INVALID_INDEX := -1
    debug := true
    GetDefaultPropertyCount := 2
    GetDefaultPropertyIndex := fun name =>
      if name = "size" then 0 else if name = "id" then 1 else -1
    GetDefaultPropertyName := fun index =>
      if index = 0 then "size" else if index = 1 then "id" else ""
    IsDefaultPropertyWritable := fun index => index = 0
    IsDefaultPropertyAnimatable := fun index => index = 0
    GetDefaultPropertyType := fun index =>
      if index = 0 then .VECTOR3 else if index = 1 then .FLOAT else .NONE
    GetDefaultProperty := fun _ index =>
      if index = 0 then .VECTOR3 [0, 0, 0] else if index = 1 then .FLOAT 7 else .NONE }

/-- A stage with no cells yet. -/
def demoStage : Stage :=
  { eventBufferIndex := 0, heap := [], messages := [] }

/-- An object of the small concrete type on which the event-side property
"a" has been registered. -/
def demoRegistered : System :=
  run demoEnv (System.new demoStage)
    [Op.RegisterPropertyWithMode "a" (PropertyValue.FLOAT 3) AccessMode.READ_WRITE]

/-- An object of the small concrete type on which the animatable property
"x" has been registered with value 2.0. -/
def demoAnimatable : System :=
  run demoEnv (System.new demoStage) [Op.RegisterProperty "x" (PropertyValue.FLOAT 2)]

/-! ## Invariants of reachable states -/

/-- The index that the next successful registration returns. -/
def nextIndex (env : Env) (s : System) : Nat :=
  if s.proxy.mNextCustomPropertyIndex = 0 then env.DEFAULT_PROPERTY_MAX_COUNT
  else s.proxy.mNextCustomPropertyIndex

/-- The entries of the custom-property map, none while it is not allocated. -/
def customProperties (s : System) : CustomPropertyLookup :=
  s.proxy.mCustomProperties.getD []

/-- The keys of the custom-property map are the indices handed out so far:
none while the map is not allocated, and afterwards the run from
`DEFAULT_PROPERTY_MAX_COUNT` up to the counter. -/
structure KeysInv (env : Env) (s : System) : Prop where
  unallocated : s.proxy.mCustomProperties = none → s.proxy.mNextCustomPropertyIndex = 0
  allocated : ∀ m, s.proxy.mCustomProperties = some m →
    env.DEFAULT_PROPERTY_MAX_COUNT < s.proxy.mNextCustomPropertyIndex ∧
    m.map Prod.fst =
      (List.range' env.DEFAULT_PROPERTY_MAX_COUNT
        (s.proxy.mNextCustomPropertyIndex - env.DEFAULT_PROPERTY_MAX_COUNT)).map
        (fun n : Nat => (n : Int))

/-- The proxy after a registration has added the entry `e`. -/
def withEntry (env : Env) (s : System) (e : CustomProperty) : ProxyObject :=
  { mNextCustomPropertyIndex := nextIndex env s + 1,
    mCustomProperties := some (customProperties s ++ [((nextIndex env s : Int), e)]) }

/-- The value that `GetPropertyIndex` returns. -/
def propertyIndexOf (env : Env) (s : System) (name : String) : Int :=
  if env.INVALID_INDEX = env.GetDefaultPropertyIndex name then
    ((customProperties s).findName name).getD (env.GetDefaultPropertyIndex name)
  else env.GetDefaultPropertyIndex name

/-- The system after a successful registration of an animatable property
whose cell is `newProperty`. -/
def withAnimatable (env : Env) (s : System) (name : String) (type : PropertyType)
    (newProperty : AnimatableProperty) : System :=
  { proxy := withEntry env s (CustomProperty.animatable name type s.stage.heap.length),
    stage := { s.stage with heap := s.stage.heap ++ [newProperty] },
    calls := s.calls ++
      [HookCall.InstallSceneObjectProperty s.stage.heap.length name (nextIndex env s : Int)] }

/-- An entry of the map is either event-side, with no cell and an access
mode other than ANIMATABLE, or animatable, pointing to a cell of the heap
that was created for the type of the entry, one of the eight animatable
types. -/
def entryOk (heap : List AnimatableProperty) (p : CustomProperty) : Prop :=
  (p.mProperty = none ∧ p.mAccessMode ≠ AccessMode.ANIMATABLE) ∨
  (∃ cell c, p.mProperty = some cell ∧ heap[cell]? = some c ∧ c.kind = p.type ∧
    isAnimatableType p.type = true ∧ p.mAccessMode = AccessMode.ANIMATABLE)

/-- Every cell is well typed and every entry of the map is in order. -/
structure EntriesInv (s : System) : Prop where
  typed : s.stage.wellTyped = true
  entries : ∀ kp ∈ customProperties s, entryOk s.stage.heap kp.2

/-- The entry `e1` is the entry `e` at a later time: name, type, cell and
access mode are those of `e`, and the cached value is that of `e` unless the
entry is writable. -/
def CustomProperty.sameAs (e e1 : CustomProperty) : Prop :=
  e1.name = e.name ∧ e1.type = e.type ∧ e1.mProperty = e.mProperty ∧
  e1.mAccessMode = e.mAccessMode ∧ (e.IsWritable = false → e1.value = e.value)

/-! ## Observers, notifications and constraints -/

/-- The member function `ProxyObject::IsPropertyAnimatable` (lines 194-212). -/
def IsPropertyAnimatable (env : Env) (s : System) (index : Int) : Outcome Bool :=
  if ¬ (index > env.INVALID_INDEX) then .assertion "Property index is out of bounds" s
  else if index < (env.DEFAULT_PROPERTY_MAX_COUNT : Int) then
    .ok (env.IsDefaultPropertyAnimatable index) s
  else
    match s.proxy.mCustomProperties with
    | some m =>
      match m.find index with
      | none => .assertion "Cannot find property index" s
      | some entry => .ok entry.IsAnimatable s
    | none => .ok false s

/-- Modelled from the spec: the body of a `PropertyNotification`
(property-notification-impl.h is not among the sources): the property index
and the condition it is bound to, and its state, Enabled or Disabled. A
handle to a notification is the address of its body. -/
structure PropertyNotificationBody where
  index : Int
  condition : Nat
  enabled : Bool
  deriving DecidableEq, Repr

/-- A `Constraint` as far as `ProxyObject` looks at it: which constraint it
is, and the result of `GetApplyTime()`. -/
structure Constraint where
  id : Nat
  applyTime : Nat
  deriving DecidableEq, Repr

/-- A call that `ProxyObject` makes on one of its collaborators (an observer,
a property notification, an active constraint), or the release of one of its
containers, in the order in which they happen. Observers, notifications and
active constraints are named by their address. -/
inductive Event where
  | SceneObjectAdded (observer : Nat)
  | SceneObjectRemoved (observer : Nat)
  | ProxyDestroyed (observer : Nat)
  | Enable (handle : Nat)
  | Disable (handle : Nat)
  | FirstApply (constraint : Nat) (applyTime : Nat) (callback : Option Nat)
  | BeginRemove (constraint : Nat)
  | deleteCustomProperties
  | deleteConstraints
  | deleteRemovedConstraints
  | deletePropertyNotifications
  deriving DecidableEq, Repr

/-- The build and the concrete type as in `Env`, and the member functions of
`Constraint` and `ActiveConstraintBase` (constraint-impl.h and
active-constraint-base.h are not among the sources), taken as parameters.
The state of an active constraint is opaque to `ProxyObject` and is kept as
a number. -/
structure ProxyEnv extends Env where
  CreateActiveConstraint : Constraint → Nat
  FirstApply : Nat → Nat → Option Nat → Nat
  BeginRemove : Nat → Nat
  IsRemoving : Nat → Bool

/-- The object with all its members, and what its member functions touch
outside it. `system` holds the property members and the stage as before. The
three containers behind pointers are `none` while the pointer is NULL; a
container is a `std::vector` of handles. `sceneObject` is the result of the
pure virtual `GetSceneObject()`. `notifications` and `constraints` are the
bodies of the property notifications and the states of the active
constraints, by address. -/
structure ProxySystem where
  system : System
  mObservers : List Nat
  mConstraints : Option (List Nat)
  mRemovedConstraints : Option (List Nat)
  mPropertyNotifications : Option (List Nat)
  sceneObject : Option Nat
  notifications : List PropertyNotificationBody
  constraints : List Nat
  trace : List Event
  deriving DecidableEq, Repr

/-- The result of a member function on the whole object, as `Outcome`. -/
inductive ProxyOutcome (α : Type) where
  | ok (ret : α) (ps : ProxySystem)
  | assertion (msg : String) (ps : ProxySystem)
  | undefined (ps : ProxySystem)
  deriving DecidableEq, Repr

/-- The object and its surroundings when the member function is left. -/
def ProxyOutcome.system {α : Type} : ProxyOutcome α → ProxySystem
  | .ok _ ps => ps
  | .assertion _ ps => ps
  | .undefined ps => ps

/-- Whether the member function failed with an assertion. -/
def ProxyOutcome.failed {α : Type} : ProxyOutcome α → Bool
  | .assertion _ _ => true
  | _ => false

/-- A freshly constructed object (lines 53-60) on a given stage, not attached
to the scene graph. -/
def ProxySystem.new (stage : Stage) : ProxySystem :=
  { system := System.new stage, mObservers := [], mConstraints := none,
    mRemovedConstraints := none, mPropertyNotifications := none, sceneObject := none,
    notifications := [], constraints := [], trace := [] }

/-- The member function `ProxyObject::AddObserver` (lines 62-69). The
assertion is a `DALI_ASSERT_DEBUG`. -/
def AddObserver (penv : ProxyEnv) (ps : ProxySystem) (observer : Nat) : ProxyOutcome Unit :=
  if penv.debug && decide (observer ∈ ps.mObservers) then
    .assertion "mObservers.End() == std::find( mObservers.Begin(), mObservers.End(), &observer)" ps
  else .ok () { ps with mObservers := ps.mObservers ++ [observer] }

/-- The member function `ProxyObject::RemoveObserver` (lines 71-84): the
first occurrence is erased; the closing `DALI_ASSERT_DEBUG` compares the end
of the vector with its end before the loop, which differ exactly when an
element was erased. -/
def RemoveObserver (penv : ProxyEnv) (ps : ProxySystem) (observer : Nat) : ProxyOutcome Unit :=
  let ps1 := { ps with mObservers := ps.mObservers.erase observer }
  if penv.debug && !decide (observer ∈ ps.mObservers) then
    .assertion "endIter != mObservers.End()" ps1
  else .ok () ps1

/-- The state of a notification body at an address set to `enabled`. -/
def setEnabled : List PropertyNotificationBody → Nat → Bool → List PropertyNotificationBody
  | [], _, _ => []
  | b :: rest, 0, e => { b with enabled := e } :: rest
  | b :: rest, n + 1, e => b :: setEnabled rest n e

/-- Modelled from the spec: `PropertyNotification::Enable`; the notification
becomes Enabled. -/
def PropertyNotificationEnable (ps : ProxySystem) (handle : Nat) : ProxySystem :=
  { ps with notifications := setEnabled ps.notifications handle true,
            trace := ps.trace ++ [Event.Enable handle] }

/-- Modelled from the spec: `PropertyNotification::Disable`; the notification
becomes Disabled. -/
def PropertyNotificationDisable (ps : ProxySystem) (handle : Nat) : ProxySystem :=
  { ps with notifications := setEnabled ps.notifications handle false,
            trace := ps.trace ++ [Event.Disable handle] }

/-- The member function `ProxyObject::EnablePropertyNotifications` (lines 550-562). -/
def EnablePropertyNotifications (ps : ProxySystem) : ProxySystem :=
  match ps.mPropertyNotifications with
  | some container => container.foldl PropertyNotificationEnable ps
  | none => ps

/-- The member function `ProxyObject::DisablePropertyNotifications` (lines 564-576). -/
def DisablePropertyNotifications (ps : ProxySystem) : ProxySystem :=
  match ps.mPropertyNotifications with
  | some container => container.foldl PropertyNotificationDisable ps
  | none => ps

/-- The member function `ProxyObject::OnSceneObjectAdd` (lines 86-96). -/
def OnSceneObjectAdd (ps : ProxySystem) : ProxySystem :=
  EnablePropertyNotifications
    { ps with trace := ps.trace ++ ps.mObservers.map Event.SceneObjectAdded }

/-- The member function `ProxyObject::OnSceneObjectRemove` (lines 98-108). -/
def OnSceneObjectRemove (ps : ProxySystem) : ProxySystem :=
  DisablePropertyNotifications
    { ps with trace := ps.trace ++ ps.mObservers.map Event.SceneObjectRemoved }

/-- Modelled from the spec: `PropertyNotification::New( target, condition )`,
which "creates a notification bound to this object and property, defaulted
to Enabled only while the object is attached to the active scene graph". The
new body gets the next free address, which is the handle returned. -/
def PropertyNotificationNew (ps : ProxySystem) (index : Int) (condition : Nat) :
    Nat × ProxySystem :=
  (ps.notifications.length,
    { ps with notifications := ps.notifications ++
        [{ index := index, condition := condition, enabled := ps.sceneObject.isSome }] })

/-- The lines 490-502 of `AddPropertyNotification`: the notification is
created and pushed to the back of the container, which is created on first
use. -/
def pushPropertyNotification (ps : ProxySystem) (index : Int) (condition : Nat) :
    ProxyOutcome Nat :=
  let (handle, ps1) := PropertyNotificationNew ps index condition
  .ok handle
    { ps1 with mPropertyNotifications := some (ps1.mPropertyNotifications.getD [] ++ [handle]) }

/-- The member function `ProxyObject::AddPropertyNotification( index, condition )`
(lines 479-503). -/
def AddPropertyNotification (penv : ProxyEnv) (ps : ProxySystem) (index : Int)
    (condition : Nat) : ProxyOutcome Nat :=
  if index ≥ (penv.DEFAULT_PROPERTY_MAX_COUNT : Int) then
    match ps.system.proxy.mCustomProperties with
    | some m =>
      match m.find index with
      | none => .assertion "Cannot find property index" ps
      | some entry =>
        if ¬ entry.IsAnimatable then
          .assertion
            "Property notification added to non animatable property (currently not suppported )"
            ps
        else pushPropertyNotification ps index condition
    | none => pushPropertyNotification ps index condition
  else pushPropertyNotification ps index condition

/-- The deprecated member function
`ProxyObject::AddPropertyNotification( index, condition, callback )` (lines 505-511). -/
def AddPropertyNotificationWithCallback (penv : ProxyEnv) (ps : ProxySystem) (index : Int)
    (condition : Nat) (_callback : Nat) : ProxyOutcome Nat :=
  AddPropertyNotification penv ps index condition

/-- The member function `ProxyObject::RemovePropertyNotification` (lines 513-531). -/
def RemovePropertyNotification (ps : ProxySystem) (propertyNotification : Nat) :
    ProxySystem :=
  match ps.mPropertyNotifications with
  | some container =>
    if propertyNotification ∈ container then
      PropertyNotificationDisable
        { ps with mPropertyNotifications := some (container.erase propertyNotification) }
        propertyNotification
    else ps
  | none => ps

/-- The member function `ProxyObject::RemovePropertyNotifications` (lines 533-548). -/
def RemovePropertyNotifications (ps : ProxySystem) : ProxySystem :=
  match ps.mPropertyNotifications with
  | some container =>
    let ps1 := container.foldl PropertyNotificationDisable ps
    { ps1 with mPropertyNotifications := some [] }
  | none => ps

/-- The state of the active constraint behind a handle. -/
def constraintState (ps : ProxySystem) (handle : Nat) : Nat :=
  ps.constraints.getD handle 0

/-- The state of the active constraint at an address replaced by `state`. -/
def setConstraintState : List Nat → Nat → Nat → List Nat
  | [], _, _ => []
  | _ :: rest, 0, state => state :: rest
  | c :: rest, n + 1, state => c :: setConstraintState rest n state

/-- The call `activeConstraintImpl->FirstApply( *this, applyTime, callback )`. -/
def ActiveConstraintFirstApply (penv : ProxyEnv) (ps : ProxySystem) (handle : Nat)
    (applyTime : Nat) (callback : Option Nat) : ProxySystem :=
  { ps with
    constraints := setConstraintState ps.constraints handle
      (penv.FirstApply (constraintState ps handle) applyTime callback),
    trace := ps.trace ++ [Event.FirstApply handle applyTime callback] }

/-- The call `constraint.BeginRemove()`. -/
def ActiveConstraintBeginRemove (penv : ProxyEnv) (ps : ProxySystem) (handle : Nat) :
    ProxySystem :=
  { ps with
    constraints := setConstraintState ps.constraints handle
      (penv.BeginRemove (constraintState ps handle)),
    trace := ps.trace ++ [Event.BeginRemove handle] }

/-- The call `constraint.IsRemoving()`. -/
def ActiveConstraintIsRemoving (penv : ProxyEnv) (ps : ProxySystem) (handle : Nat) : Bool :=
  penv.IsRemoving (constraintState ps handle)

/-- The member function `ProxyObject::DoApplyConstraint` (lines 588-604).
`constraint.CreateActiveConstraint()` creates a new active constraint at the
next free address, so the `DALI_ASSERT_DEBUG( NULL != activeConstraintImpl )`
holds. -/
def DoApplyConstraint (penv : ProxyEnv) (ps : ProxySystem) (constraint : Constraint)
    (callback : Option Nat) : ProxyOutcome Nat :=
  let activeConstraint := ps.constraints.length
  let ps1 := { ps with constraints := ps.constraints ++ [penv.CreateActiveConstraint constraint] }
  let ps2 := { ps1 with mConstraints := some (ps1.mConstraints.getD [] ++ [activeConstraint]) }
  .ok activeConstraint
    (ActiveConstraintFirstApply penv ps2 activeConstraint constraint.applyTime callback)

/-- The member function `ProxyObject::ApplyConstraint( constraint )` (lines 578-581). -/
def ApplyConstraint (penv : ProxyEnv) (ps : ProxySystem) (constraint : Constraint) :
    ProxyOutcome Nat :=
  DoApplyConstraint penv ps constraint none

/-- The member function `ProxyObject::ApplyConstraint( constraint, callback )`
(lines 583-586). -/
def ApplyConstraintWithCallback (penv : ProxyEnv) (ps : ProxySystem) (constraint : Constraint)
    (callback : Nat) : ProxyOutcome Nat :=
  DoApplyConstraint penv ps constraint (some callback)

/-- The member function `ProxyObject::DeleteRemovedConstraints` (lines 606-625). -/
def DeleteRemovedConstraints (penv : ProxyEnv) (ps : ProxySystem) : ProxySystem :=
  match ps.mRemovedConstraints with
  | none => ps
  | some removed =>
    let kept := removed.filter (fun handle => ActiveConstraintIsRemoving penv ps handle)
    { ps with mRemovedConstraints := some kept }

/-- The `std::find( mConstraints->begin(), mConstraints->end(), activeConstraint )`:
the position of the first occurrence, `none` for `end()`. -/
def findConstraint : List Nat → Nat → Option Nat
  | [], _ => none
  | c :: rest, handle =>
    if c = handle then some 0 else (findConstraint rest handle).map (fun i => i + 1)

/-- The member function `ProxyObject::RemoveConstraint` (lines 637-677). With
a scene object, line 673 pushes `*it` after line 664 has erased `it`: in a
`std::vector` the iterator then designates the element that followed the
erased one, and the position past the end when the erased one was the last,
where reading it is undefined behaviour. -/
def RemoveConstraint (penv : ProxyEnv) (ps : ProxySystem) (activeConstraint : Nat) :
    ProxyOutcome Unit :=
  match ps.mConstraints with
  | none => .ok () ps
  | some container =>
    match ps.sceneObject with
    | none =>
      .ok () { ps with mConstraints := some (container.erase activeConstraint),
                       mRemovedConstraints := none }
    | some _ =>
      let ps1 := DeleteRemovedConstraints penv ps
      match findConstraint container activeConstraint with
      | none => .ok () ps1
      | some it =>
        let ps2 := ActiveConstraintBeginRemove penv ps1 activeConstraint
        let erased := container.eraseIdx it
        let ps3 := { ps2 with mConstraints := some erased }
        if ActiveConstraintIsRemoving penv ps3 activeConstraint then
          match erased[it]? with
          | some next =>
            .ok () { ps3 with
              mRemovedConstraints := some (ps3.mRemovedConstraints.getD [] ++ [next]) }
          | none => .undefined { ps3 with
              mRemovedConstraints := some (ps3.mRemovedConstraints.getD []) }
        else .ok () ps3

/-- One turn of the loop of `RemoveConstraints` (lines 700-712). -/
def removeOne (penv : ProxyEnv) (ps : ProxySystem) (handle : Nat) : ProxySystem :=
  let ps1 := ActiveConstraintBeginRemove penv ps handle
  if ActiveConstraintIsRemoving penv ps1 handle then
    { ps1 with mRemovedConstraints := some (ps1.mRemovedConstraints.getD [] ++ [handle]) }
  else ps1

/-- The member function `ProxyObject::RemoveConstraints` (lines 679-718). -/
def RemoveConstraints (penv : ProxyEnv) (ps : ProxySystem) : ProxySystem :=
  match ps.mConstraints with
  | none => ps
  | some container =>
    match ps.sceneObject with
    | none => { ps with mConstraints := none, mRemovedConstraints := none }
    | some _ =>
      let ps1 := container.foldl (removeOne penv) (DeleteRemovedConstraints penv ps)
      { ps1 with mConstraints := none }

/-- The destructor `ProxyObject::~ProxyObject` (lines 720-732). -/
def destroy (ps : ProxySystem) : ProxySystem :=
  { ps with
    system := { ps.system with proxy := { ps.system.proxy with mCustomProperties := none } },
    mConstraints := none,
    mRemovedConstraints := none,
    mPropertyNotifications := none,
    trace := ps.trace ++ ps.mObservers.map Event.ProxyDestroyed ++
      [Event.deleteCustomProperties, Event.deleteConstraints, Event.deleteRemovedConstraints,
       Event.deletePropertyNotifications] }

/-! ## Sequences of operations on the whole object -/

/-- One event in the life of the whole object: one of the events on its
properties, a call of one of the other member functions, or progress of the
rest of the system, which may attach or detach the scene object and move the
active constraints on. -/
inductive ProxyOp where
  | property (op : Op)
  | AddObserver (observer : Nat)
  | RemoveObserver (observer : Nat)
  | OnSceneObjectAdd
  | OnSceneObjectRemove
  | AddPropertyNotification (index : Int) (condition : Nat)
  | RemovePropertyNotification (propertyNotification : Nat)
  | RemovePropertyNotifications
  | ApplyConstraint (constraint : Constraint) (callback : Option Nat)
  | RemoveConstraint (activeConstraint : Nat)
  | RemoveConstraints
  | world (sceneObject : Option Nat) (constraints : List Nat)
  deriving DecidableEq, Repr

/-- The whole object after an event. -/
def proxyStep (penv : ProxyEnv) (ps : ProxySystem) : ProxyOp → ProxySystem
  | .property op => { ps with system := step penv.toEnv ps.system op }
  | .AddObserver observer => (AddObserver penv ps observer).system
  | .RemoveObserver observer => (RemoveObserver penv ps observer).system
  | .OnSceneObjectAdd => OnSceneObjectAdd ps
  | .OnSceneObjectRemove => OnSceneObjectRemove ps
  | .AddPropertyNotification index condition =>
    (AddPropertyNotification penv ps index condition).system
  | .RemovePropertyNotification propertyNotification =>
    RemovePropertyNotification ps propertyNotification
  | .RemovePropertyNotifications => RemovePropertyNotifications ps
  | .ApplyConstraint constraint callback =>
    (DoApplyConstraint penv ps constraint callback).system
  | .RemoveConstraint activeConstraint => (RemoveConstraint penv ps activeConstraint).system
  | .RemoveConstraints => RemoveConstraints penv ps
  | .world sceneObject constraints =>
    if constraints.length = ps.constraints.length then
      { ps with sceneObject := sceneObject, constraints := constraints }
    else ps

/-- The whole object after a sequence of events. -/
def proxyRun (penv : ProxyEnv) (ps : ProxySystem) (ops : List ProxyOp) : ProxySystem :=
  ops.foldl (proxyStep penv) ps

/-- A state of the whole object after construction on some stage and any
sequence of events. -/
def ProxyReachable (penv : ProxyEnv) (ps : ProxySystem) : Prop :=
  ∃ (stage : Stage) (ops : List ProxyOp),
    stage.wellTyped = true ∧ proxyRun penv (ProxySystem.new stage) ops = ps

/-- The small concrete type in a build with `DALI_ASSERT_DEBUG`, with active
constraints that follow the state machine of the constraint runtime:
0 Applying, 1 Applied, 2 Removing, 3 Removed. -/
def demoProxyEnv : ProxyEnv :=
  { demoEnv with
    CreateActiveConstraint := fun _ => 0
    FirstApply := fun _ _ _ => 0
    BeginRemove := fun state => if state ≤ 1 then 2 else state
    IsRemoving := fun state => state = 2 }

/-- The small concrete type in a build without `DALI_ASSERT_DEBUG`. -/
def releaseProxyEnv : ProxyEnv :=
  { demoProxyEnv with debug := false }

/-- The handles in the notification container, none while it is not
allocated. -/
def notificationContainer (ps : ProxySystem) : List Nat :=
  ps.mPropertyNotifications.getD []

/-- The handles in the constraint container, none while it is not allocated. -/
def constraintContainer (ps : ProxySystem) : List Nat :=
  ps.mConstraints.getD []

/-- The handles in the pending-removal list, none while it is not allocated. -/
def removedContainer (ps : ProxySystem) : List Nat :=
  ps.mRemovedConstraints.getD []

/-- Every handle in the notification container is the address of a body and
occurs once; in a build with `DALI_ASSERT_DEBUG` no observer occurs twice. -/
structure ContainersInv (penv : ProxyEnv) (ps : ProxySystem) : Prop where
  observers : penv.debug = true → ps.mObservers.Nodup
  handles : ∀ handle ∈ notificationContainer ps, handle < ps.notifications.length
  distinct : (notificationContainer ps).Nodup

/-- The member function left the observers, the notifications and the
property part of the object alone. -/
def constraintsOnly (ps ps1 : ProxySystem) : Prop :=
  ps1.system = ps.system ∧ ps1.mObservers = ps.mObservers ∧
  ps1.mPropertyNotifications = ps.mPropertyNotifications ∧
  ps1.notifications = ps.notifications

/-- An object of the small concrete type with the two notifications 0 and 1
on its default property "size". -/
def demoNotified : ProxySystem :=
  proxyRun demoProxyEnv (ProxySystem.new demoStage)
    [ProxyOp.AddPropertyNotification 0 5, ProxyOp.AddPropertyNotification 0 6]

/-- An object of the small concrete type that is attached to the scene graph
and has the two active constraints 0 and 1 applied. -/
def demoConstrained : ProxySystem :=
  proxyRun demoProxyEnv (ProxySystem.new demoStage)
    [ProxyOp.world (some 1) [],
     ProxyOp.ApplyConstraint { id := 1, applyTime := 0 } none,
     ProxyOp.ApplyConstraint { id := 2, applyTime := 0 } none]

/-- The events of a sequence that are events on the properties. -/
def propertyOps : List ProxyOp → List Op
  | [] => []
  | ProxyOp.property op :: rest => op :: propertyOps rest
  | _ :: rest => propertyOps rest

/-- The whole object of the small concrete type with the event-side property
"a" registered at index 10. -/
def demoProxyRegistered : ProxySystem :=
  proxyRun demoProxyEnv (ProxySystem.new demoStage)
    [ProxyOp.property
      (Op.RegisterPropertyWithMode "a" (PropertyValue.FLOAT 3) AccessMode.READ_WRITE)]

/-- The attached object of the small concrete type after its only constraint
has been removed: the constraint is in the pending-removal list and its
removal is in flight. -/
def demoPending : ProxySystem :=
  proxyRun demoProxyEnv (ProxySystem.new demoStage)
    [ProxyOp.world (some 1) [],
     ProxyOp.ApplyConstraint { id := 1, applyTime := 0 } none,
     ProxyOp.RemoveConstraints]

/-- The object of `demoPending` after it has been detached from the scene
graph and a second constraint has been applied; the removal of the first is
still in flight. -/
def demoDetached : ProxySystem :=
  proxyRun demoProxyEnv demoPending
    [ProxyOp.world none [2],
     ProxyOp.ApplyConstraint { id := 2, applyTime := 0 } none]

/-- The object of `demoPending`, still attached, after the removal of its
constraint has finished. -/
def demoFinished : ProxySystem :=
  proxyRun demoProxyEnv demoPending [ProxyOp.world (some 1) [3]]

/-! ## The texture upload pipeline -/

/-- Modelled from the spec: a pixel format (pixel.h is not among the
sources), as far as the upload pipeline looks at it: whether it is a
compressed format, and its bytes per pixel. -/
structure PixelFormat where
  name : String
  compressed : Bool
  bytesPerPixel : Nat
  deriving DecidableEq, Repr

/-- The format `Pixel::RGBA8888` of the tests, four bytes per pixel. -/
def Pixel.RGBA8888 : PixelFormat :=
  { name := "RGBA8888", compressed := false, bytesPerPixel := 4 }

/-- The format `Pixel::RGB888` of the tests, three bytes per pixel. -/
def Pixel.RGB888 : PixelFormat :=
  { name := "RGB888", compressed := false, bytesPerPixel := 3 }

/-- The compressed format `Pixel::COMPRESSED_RGBA_ASTC_4x4_KHR` of the tests;
a compressed format has no whole number of bytes per pixel. -/
def Pixel.COMPRESSED_RGBA_ASTC_4x4_KHR : PixelFormat :=
  { name := "COMPRESSED_RGBA_ASTC_4x4_KHR", compressed := true, bytesPerPixel := 0 }

/-- Modelled from the spec: the texture type, 2D or CUBE. -/
inductive TextureType where
  | TEXTURE_2D | TEXTURE_CUBE
  deriving DecidableEq, Repr

/-- Modelled from the spec: a `Texture` (texture-impl.h is not among the
sources): type, pixel format, width and height. -/
structure Texture where
  type : TextureType
  format : PixelFormat
  width : Nat
  height : Nat
  deriving DecidableEq, Repr

/-- Modelled from the spec: a `PixelData` buffer (pixel-data.h is not among
the sources): the address of the bytes, the byte count, the declared width,
height and pixel format; the release policy plays no part in what follows. -/
structure PixelData where
  buffer : Nat
  bufferSize : Nat
  width : Nat
  height : Nat
  pixelFormat : PixelFormat
  deriving DecidableEq, Repr

/-- The arguments of `Texture::Upload` after the pixel data: layer, mipmap
level, offset and size of the region. -/
structure UploadParams where
  layer : Nat
  mipmap : Nat
  xOffset : Nat
  yOffset : Nat
  width : Nat
  height : Nat
  deriving DecidableEq, Repr

/-- The target `GL_TEXTURE_2D` of the graphics backend (value of the OpenGL ES
headers). -/
def GL_TEXTURE_2D : Nat := 0x0DE1

/-- The target `GL_TEXTURE_CUBE_MAP` of the graphics backend. -/
def GL_TEXTURE_CUBE_MAP : Nat := 0x8513

/-- The target `GL_TEXTURE_CUBE_MAP_POSITIVE_X`, the first of the six face
targets, which are consecutive. -/
def GL_TEXTURE_CUBE_MAP_POSITIVE_X : Nat := 0x8515

/-- The face target `GL_TEXTURE_CUBE_MAP_NEGATIVE_X`. -/
def GL_TEXTURE_CUBE_MAP_NEGATIVE_X : Nat := 0x8516

/-- The face target `GL_TEXTURE_CUBE_MAP_POSITIVE_Y`. -/
def GL_TEXTURE_CUBE_MAP_POSITIVE_Y : Nat := 0x8517

/-- The face target `GL_TEXTURE_CUBE_MAP_NEGATIVE_Y`. -/
def GL_TEXTURE_CUBE_MAP_NEGATIVE_Y : Nat := 0x8518

/-- The face target `GL_TEXTURE_CUBE_MAP_POSITIVE_Z`. -/
def GL_TEXTURE_CUBE_MAP_POSITIVE_Z : Nat := 0x8519

/-- The face target `GL_TEXTURE_CUBE_MAP_NEGATIVE_Z`. -/
def GL_TEXTURE_CUBE_MAP_NEGATIVE_Z : Nat := 0x851A

/-- Modelled from the spec: a call on the graphics backend, keyed by target,
mip level, offsets, dimensions and the address of the bytes, where a null
pointer (`none`) only reserves storage. The tests trace the same arguments
in this order. -/
inductive GlCall where
  | TexImage2D (target level width height : Nat) (data : Option Nat)
  | TexSubImage2D (target level xoffset yoffset width height : Nat) (data : Option Nat)
  | CompressedTexImage2D (target level width height : Nat) (data : Option Nat)
  | CompressedTexSubImage2D (target level xoffset yoffset width height : Nat)
      (data : Option Nat)
  | GenerateMipmap (target : Nat)
  deriving DecidableEq, Repr

/-- The target of a backend call. -/
def GlCall.target : GlCall → Nat
  | .TexImage2D target _ _ _ _ => target
  | .TexSubImage2D target _ _ _ _ _ _ => target
  | .CompressedTexImage2D target _ _ _ _ => target
  | .CompressedTexSubImage2D target _ _ _ _ _ _ => target
  | .GenerateMipmap target => target

/-- The mip level of a backend call that transfers an image. -/
def GlCall.level : GlCall → Option Nat
  | .TexImage2D _ level _ _ _ => some level
  | .TexSubImage2D _ level _ _ _ _ _ => some level
  | .CompressedTexImage2D _ level _ _ _ => some level
  | .CompressedTexSubImage2D _ level _ _ _ _ _ => some level
  | .GenerateMipmap _ => none

/-- Modelled from the spec: a cross-thread message of the texture pipeline,
queued by the event thread and carried out at the next render. -/
inductive TextureMessage where
  | create (texture : Texture)
  | upload (texture : Texture) (pixelData : PixelData) (params : UploadParams)
  | generateMipmaps (texture : Texture)
  deriving DecidableEq, Repr

/-- Modelled from the spec: the message queue between the event thread and
the render thread, and the calls that the graphics backend has received so
far. -/
structure GraphicsSystem where
  queue : List TextureMessage
  trace : List GlCall
  deriving DecidableEq, Repr

/-- Modelled from the spec: `Texture::New( type, format, width, height )`;
the storage is reserved at the next render. -/
def TextureNew (gs : GraphicsSystem) (type : TextureType) (format : PixelFormat)
    (width height : Nat) : Texture × GraphicsSystem :=
  let texture : Texture := { type := type, format := format, width := width, height := height }
  (texture, { gs with queue := gs.queue ++ [TextureMessage.create texture] })

/-- Modelled from the spec: the result of `Texture::Upload`: the upload is
accepted, or it fails with a hard failure, or, for a region of width or
height 0, on which neither the spec nor the tests say anything, nothing is
stated; each with the graphics system at that point. -/
inductive UploadOutcome where
  | ok (gs : GraphicsSystem)
  | assertion (msg : String) (gs : GraphicsSystem)
  | unspecified (gs : GraphicsSystem)
  deriving DecidableEq, Repr

/-- Modelled from the spec: what an accepted upload does on the event thread:
"upload calls are recorded, not executed immediately: they are queued as
cross-thread messages". -/
def queueUpload (gs : GraphicsSystem) (texture : Texture) (pixelData : PixelData)
    (params : UploadParams) : GraphicsSystem :=
  { gs with queue := gs.queue ++ [TextureMessage.upload texture pixelData params] }

/-- Modelled from the spec: `Texture::Upload( pixelData, layer, mipmap,
xOffset, yOffset, width, height )` (texture-impl.cpp is not among the
sources). It "validates that pixelData byte size matches
width*height*bytesPerPixel(format); mismatch is a hard failure", with the
width and height of the region and the format of the pixel data; the tests
upload buffers that hold more bytes than the region needs and expect the
backend call (lines 169-180 and 542-556), so that only a buffer with fewer
bytes than the region needs is rejected. An accepted upload is queued. -/
def TextureUpload (gs : GraphicsSystem) (texture : Texture) (pixelData : PixelData)
    (params : UploadParams) : UploadOutcome :=
  if params.width = 0 ∨ params.height = 0 then .unspecified gs
  else if pixelData.bufferSize
      < params.width * params.height * pixelData.pixelFormat.bytesPerPixel then
    .assertion "pixel-buffer/size mismatch" gs
  else .ok (queueUpload gs texture pixelData params)

/-- Modelled from the spec: `Texture::Upload( pixelData )`, the upload of the
whole pixel data to layer 0, mipmap level 0 at offset (0,0); the region is
the declared size of the pixel data (lines 544-555 of the tests). -/
def TextureUploadAll (gs : GraphicsSystem) (texture : Texture) (pixelData : PixelData) :
    UploadOutcome :=
  TextureUpload gs texture pixelData
    { layer := 0, mipmap := 0, xOffset := 0, yOffset := 0,
      width := pixelData.width, height := pixelData.height }

/-- Modelled from the spec: `Texture::GenerateMipmaps()`, which "queues a
backend mipmap-generation request". -/
def TextureGenerateMipmaps (gs : GraphicsSystem) (texture : Texture) : GraphicsSystem :=
  { gs with queue := gs.queue ++ [TextureMessage.generateMipmaps texture] }

/-- Modelled from the spec: the target of an upload: "cube textures require
a layer selecting one of six faces; 2D textures ignore layer". -/
def uploadTarget (texture : Texture) (layer : Nat) : Nat :=
  match texture.type with
  | .TEXTURE_2D => GL_TEXTURE_2D
  | .TEXTURE_CUBE => GL_TEXTURE_CUBE_MAP_POSITIVE_X + layer

/-- Modelled from the spec: the size of a mip level along one axis, the size
of level 0 halved `mipmap` times. -/
def mipmapSize (size mipmap : Nat) : Nat :=
  size / 2 ^ mipmap

/-- Modelled from the spec: whether "the supplied region covers the entire
mip level at offset (0,0)". -/
def coversLevel (texture : Texture) (params : UploadParams) : Bool :=
  params.xOffset = 0 && params.yOffset = 0 &&
  params.width = mipmapSize texture.width params.mipmap &&
  params.height = mipmapSize texture.height params.mipmap

/-- Modelled from the spec: the render side of a queued upload
(render-texture.cpp is not among the sources): a full image replace when the
region covers the entire mip level at offset (0,0) and a sub-region update
at the given offset otherwise, through the compressed variants for a texture
with a compressed format. `TextureUpload` queues no upload of an empty
region. -/
def uploadCalls (texture : Texture) (pixelData : PixelData) (params : UploadParams) :
    List GlCall :=
  let target := uploadTarget texture params.layer
  if coversLevel texture params then
    if texture.format.compressed then
      [GlCall.CompressedTexImage2D target params.mipmap params.width params.height
        (some pixelData.buffer)]
    else
      [GlCall.TexImage2D target params.mipmap params.width params.height
        (some pixelData.buffer)]
  else
    if texture.format.compressed then
      [GlCall.CompressedTexSubImage2D target params.mipmap params.xOffset params.yOffset
        params.width params.height (some pixelData.buffer)]
    else
      [GlCall.TexSubImage2D target params.mipmap params.xOffset params.yOffset
        params.width params.height (some pixelData.buffer)]

/-- Modelled from the spec: the reserve-storage call for one target, level 0
of the full size with a null pointer. -/
def reserveCall (texture : Texture) (target : Nat) : GlCall :=
  if texture.format.compressed then
    GlCall.CompressedTexImage2D target 0 texture.width texture.height none
  else GlCall.TexImage2D target 0 texture.width texture.height none

/-- Modelled from the spec: the render side of the creation of a texture: a
reserve-storage call (null data), one for a 2D texture and one for each of
the six faces of a cube texture (lines 143-148 and 203-209 of the tests). -/
def createCalls (texture : Texture) : List GlCall :=
  match texture.type with
  | .TEXTURE_2D => [reserveCall texture GL_TEXTURE_2D]
  | .TEXTURE_CUBE =>
    (List.range 6).map (fun face => reserveCall texture (GL_TEXTURE_CUBE_MAP_POSITIVE_X + face))

/-- Modelled from the spec: the render side of `GenerateMipmaps`, one request
"for the full mip chain of the texture (and, for cube maps, targets the
whole cube-map enum, not per-face)". -/
def generateMipmapsCalls (texture : Texture) : List GlCall :=
  match texture.type with
  | .TEXTURE_2D => [GlCall.GenerateMipmap GL_TEXTURE_2D]
  | .TEXTURE_CUBE => [GlCall.GenerateMipmap GL_TEXTURE_CUBE_MAP]

/-- Modelled from the spec: the backend calls that one message results in. -/
def messageCalls : TextureMessage → List GlCall
  | .create texture => createCalls texture
  | .upload texture pixelData params => uploadCalls texture pixelData params
  | .generateMipmaps texture => generateMipmapsCalls texture

/-- Modelled from the spec: one frame boundary, `SendNotification()` followed
by `Render()`: the queued messages reach the graphics backend in the order
in which they were queued, and the queue is empty afterwards. -/
def notifyAndRender (gs : GraphicsSystem) : GraphicsSystem :=
  { queue := [], trace := gs.trace ++ (gs.queue.map messageCalls).flatten }

/-- The graphics system before anything has happened. -/
def GraphicsSystem.new : GraphicsSystem :=
  { queue := [], trace := [] }

/-- The 64 x 64 RGBA8888 2D texture of the tests. -/
def demoTexture : Texture :=
  { type := TextureType.TEXTURE_2D, format := Pixel.RGBA8888, width := 64, height := 64 }

/-- The 64 x 64 RGBA8888 cube texture of the tests. -/
def demoCubeTexture : Texture :=
  { type := TextureType.TEXTURE_CUBE, format := Pixel.RGBA8888, width := 64, height := 64 }

/-- The 64 x 64 compressed 2D texture of the tests. -/
def demoCompressedTexture : Texture :=
  { type := TextureType.TEXTURE_2D, format := Pixel.COMPRESSED_RGBA_ASTC_4x4_KHR,
    width := 64, height := 64 }

/-- The pixel data of line 155 of the tests: 64 x 64 RGBA8888 in 16384 bytes. -/
def demoPixelData : PixelData :=
  { buffer := 1, bufferSize := 64 * 64 * 4, width := 64, height := 64,
    pixelFormat := Pixel.RGBA8888 }

/-- The pixel data of lines 169-171 of the tests: declared as 64 x 64
RGBA8888, in a buffer of 64 * 64 * 2 = 8192 bytes. -/
def demoPixelDataSubImage : PixelData :=
  { buffer := 2, bufferSize := 64 * 64 * 2, width := 64, height := 64,
    pixelFormat := Pixel.RGBA8888 }

/-- The compressed variant of an image call, with the same arguments. -/
def GlCall.compressedVariant : GlCall → GlCall
  | .TexImage2D target level width height data =>
    .CompressedTexImage2D target level width height data
  | .TexSubImage2D target level xoffset yoffset width height data =>
    .CompressedTexSubImage2D target level xoffset yoffset width height data
  | call => call

/-- Whether a backend call is one of the two compressed image calls. -/
def GlCall.isCompressed : GlCall → Bool
  | .CompressedTexImage2D _ _ _ _ _ => true
  | .CompressedTexSubImage2D _ _ _ _ _ _ _ => true
  | _ => false

/-- A pixel data declared as 64 x 64 RGBA8888 in a buffer of only 100
bytes. -/
def demoPixelDataShort : PixelData :=
  { buffer := 4, bufferSize := 100, width := 64, height := 64,
    pixelFormat := Pixel.RGBA8888 }

/-- The pixel data of lines 542-544 of the tests: declared as 32 x 32
RGBA8888, in a buffer of 64 * 64 * 4 bytes. -/
def demoPixelDataSmaller : PixelData :=
  { buffer := 3, bufferSize := 64 * 64 * 4, width := 32, height := 32,
    pixelFormat := Pixel.RGBA8888 }

/-- The eight property types that have an animatable cell. -/
def animatableTypes : List PropertyType :=
  [PropertyType.BOOLEAN, PropertyType.FLOAT, PropertyType.VECTOR2, PropertyType.VECTOR3,
   PropertyType.VECTOR4, PropertyType.MATRIX, PropertyType.MATRIX3, PropertyType.ROTATION]

/-- An object of the small concrete type in a build with
`DALI_ASSERT_DEBUG`, observed by the observers 3, 4 and 5, added in that
order. -/
def demoObserved : ProxySystem :=
  proxyRun demoProxyEnv (ProxySystem.new demoStage)
    [ProxyOp.AddObserver 3, ProxyOp.AddObserver 4, ProxyOp.AddObserver 5]

/-- An object of the small concrete type in a build without
`DALI_ASSERT_DEBUG`, after `AddObserver` has been called twice with the
same observer 3. -/
def demoObservedTwice : ProxySystem :=
  proxyRun releaseProxyEnv (ProxySystem.new demoStage)
    [ProxyOp.AddObserver 3, ProxyOp.AddObserver 3]

namespace CustomPropertyLookup

theorem find_assign_self (m : CustomPropertyLookup) (index : Int) (e : CustomProperty) :
    (m.assign index e).find index = some e := by
  induction m with
  | nil => simp [assign, find]
  | cons kp rest ih =>
    obtain ⟨k, p⟩ := kp
    unfold assign
    by_cases h1 : index < k
    · simp [h1, find]
    · by_cases h2 : k = index
      · simp [h1, h2, find]
      · simp [h1, h2, find, ih]

theorem assign_eq_append (m : CustomPropertyLookup) (index : Int) (e : CustomProperty)
    (h : ∀ kp ∈ m, kp.1 < index) : m.assign index e = m ++ [(index, e)] := by
  induction m with
  | nil => simp [assign]
  | cons kp rest ih =>
    obtain ⟨k, p⟩ := kp
    have hk : k < index := h (k, p) (by simp)
    have h1 : ¬ index < k := by omega
    have h2 : ¬ k = index := by omega
    have ih1 := ih (fun kp hkp => h kp (by simp [hkp]))
    simp [assign, h1, h2, ih1]

theorem find_append (m n : CustomPropertyLookup) (index : Int) :
    (m ++ n).find index = (m.find index).orElse (fun _ => n.find index) := by
  induction m with
  | nil => simp [find]
  | cons kp rest ih =>
    obtain ⟨k, p⟩ := kp
    by_cases h : k = index
    · simp [find, h]
    · simp [find, h, ih]

theorem find_eq_none_of_not_mem (m : CustomPropertyLookup) (index : Int)
    (h : index ∉ m.map Prod.fst) : m.find index = none := by
  induction m with
  | nil => simp [find]
  | cons kp rest ih =>
    obtain ⟨k, p⟩ := kp
    simp only [List.map_cons, List.mem_cons, not_or] at h
    have h1 : ¬ k = index := fun hk => h.1 hk.symm
    simp [find, h1, ih h.2]

theorem mem_of_find (m : CustomPropertyLookup) (index : Int) (e : CustomProperty)
    (h : m.find index = some e) : (index, e) ∈ m := by
  induction m with
  | nil => simp [find] at h
  | cons kp rest ih =>
    obtain ⟨k, p⟩ := kp
    by_cases hk : k = index
    · simp [find, hk] at h
      simp [hk, h]
    · simp [find, hk] at h
      simp [ih h]

theorem find_isSome_of_mem (m : CustomPropertyLookup) (index : Int)
    (h : index ∈ m.map Prod.fst) : ∃ e, m.find index = some e := by
  induction m with
  | nil => simp at h
  | cons kp rest ih =>
    obtain ⟨k, p⟩ := kp
    by_cases hk : k = index
    · exact ⟨p, by simp [find, hk]⟩
    · simp only [List.map_cons, List.mem_cons] at h
      rcases h with h | h
      · exact absurd h.symm hk
      · obtain ⟨e, he⟩ := ih h
        exact ⟨e, by simp [find, hk, he]⟩

theorem setValue_keys (m : CustomPropertyLookup) (index : Int) (v : PropertyValue) :
    (m.setValue index v).map Prod.fst = m.map Prod.fst := by
  induction m with
  | nil => simp [setValue]
  | cons kp rest ih =>
    obtain ⟨k, p⟩ := kp
    by_cases hk : k = index
    · simp [setValue, hk]
    · simp [setValue, hk, ih]

theorem setValue_length (m : CustomPropertyLookup) (index : Int) (v : PropertyValue) :
    (m.setValue index v).length = m.length := by
  have h := congrArg List.length (setValue_keys m index v)
  simpa using h

theorem find_setValue_self (m : CustomPropertyLookup) (index : Int) (v : PropertyValue) :
    (m.setValue index v).find index
      = (m.find index).map (fun p => { p with value := v }) := by
  induction m with
  | nil => simp [setValue, find]
  | cons kp rest ih =>
    obtain ⟨k, p⟩ := kp
    by_cases hk : k = index
    · simp [setValue, find, hk]
    · simp [setValue, find, hk, ih]

theorem find_setValue_other (m : CustomPropertyLookup) (index other : Int) (v : PropertyValue)
    (h : other ≠ index) : (m.setValue index v).find other = m.find other := by
  induction m with
  | nil => simp [setValue, find]
  | cons kp rest ih =>
    obtain ⟨k, p⟩ := kp
    by_cases hk : k = index
    · subst hk
      have hko : ¬ k = other := fun hh => h hh.symm
      simp [setValue, find, hko]
    · by_cases hko : k = other
      · subst hko
        simp [setValue, find, hk]
      · simp [setValue, find, hk, hko, ih]

theorem mem_setValue (m : CustomPropertyLookup) (index : Int) (v : PropertyValue)
    (kp : Int × CustomProperty) (h : kp ∈ m.setValue index v) :
    ∃ p, (kp.1, p) ∈ m ∧ kp.2 = { p with value := v } ∨ (kp.1, p) ∈ m ∧ kp.2 = p := by
  induction m with
  | nil => simp [setValue] at h
  | cons kq rest ih =>
    obtain ⟨k, q⟩ := kq
    by_cases hk : k = index
    · simp only [setValue, hk, if_true, List.mem_cons] at h
      rcases h with h | h
      · exact ⟨q, Or.inl ⟨by simp [h, hk], by simp [h]⟩⟩
      · exact ⟨kp.2, Or.inr ⟨by simp [h], rfl⟩⟩
    · simp only [setValue, hk, if_false, List.mem_cons] at h
      rcases h with h | h
      · exact ⟨q, Or.inr ⟨by simp [h], by simp [h]⟩⟩
      · obtain ⟨p, hp⟩ := ih h
        rcases hp with ⟨h1, h2⟩ | ⟨h1, h2⟩
        · exact ⟨p, Or.inl ⟨by simp [h1], h2⟩⟩
        · exact ⟨p, Or.inr ⟨by simp [h1], h2⟩⟩

theorem findName_append (m n : CustomPropertyLookup) (name : String) :
    (m ++ n).findName name = (m.findName name).orElse (fun _ => n.findName name) := by
  induction m with
  | nil => simp [findName]
  | cons kp rest ih =>
    obtain ⟨k, p⟩ := kp
    by_cases h : p.name = name
    · simp [findName, h]
    · simp [findName, h, ih]

theorem findName_some (m : CustomPropertyLookup) (name : String) (k : Int)
    (h : m.findName name = some k) : ∃ p, (k, p) ∈ m ∧ p.name = name := by
  induction m with
  | nil => simp [findName] at h
  | cons kq rest ih =>
    obtain ⟨j, q⟩ := kq
    by_cases hq : q.name = name
    · simp [findName, hq] at h
      exact ⟨q, by simp [h], hq⟩
    · simp [findName, hq] at h
      obtain ⟨p, hp, hn⟩ := ih h
      exact ⟨p, by simp [hp], hn⟩

theorem findName_none (m : CustomPropertyLookup) (name : String)
    (h : m.findName name = none) : ∀ kp ∈ m, kp.2.name ≠ name := by
  induction m with
  | nil => simp
  | cons kq rest ih =>
    obtain ⟨j, q⟩ := kq
    by_cases hq : q.name = name
    · simp [findName, hq] at h
    · simp [findName, hq] at h
      intro kp hkp
      simp only [List.mem_cons] at hkp
      rcases hkp with hkp | hkp
      · simpa [hkp] using hq
      · exact ih h kp hkp

end CustomPropertyLookup

/-! ## The keys of the map -/

theorem KeysInv.keys_new (env : Env) (stage : Stage) : KeysInv env (System.new stage) :=
  ⟨fun _ => rfl, fun m h => by simp [System.new, ProxyObject.new] at h⟩

theorem KeysInv.key_lt {env : Env} {s : System} (h : KeysInv env s) :
    ∀ kp ∈ customProperties s, kp.1 < (nextIndex env s : Int) := by
  intro kp hkp
  unfold customProperties at hkp
  cases hm : s.proxy.mCustomProperties with
  | none => simp [hm] at hkp
  | some m =>
    simp only [hm, Option.getD_some] at hkp
    obtain ⟨hlt, hkeys⟩ := h.allocated m hm
    have hmem : kp.1 ∈ m.map Prod.fst := List.mem_map_of_mem Prod.fst hkp
    rw [hkeys] at hmem
    simp only [List.mem_map, List.mem_range'_1] at hmem
    obtain ⟨n, ⟨_, hn⟩, hnk⟩ := hmem
    have : nextIndex env s = s.proxy.mNextCustomPropertyIndex := by
      unfold nextIndex
      have : s.proxy.mNextCustomPropertyIndex ≠ 0 := by omega
      simp [this]
    rw [this, ← hnk]
    omega

theorem KeysInv.key_ge {env : Env} {s : System} (h : KeysInv env s) :
    ∀ kp ∈ customProperties s, (env.DEFAULT_PROPERTY_MAX_COUNT : Int) ≤ kp.1 := by
  intro kp hkp
  unfold customProperties at hkp
  cases hm : s.proxy.mCustomProperties with
  | none => simp [hm] at hkp
  | some m =>
    simp only [hm, Option.getD_some] at hkp
    obtain ⟨_, hkeys⟩ := h.allocated m hm
    have hmem : kp.1 ∈ m.map Prod.fst := List.mem_map_of_mem Prod.fst hkp
    rw [hkeys] at hmem
    simp only [List.mem_map, List.mem_range'_1] at hmem
    obtain ⟨n, ⟨hn, _⟩, hnk⟩ := hmem
    rw [← hnk]
    omega

theorem nextIndex_ge (env : Env) (s : System) (h : KeysInv env s) :
    env.DEFAULT_PROPERTY_MAX_COUNT ≤ nextIndex env s := by
  unfold nextIndex
  cases hm : s.proxy.mCustomProperties with
  | none => simp [h.unallocated hm]
  | some m =>
    have := (h.allocated m hm).1
    have h0 : s.proxy.mNextCustomPropertyIndex ≠ 0 := by omega
    simp [h0]
    omega

theorem find_nextIndex {env : Env} {s : System} (h : KeysInv env s) :
    (customProperties s).find (nextIndex env s : Int) = none := by
  apply CustomPropertyLookup.find_eq_none_of_not_mem
  intro hmem
  simp only [List.mem_map] at hmem
  obtain ⟨kp, hkp, hk⟩ := hmem
  have := h.key_lt kp hkp
  omega

theorem KeysInv.withEntry {env : Env} {s : System} (h : KeysInv env s) (e : CustomProperty)
    (stage : Stage) (calls : List HookCall) :
    KeysInv env { proxy := withEntry env s e, stage := stage, calls := calls } := by
  constructor
  · intro hn
    simp [Dali.withEntry] at hn
  · intro m hm
    simp only [Dali.withEntry, Option.some.injEq] at hm
    subst hm
    have hge := nextIndex_ge env s h
    refine ⟨by simp only [Dali.withEntry]; omega, ?_⟩
    simp only [Dali.withEntry, List.map_append, List.map_cons, List.map_nil]
    have hsub : nextIndex env s + 1 - env.DEFAULT_PROPERTY_MAX_COUNT
        = (nextIndex env s - env.DEFAULT_PROPERTY_MAX_COUNT) + 1 := by omega
    rw [hsub, List.range'_concat, List.map_append]
    congr 1
    · unfold customProperties
      cases hm : s.proxy.mCustomProperties with
      | none =>
        have h0 := h.unallocated hm
        simp [nextIndex, h0]
      | some m =>
        obtain ⟨hlt, hkeys⟩ := h.allocated m hm
        have h0 : s.proxy.mNextCustomPropertyIndex ≠ 0 := by omega
        simp [nextIndex, h0, hkeys]
    · simp
      omega

/-! ## The member functions on a state that satisfies the key invariant -/

theorem GetPropertyIndex_eq (env : Env) (s : System) (name : String) :
    GetPropertyIndex env s name = .ok (propertyIndexOf env s name) s := by
  unfold GetPropertyIndex propertyIndexOf customProperties
  by_cases h : env.INVALID_INDEX = env.GetDefaultPropertyIndex name
  · cases hm : s.proxy.mCustomProperties with
    | none => simp [h, CustomPropertyLookup.findName]
    | some m =>
      cases hf : m.findName name with
      | none => simp [h, hf]
      | some k => simp [h, hf]
  · simp [h]

theorem nextCustomPropertyIndex_eq (env : Env) (s : System) :
    nextCustomPropertyIndex env s =
      ((nextIndex env s : Int),
        { s with proxy := { s.proxy with mNextCustomPropertyIndex := nextIndex env s + 1 } }) := by
  unfold nextCustomPropertyIndex nextIndex
  rfl

theorem RegisterPropertyWithMode_eventSide (env : Env) (s : System) (name : String)
    (v : PropertyValue) (accessMode : AccessMode) (h : KeysInv env s)
    (hmode : accessMode ≠ AccessMode.ANIMATABLE) :
    RegisterPropertyWithMode env s name v accessMode =
      .ok (nextIndex env s : Int)
        { s with proxy := withEntry env s (CustomProperty.eventSide name v accessMode) } := by
  have hmode1 : ¬ AccessMode.ANIMATABLE = accessMode := fun hh => hmode hh.symm
  have hlt := h.key_lt
  unfold RegisterPropertyWithMode
  simp only [hmode1, if_false, nextCustomPropertyIndex_eq]
  unfold GetCustomPropertyLookup withEntry customProperties at *
  cases hm : s.proxy.mCustomProperties with
  | none => simp [CustomPropertyLookup.assign]
  | some m =>
    simp only [hm, Option.getD_some] at hlt
    simp [CustomPropertyLookup.assign_eq_append m _ _ hlt]

theorem RegisterProperty_eq (env : Env) (s : System) (name : String) (v : PropertyValue)
    (h : KeysInv env s) :
    RegisterProperty env s name v =
      if ¬ (env.INVALID_INDEX = propertyIndexOf env s name) then
        .assertion "Property index is out of bounds" s
      else
        match newAnimatableProperty v with
        | none => .assertion "PropertyType enumeration is out of bounds" s
        | some newProperty =>
          .ok (nextIndex env s : Int) (withAnimatable env s name v.GetType newProperty) := by
  have hlt := h.key_lt
  have hfind := find_nextIndex h
  unfold RegisterProperty
  rw [GetPropertyIndex_eq]
  simp only
  by_cases hname : env.INVALID_INDEX = propertyIndexOf env s name
  · simp only [hname, not_true_eq_false, if_false]
    cases hnew : newAnimatableProperty v with
    | none => simp
    | some newProperty =>
      simp only [nextCustomPropertyIndex_eq]
      unfold GetCustomPropertyLookup withAnimatable withEntry customProperties at *
      cases hm : s.proxy.mCustomProperties with
      | none => simp [CustomPropertyLookup.assign, CustomPropertyLookup.find]
      | some m =>
        simp only [hm, Option.getD_some] at hlt hfind
        simp [CustomPropertyLookup.assign_eq_append m _ _ hlt, hfind]
  · simp [hname]

theorem SetCustomProperty_proxy (s : System) (index : Int) (entry : CustomProperty)
    (v : PropertyValue) : (SetCustomProperty s index entry v).system.proxy = s.proxy := by
  unfold SetCustomProperty
  cases entry.mProperty with
  | none => rfl
  | some cell =>
    by_cases ht : v.GetType = entry.type
    · simp [ht, Outcome.system]
    · simp [ht, Outcome.system]

theorem SetCustomProperty_stage (s : System) (index : Int) (entry : CustomProperty)
    (v : PropertyValue) :
    (SetCustomProperty s index entry v).system.stage.heap = s.stage.heap ∧
    (SetCustomProperty s index entry v).system.stage.eventBufferIndex
      = s.stage.eventBufferIndex := by
  unfold SetCustomProperty
  cases entry.mProperty with
  | none => exact ⟨rfl, rfl⟩
  | some cell =>
    by_cases ht : v.GetType = entry.type
    · simp [ht, Outcome.system]
    · simp [ht, Outcome.system]

theorem SetProperty_proxy (env : Env) (s : System) (index : Int) (v : PropertyValue) :
    (SetProperty env s index v).system.proxy = s.proxy ∨
    ∃ m, s.proxy.mCustomProperties = some m ∧
      (SetProperty env s index v).system.proxy
        = { s.proxy with mCustomProperties := some (m.setValue index v) } ∧
      ∃ entry, m.find index = some entry ∧ entry.IsWritable = true := by
  unfold SetProperty
  by_cases h1 : index > env.INVALID_INDEX
  · by_cases h2 : index < (env.DEFAULT_PROPERTY_MAX_COUNT : Int)
    · by_cases h3 : env.IsDefaultPropertyWritable index = true
      · simp [h1, h2, h3, Outcome.system]
      · simp [h1, h2, h3, Outcome.system]
    · cases hm : s.proxy.mCustomProperties with
      | none => simp [h1, h2, Outcome.system]
      | some m =>
        cases hf : m.find index with
        | none => simp [h1, h2, hf, Outcome.system, hm]
        | some entry =>
          by_cases hw : entry.IsWritable = true
          · right
            refine ⟨m, rfl, ?_, entry, hf, hw⟩
            simp only [h1, h2, hf, hw, not_true_eq_false, if_false, if_true]
            rw [SetCustomProperty_proxy]
          · simp [h1, h2, hf, hw, Outcome.system, hm]
  · simp [h1, Outcome.system]

theorem SetProperty_stage (env : Env) (s : System) (index : Int) (v : PropertyValue) :
    (SetProperty env s index v).system.stage.heap = s.stage.heap ∧
    (SetProperty env s index v).system.stage.eventBufferIndex = s.stage.eventBufferIndex := by
  unfold SetProperty
  by_cases h1 : index > env.INVALID_INDEX
  · by_cases h2 : index < (env.DEFAULT_PROPERTY_MAX_COUNT : Int)
    · by_cases h3 : env.IsDefaultPropertyWritable index = true
      · simp [h1, h2, h3, Outcome.system]
      · simp [h1, h2, h3, Outcome.system]
    · cases hm : s.proxy.mCustomProperties with
      | none => simp [h1, h2, Outcome.system]
      | some m =>
        cases hf : m.find index with
        | none => simp [h1, h2, hf, Outcome.system]
        | some entry =>
          by_cases hw : entry.IsWritable = true
          · simp only [h1, h2, hf, hw, not_true_eq_false, if_false, if_true]
            exact SetCustomProperty_stage _ _ _ _
          · simp [h1, h2, hf, hw, Outcome.system]
  · simp [h1, Outcome.system]

theorem GetProperty_system (env : Env) (s : System) (index : Int) :
    (GetProperty env s index).system = s := by
  unfold GetProperty
  by_cases h1 : index > env.INVALID_INDEX
  · by_cases h2 : index < (env.DEFAULT_PROPERTY_MAX_COUNT : Int)
    · simp [h1, h2, Outcome.system]
    · cases hm : s.proxy.mCustomProperties with
      | none => simp [h1, h2, Outcome.system]
      | some m =>
        cases hf : m.find index with
        | none => simp [h1, h2, hf, Outcome.system]
        | some entry =>
          by_cases ha : entry.IsAnimatable = true
          · by_cases ht : isAnimatableType entry.type = true
            · cases hc : castSceneGraphProperty s entry entry.type with
              | none =>
                by_cases hd : env.debug = true
                · simp [h1, h2, hf, ha, ht, hc, hd, Outcome.system]
                · simp [h1, h2, hf, ha, ht, hc, hd, Outcome.system]
              | some c => simp [h1, h2, hf, ha, ht, hc, Outcome.system]
            · simp [h1, h2, hf, ha, ht, Outcome.system]
          · simp [h1, h2, hf, ha, Outcome.system]
  · simp [h1, Outcome.system]

theorem KeysInv.of_proxy {env : Env} {s t : System} (h : KeysInv env s)
    (hp : t.proxy = s.proxy) : KeysInv env t :=
  ⟨fun hn => by rw [hp] at hn ⊢; exact h.unallocated hn,
   fun m hm => by rw [hp] at hm ⊢; exact h.allocated m hm⟩

theorem nextIndex_of_proxy (env : Env) {s t : System} (hp : t.proxy = s.proxy) :
    nextIndex env t = nextIndex env s := by
  unfold nextIndex
  rw [hp]

theorem KeysInv.keys_setProperty {env : Env} {s : System} (h : KeysInv env s) (index : Int)
    (v : PropertyValue) :
    KeysInv env (SetProperty env s index v).system ∧
    nextIndex env (SetProperty env s index v).system = nextIndex env s := by
  rcases SetProperty_proxy env s index v with hp | ⟨m, hm, hp, _⟩
  · exact ⟨h.of_proxy hp, nextIndex_of_proxy env hp⟩
  · refine ⟨⟨fun hn => ?_, fun m1 hm1 => ?_⟩, ?_⟩
    · rw [hp] at hn
      simp at hn
    · rw [hp] at hm1 ⊢
      simp only [Option.some.injEq] at hm1
      subst hm1
      obtain ⟨hlt, hkeys⟩ := h.allocated m hm
      exact ⟨hlt, by rw [CustomPropertyLookup.setValue_keys]; exact hkeys⟩
    · unfold nextIndex
      rw [hp]

theorem nextIndex_withEntry (env : Env) (s : System) (e : CustomProperty) (stage : Stage)
    (calls : List HookCall) :
    nextIndex env { proxy := withEntry env s e, stage := stage, calls := calls }
      = nextIndex env s + 1 := by
  simp [nextIndex, withEntry]

/-- One event keeps the key invariant, and it either returns no index and
leaves the next index alone, or returns the next index and moves it on by
one. -/
theorem KeysInv.keys_step {env : Env} {s : System} (h : KeysInv env s) (op : Op) :
    KeysInv env (step env s op) ∧
    ((registered env s op = none ∧ nextIndex env (step env s op) = nextIndex env s) ∨
     (registered env s op = some (nextIndex env s : Int) ∧
      nextIndex env (step env s op) = nextIndex env s + 1)) := by
  have hreg : ∀ name v,
      KeysInv env (RegisterProperty env s name v).system ∧
      (((match RegisterProperty env s name v with
          | .ok index _ => some index
          | _ => none) = none ∧
        nextIndex env (RegisterProperty env s name v).system = nextIndex env s) ∨
       ((match RegisterProperty env s name v with
          | .ok index _ => some index
          | _ => none) = some (nextIndex env s : Int) ∧
        nextIndex env (RegisterProperty env s name v).system = nextIndex env s + 1)) := by
    intro name v
    rw [RegisterProperty_eq env s name v h]
    by_cases hname : env.INVALID_INDEX = propertyIndexOf env s name
    · cases hnew : newAnimatableProperty v with
      | none =>
        simp only [hname, not_true_eq_false, if_false, Outcome.system]
        exact ⟨h, by simp⟩
      | some c =>
        simp only [hname, not_true_eq_false, if_false, Outcome.system, withAnimatable]
        exact ⟨h.withEntry _ _ _, by simp [nextIndex_withEntry]⟩
    · simp only [hname, not_false_eq_true, if_true, Outcome.system]
      exact ⟨h, by simp⟩
  cases op with
  | RegisterProperty name v => exact hreg name v
  | RegisterPropertyWithMode name v accessMode =>
    by_cases hmode : accessMode = AccessMode.ANIMATABLE
    · have heq : RegisterPropertyWithMode env s name v accessMode
          = RegisterProperty env s name v := by
        simp [RegisterPropertyWithMode, hmode]
      simp only [Dali.step, registered, heq]
      exact hreg name v
    · simp only [Dali.step, registered,
        RegisterPropertyWithMode_eventSide env s name v accessMode h hmode, Outcome.system]
      exact ⟨h.withEntry _ _ _, by simp [nextIndex_withEntry]⟩
  | SetProperty index v =>
    have := h.keys_setProperty index v
    simp only [Dali.step, registered]
    exact ⟨this.1, by simp [this.2]⟩
  | GetProperty index =>
    simp only [Dali.step, registered, GetProperty_system]
    exact ⟨h, by simp⟩
  | GetPropertyIndex name =>
    simp only [Dali.step, registered, GetPropertyIndex_eq, Outcome.system]
    exact ⟨h, by simp⟩
  | update stage =>
    simp only [Dali.step, registered]
    by_cases he : s.stage.evolves stage = true
    · simp only [he, if_true]
      exact ⟨h.of_proxy rfl, by simp [nextIndex]⟩
    · simp only [he]
      exact ⟨h, by simp⟩

theorem KeysInv.keys_run {env : Env} (ops : List Op) {s : System} (h : KeysInv env s) :
    KeysInv env (run env s ops) := by
  induction ops generalizing s with
  | nil => exact h
  | cons op ops ih => exact ih (h.keys_step op).1

theorem registrations_from (env : Env) (ops : List Op) (s : System) (h : KeysInv env s) :
    registrations env s ops =
      (List.range' (nextIndex env s) (registrations env s ops).length).map
        (fun n : Nat => (n : Int)) := by
  induction ops generalizing s with
  | nil => simp [registrations]
  | cons op ops ih =>
    obtain ⟨hinv, hcase⟩ := h.keys_step op
    have ih1 := ih (Dali.step env s op) hinv
    rcases hcase with ⟨hr, hn⟩ | ⟨hr, hn⟩
    · unfold registrations
      rw [hn] at ih1
      rw [hr]
      simpa using ih1
    · unfold registrations
      rw [hr]
      rw [hn] at ih1
      simp only [Option.toList_some, List.singleton_append, List.length_cons]
      rw [List.range'_succ, List.map_cons, ← ih1]

/-! ## The entries of the map and the cells they point to -/

theorem newAnimatableProperty_some (v : PropertyValue) (c : AnimatableProperty)
    (h : newAnimatableProperty v = some c) :
    c = AnimatableProperty.new v ∧ isAnimatableType v.GetType = true := by
  unfold newAnimatableProperty at h
  cases ht : v.GetType <;> simp [ht] at h <;> simp [h, isAnimatableType]

theorem newAnimatableProperty_of_type (v : PropertyValue)
    (h : isAnimatableType v.GetType = true) :
    newAnimatableProperty v = some (AnimatableProperty.new v) := by
  unfold newAnimatableProperty
  cases ht : v.GetType <;> simp [ht, isAnimatableType] at h <;> rfl

theorem newAnimatableProperty_none (v : PropertyValue)
    (h : isAnimatableType v.GetType = false) : newAnimatableProperty v = none := by
  unfold newAnimatableProperty
  cases ht : v.GetType <;> simp [ht, isAnimatableType] at h <;> rfl

theorem AnimatableProperty.new_wellTyped (v : PropertyValue) :
    (AnimatableProperty.new v).wellTyped = true := by
  simp [AnimatableProperty.new, AnimatableProperty.wellTyped]

theorem AnimatableProperty.new_get (v : PropertyValue) (bufferIndex : Nat) :
    (AnimatableProperty.new v).get bufferIndex = v := by
  unfold AnimatableProperty.get AnimatableProperty.new
  split <;> rfl

theorem AnimatableProperty.get_type (p : AnimatableProperty) (h : p.wellTyped = true)
    (bufferIndex : Nat) : (p.get bufferIndex).GetType = p.kind := by
  simp only [AnimatableProperty.wellTyped, Bool.and_eq_true, decide_eq_true_eq] at h
  unfold AnimatableProperty.get
  split
  · exact h.1
  · exact h.2

theorem entryOk_of_prefix {heap heap1 : List AnimatableProperty} {p : CustomProperty}
    (h : entryOk heap p)
    (hpre : heap.map AnimatableProperty.kind <+: heap1.map AnimatableProperty.kind) :
    entryOk heap1 p := by
  rcases h with h | ⟨cell, c, hp, hc, hk, ht, hm⟩
  · exact Or.inl h
  · right
    have hlen : cell < heap.length := by
      by_contra hcon
      have : heap[cell]? = none := List.getElem?_eq_none (by omega)
      rw [this] at hc
      cases hc
    obtain ⟨t, ht1⟩ := hpre
    have h1 : (heap1.map AnimatableProperty.kind)[cell]? = some c.kind := by
      rw [← ht1, List.getElem?_append_left (by simpa using hlen), List.getElem?_map, hc]
      rfl
    rw [List.getElem?_map] at h1
    cases hc1 : heap1[cell]? with
    | none => simp [hc1] at h1
    | some c1 =>
      simp only [hc1, Option.map_some', Option.some.injEq] at h1
      exact ⟨cell, c1, hp, hc1, h1.trans hk, ht, hm⟩

theorem entryOk_setValue {heap : List AnimatableProperty} {p : CustomProperty}
    (h : entryOk heap p) (v : PropertyValue) : entryOk heap { p with value := v } := h

theorem EntriesInv.entries_new (stage : Stage) (h : stage.wellTyped = true) :
    EntriesInv (System.new stage) :=
  ⟨h, fun kp hkp => by simp [customProperties, System.new, ProxyObject.new] at hkp⟩

theorem customProperties_withEntry (env : Env) (s : System) (e : CustomProperty)
    (stage : Stage) (calls : List HookCall) :
    customProperties { proxy := withEntry env s e, stage := stage, calls := calls }
      = customProperties s ++ [((nextIndex env s : Int), e)] := by
  simp [customProperties, withEntry]

theorem EntriesInv.withAnimatable {env : Env} {s : System} (h : EntriesInv s) (name : String)
    (v : PropertyValue) (hv : isAnimatableType v.GetType = true) :
    EntriesInv (withAnimatable env s name v.GetType (AnimatableProperty.new v)) := by
  constructor
  · have := h.typed
    simp only [Stage.wellTyped, Dali.withAnimatable, List.all_append, List.all_cons,
      List.all_nil, Bool.and_true, Bool.and_eq_true] at this ⊢
    exact ⟨this, AnimatableProperty.new_wellTyped v⟩
  · intro kp hkp
    simp only [Dali.withAnimatable, customProperties_withEntry, List.mem_append,
      List.mem_singleton] at hkp ⊢
    rcases hkp with hkp | hkp
    · exact entryOk_of_prefix (h.entries kp hkp) (by simp)
    · subst hkp
      right
      exact ⟨s.stage.heap.length, AnimatableProperty.new v, rfl, by simp, rfl, hv, rfl⟩

theorem EntriesInv.withEventSide {env : Env} {s : System} (h : EntriesInv s) (name : String)
    (v : PropertyValue) (accessMode : AccessMode) (hmode : accessMode ≠ AccessMode.ANIMATABLE) :
    EntriesInv { s with proxy := withEntry env s (CustomProperty.eventSide name v accessMode) } := by
  constructor
  · exact h.typed
  · intro kp hkp
    simp only [customProperties_withEntry, List.mem_append, List.mem_singleton] at hkp
    rcases hkp with hkp | hkp
    · exact h.entries kp hkp
    · subst hkp
      exact Or.inl ⟨rfl, hmode⟩

theorem EntriesInv.entries_setProperty {env : Env} {s : System} (h : EntriesInv s) (index : Int)
    (v : PropertyValue) : EntriesInv (SetProperty env s index v).system := by
  have hheap := (SetProperty_stage env s index v).1
  constructor
  · have := h.typed
    simp only [Stage.wellTyped] at this ⊢
    rw [hheap]
    exact this
  · intro kp hkp
    rw [hheap]
    rcases SetProperty_proxy env s index v with hp | ⟨m, hm, hp, _⟩
    · apply h.entries
      simpa [customProperties, hp] using hkp
    · simp only [customProperties, hp, Option.getD_some] at hkp
      obtain ⟨p, hcase⟩ := CustomPropertyLookup.mem_setValue m index v kp hkp
      have hmem : ∀ q, (kp.1, q) ∈ m → entryOk s.stage.heap q := fun q hq =>
        h.entries (kp.1, q) (by simpa [customProperties, hm] using hq)
      rcases hcase with ⟨h1, h2⟩ | ⟨h1, h2⟩
      · rw [h2]
        exact entryOk_setValue (hmem p h1) v
      · rw [h2]
        exact hmem p h1

theorem EntriesInv.update {s : System} (h : EntriesInv s) (stage : Stage)
    (he : s.stage.evolves stage = true) : EntriesInv { s with stage := stage } := by
  simp only [Stage.evolves, Bool.and_eq_true, List.isPrefixOf_iff_prefix] at he
  exact ⟨he.2, fun kp hkp => entryOk_of_prefix (h.entries kp hkp) he.1⟩

theorem EntriesInv.entries_step {env : Env} {s : System} (hk : KeysInv env s) (h : EntriesInv s)
    (op : Op) : EntriesInv (step env s op) := by
  have hreg : ∀ name v, EntriesInv (RegisterProperty env s name v).system := by
    intro name v
    rw [RegisterProperty_eq env s name v hk]
    by_cases hname : env.INVALID_INDEX = propertyIndexOf env s name
    · cases hnew : newAnimatableProperty v with
      | none =>
        simp only [hname, not_true_eq_false, if_false, Outcome.system]
        exact h
      | some c =>
        obtain ⟨hc, hv⟩ := newAnimatableProperty_some v c hnew
        subst hc
        simp only [hname, not_true_eq_false, if_false, Outcome.system]
        exact h.withAnimatable name v hv
    · simp only [hname, not_false_eq_true, if_true, Outcome.system]
      exact h
  cases op with
  | RegisterProperty name v => exact hreg name v
  | RegisterPropertyWithMode name v accessMode =>
    by_cases hmode : accessMode = AccessMode.ANIMATABLE
    · have heq : RegisterPropertyWithMode env s name v accessMode
          = RegisterProperty env s name v := by
        simp [RegisterPropertyWithMode, hmode]
      simp only [Dali.step, heq]
      exact hreg name v
    · simp only [Dali.step,
        RegisterPropertyWithMode_eventSide env s name v accessMode hk hmode, Outcome.system]
      exact h.withEventSide name v accessMode hmode
  | SetProperty index v => exact h.entries_setProperty index v
  | GetProperty index =>
    simp only [Dali.step, GetProperty_system]
    exact h
  | GetPropertyIndex name =>
    simp only [Dali.step, GetPropertyIndex_eq, Outcome.system]
    exact h
  | update stage =>
    simp only [Dali.step]
    by_cases he : s.stage.evolves stage = true
    · simp only [he, if_true]
      exact h.update stage he
    · simp only [he]
      exact h

theorem EntriesInv.entries_run {env : Env} (ops : List Op) {s : System} (hk : KeysInv env s)
    (h : EntriesInv s) : EntriesInv (run env s ops) := by
  induction ops generalizing s with
  | nil => exact h
  | cons op ops ih => exact ih (hk.keys_step op).1 (h.entries_step hk op)

theorem Reachable.keys {env : Env} {s : System} (h : Reachable env s) : KeysInv env s := by
  obtain ⟨stage, ops, _, hrun⟩ := h
  rw [← hrun]
  exact (KeysInv.keys_new env stage).keys_run ops

theorem Reachable.entries {env : Env} {s : System} (h : Reachable env s) : EntriesInv s := by
  obtain ⟨stage, ops, hst, hrun⟩ := h
  rw [← hrun]
  exact (EntriesInv.entries_new stage hst).entries_run ops (KeysInv.keys_new env stage)

theorem Reachable.after_step {env : Env} {s : System} (h : Reachable env s) (op : Op) :
    Reachable env (step env s op) := by
  obtain ⟨stage, ops, hst, hrun⟩ := h
  refine ⟨stage, ops ++ [op], hst, ?_⟩
  simp [Dali.run, List.foldl_append] at hrun ⊢
  rw [hrun]

theorem Reachable.of_new (env : Env) (stage : Stage) (h : stage.wellTyped = true) :
    Reachable env (System.new stage) :=
  ⟨stage, [], h, rfl⟩

/-! ## Reading a custom property -/

theorem customProperties_find_some {s : System} {index : Int} {e : CustomProperty}
    (h : (customProperties s).find index = some e) :
    ∃ m, s.proxy.mCustomProperties = some m ∧ m.find index = some e := by
  unfold customProperties at h
  cases hm : s.proxy.mCustomProperties with
  | none => simp [hm, CustomPropertyLookup.find] at h
  | some m => exact ⟨m, rfl, by simpa [hm] using h⟩

theorem find_withEntry {env : Env} {s : System} (h : KeysInv env s) (e : CustomProperty) :
    (customProperties s ++ [((nextIndex env s : Int), e)]).find (nextIndex env s : Int)
      = some e := by
  rw [CustomPropertyLookup.find_append, find_nextIndex h]
  simp [CustomPropertyLookup.find]

theorem find_withEntry_other {env : Env} {s : System} (e : CustomProperty) (index : Int)
    (h : index ≠ (nextIndex env s : Int)) :
    (customProperties s ++ [((nextIndex env s : Int), e)]).find index
      = (customProperties s).find index := by
  rw [CustomPropertyLookup.find_append]
  have h1 : ¬ (nextIndex env s : Int) = index := fun hh => h hh.symm
  cases (customProperties s).find index <;> simp [CustomPropertyLookup.find, h1]

theorem GetProperty_custom (env : Env) (s : System) (index : Int) (e : CustomProperty)
    (hs : env.sentinelNegative) (hge : (env.DEFAULT_PROPERTY_MAX_COUNT : Int) ≤ index)
    (hf : (customProperties s).find index = some e) :
    GetProperty env s index =
      if ¬ e.IsAnimatable then .ok e.value s
      else if isAnimatableType e.type then
        match castSceneGraphProperty s e e.type with
        | some property => .ok (property.get s.stage.eventBufferIndex) s
        | none => if env.debug then .assertion "NULL != property" s else .undefined s
      else .assertion "PropertyType enumeration is out of bounds" s := by
  obtain ⟨m, hm, hfm⟩ := customProperties_find_some hf
  have h1 : index > env.INVALID_INDEX := by
    unfold Env.sentinelNegative at hs
    omega
  have h2 : ¬ index < (env.DEFAULT_PROPERTY_MAX_COUNT : Int) := by omega
  unfold GetProperty
  simp only [h1, not_true_eq_false, if_false, h2, hm, hfm]

/-! ## An entry of the map over time -/

theorem CustomProperty.sameAs_refl (e : CustomProperty) : e.sameAs e :=
  ⟨rfl, rfl, rfl, rfl, fun _ => rfl⟩

theorem CustomProperty.sameAs_trans {e e1 e2 : CustomProperty} (h1 : e.sameAs e1)
    (h2 : e1.sameAs e2) : e.sameAs e2 := by
  obtain ⟨a1, b1, c1, d1, v1⟩ := h1
  obtain ⟨a2, b2, c2, d2, v2⟩ := h2
  refine ⟨a2.trans a1, b2.trans b1, c2.trans c1, d2.trans d1, fun hw => ?_⟩
  have hw1 : e1.IsWritable = false := by
    unfold CustomProperty.IsWritable at hw ⊢
    rw [d1]
    exact hw
  exact (v2 hw1).trans (v1 hw)

theorem find_after_step {env : Env} {s : System} (hk : KeysInv env s) (op : Op) (index : Int)
    (e : CustomProperty) (hf : (customProperties s).find index = some e) :
    ∃ e1, (customProperties (step env s op)).find index = some e1 ∧ e.sameAs e1 := by
  have hreg : ∀ name v,
      ∃ e1, (customProperties (RegisterProperty env s name v).system).find index = some e1 ∧
        e.sameAs e1 := by
    intro name v
    rw [RegisterProperty_eq env s name v hk]
    by_cases hname : env.INVALID_INDEX = propertyIndexOf env s name
    · cases hnew : newAnimatableProperty v with
      | none =>
        simp only [hname, not_true_eq_false, if_false, Outcome.system]
        exact ⟨e, hf, e.sameAs_refl⟩
      | some c =>
        simp only [hname, not_true_eq_false, if_false, Outcome.system, withAnimatable,
          customProperties_withEntry]
        exact ⟨e, by rw [CustomPropertyLookup.find_append, hf]; rfl, e.sameAs_refl⟩
    · simp only [hname, not_false_eq_true, if_true, Outcome.system]
      exact ⟨e, hf, e.sameAs_refl⟩
  cases op with
  | RegisterProperty name v => exact hreg name v
  | RegisterPropertyWithMode name v accessMode =>
    by_cases hmode : accessMode = AccessMode.ANIMATABLE
    · have heq : RegisterPropertyWithMode env s name v accessMode
          = RegisterProperty env s name v := by
        simp [RegisterPropertyWithMode, hmode]
      simp only [Dali.step, heq]
      exact hreg name v
    · simp only [Dali.step,
        RegisterPropertyWithMode_eventSide env s name v accessMode hk hmode, Outcome.system,
        customProperties_withEntry]
      exact ⟨e, by rw [CustomPropertyLookup.find_append, hf]; rfl, e.sameAs_refl⟩
  | SetProperty j w =>
    simp only [Dali.step]
    rcases SetProperty_proxy env s j w with hp | ⟨m, hm, hp, entry, hfe, hw⟩
    · exact ⟨e, by simpa [customProperties, hp] using hf, e.sameAs_refl⟩
    · have hfm : m.find index = some e := by simpa [customProperties, hm] using hf
      by_cases hj : index = j
      · subst hj
        rw [hfm] at hfe
        simp only [Option.some.injEq] at hfe
        subst hfe
        refine ⟨{ e with value := w }, ?_, rfl, rfl, rfl, rfl, fun hnw => ?_⟩
        · simp [customProperties, hp, CustomPropertyLookup.find_setValue_self, hfm]
        · rw [hw] at hnw
          cases hnw
      · refine ⟨e, ?_, e.sameAs_refl⟩
        simp [customProperties, hp, CustomPropertyLookup.find_setValue_other m j index w hj,
          hfm]
  | GetProperty j =>
    simp only [Dali.step, GetProperty_system]
    exact ⟨e, hf, e.sameAs_refl⟩
  | GetPropertyIndex name =>
    simp only [Dali.step, GetPropertyIndex_eq, Outcome.system]
    exact ⟨e, hf, e.sameAs_refl⟩
  | update stage =>
    simp only [Dali.step]
    by_cases he : s.stage.evolves stage = true
    · simp only [he, if_true]
      exact ⟨e, hf, e.sameAs_refl⟩
    · simp only [he]
      exact ⟨e, hf, e.sameAs_refl⟩

theorem find_after_run {env : Env} (ops : List Op) {s : System} (hk : KeysInv env s)
    (index : Int) (e : CustomProperty) (hf : (customProperties s).find index = some e) :
    ∃ e1, (customProperties (run env s ops)).find index = some e1 ∧ e.sameAs e1 := by
  induction ops generalizing s e with
  | nil => exact ⟨e, hf, e.sameAs_refl⟩
  | cons op ops ih =>
    obtain ⟨e1, hf1, hs1⟩ := find_after_step hk op index e hf
    obtain ⟨e2, hf2, hs2⟩ := ih (hk.keys_step op).1 e1 hf1
    exact ⟨e2, hf2, CustomProperty.sameAs_trans hs1 hs2⟩

theorem Reachable.after_run {env : Env} {s : System} (h : Reachable env s) (ops : List Op) :
    Reachable env (run env s ops) := by
  induction ops generalizing s with
  | nil => exact h
  | cons op ops ih => exact ih (h.after_step op)

theorem key_ge_of_find {env : Env} {s : System} (hk : KeysInv env s) {index : Int}
    {e : CustomProperty} (hf : (customProperties s).find index = some e) :
    (env.DEFAULT_PROPERTY_MAX_COUNT : Int) ≤ index :=
  hk.key_ge (index, e) (CustomPropertyLookup.mem_of_find _ _ _ hf)

theorem SetProperty_custom (env : Env) (s : System) (index : Int) (e : CustomProperty)
    (w : PropertyValue) (hs : env.sentinelNegative)
    (hge : (env.DEFAULT_PROPERTY_MAX_COUNT : Int) ≤ index)
    (hf : (customProperties s).find index = some e) :
    SetProperty env s index w =
      if ¬ e.IsWritable then .assertion "Property is read-only" s
      else SetCustomProperty
        { s with proxy := { s.proxy with
            mCustomProperties := some ((customProperties s).setValue index w) } }
        index { e with value := w } w := by
  obtain ⟨m, hm, hfm⟩ := customProperties_find_some hf
  have h1 : index > env.INVALID_INDEX := by
    unfold Env.sentinelNegative at hs
    omega
  have h2 : ¬ index < (env.DEFAULT_PROPERTY_MAX_COUNT : Int) := by omega
  unfold SetProperty
  simp only [h1, not_true_eq_false, if_false, h2, hm, hfm, customProperties, Option.getD_some]
  by_cases hw : e.IsWritable = true
  · simp [hw]
  · simp [hw]

theorem GetPropertyType_custom (env : Env) (s : System) (index : Int) (e : CustomProperty)
    (hs : env.sentinelNegative) (hge : (env.DEFAULT_PROPERTY_MAX_COUNT : Int) ≤ index)
    (hf : (customProperties s).find index = some e) :
    GetPropertyType env s index = .ok e.type s := by
  obtain ⟨m, hm, hfm⟩ := customProperties_find_some hf
  have h1 : index > env.INVALID_INDEX := by
    unfold Env.sentinelNegative at hs
    omega
  have h2 : ¬ index < (env.DEFAULT_PROPERTY_MAX_COUNT : Int) := by omega
  unfold GetPropertyType
  simp only [h1, not_true_eq_false, if_false, h2, hm, hfm]

theorem GetProperty_animatable (env : Env) (s : System) (index : Int) (e : CustomProperty)
    (hs : env.sentinelNegative) (hk : KeysInv env s) (he : EntriesInv s)
    (hf : (customProperties s).find index = some e) (ha : e.IsAnimatable = true) :
    ∃ cell c, e.mProperty = some cell ∧ s.stage.heap[cell]? = some c ∧ c.kind = e.type ∧
      c.wellTyped = true ∧
      GetProperty env s index = .ok (c.get s.stage.eventBufferIndex) s := by
  have hge := key_ge_of_find hk hf
  have hok : entryOk s.stage.heap e :=
    he.entries (index, e) (CustomPropertyLookup.mem_of_find _ _ _ hf)
  rcases hok with ⟨hnone, _⟩ | ⟨cell, c, hp, hc, hkind, ht, _⟩
  · simp [CustomProperty.IsAnimatable, hnone] at ha
  · have hwt : c.wellTyped = true := by
      have := he.typed
      simp only [Stage.wellTyped, List.all_eq_true] at this
      exact this c (List.getElem?_mem hc)
    refine ⟨cell, c, hp, hc, hkind, hwt, ?_⟩
    rw [GetProperty_custom env s index e hs hge hf]
    simp only [ha, ht, castSceneGraphProperty, hp, hc, hkind, not_true_eq_false, if_false,
      if_true]

/-! ## The claims -/

/-- C1: a registration with READ_ONLY of the name "a", which an earlier
registration on the same object already used, succeeds and returns index 11,
and `GetPropertyIndex` for "a" called right afterwards returns 10, the index
of the earlier property, not the index that the registration returned. -/
theorem C1_duplicate_name_index_mismatch :
    RegisterPropertyWithMode demoEnv demoRegistered "a" (PropertyValue.FLOAT 4)
        AccessMode.READ_ONLY
      = .ok 11 (step demoEnv demoRegistered
          (Op.RegisterPropertyWithMode "a" (PropertyValue.FLOAT 4) AccessMode.READ_ONLY)) ∧
    GetPropertyIndex demoEnv (step demoEnv demoRegistered
          (Op.RegisterPropertyWithMode "a" (PropertyValue.FLOAT 4) AccessMode.READ_ONLY)) "a"
      = .ok 10 (step demoEnv demoRegistered
          (Op.RegisterPropertyWithMode "a" (PropertyValue.FLOAT 4) AccessMode.READ_ONLY)) := by
  decide

/-- C2: for every sequence of events on a freshly constructed object, the
indices returned by its successful registrations (either overload) are, in
the order of the calls, `DEFAULT_PROPERTY_MAX_COUNT`, then one more, and so
on, whatever failed registrations and other calls lie in between; so every
one is at least `DEFAULT_PROPERTY_MAX_COUNT` and no two are equal. A
registration that fails leaves the object, and with it the counter, as it
was. -/
theorem C2_registration_indices_consecutive (env : Env) (stage : Stage) (ops : List Op) :
    registrations env (System.new stage) ops =
      (List.range' env.DEFAULT_PROPERTY_MAX_COUNT
        (registrations env (System.new stage) ops).length).map (fun n : Nat => (n : Int)) ∧
    (∀ index ∈ registrations env (System.new stage) ops,
      (env.DEFAULT_PROPERTY_MAX_COUNT : Int) ≤ index) ∧
    (registrations env (System.new stage) ops).Nodup ∧
    (∀ name v, (RegisterProperty env (run env (System.new stage) ops) name v).failed = true →
      (RegisterProperty env (run env (System.new stage) ops) name v).system
        = run env (System.new stage) ops) ∧
    (∀ name v accessMode,
      (RegisterPropertyWithMode env (run env (System.new stage) ops) name v accessMode).failed
        = true →
      (RegisterPropertyWithMode env (run env (System.new stage) ops) name v accessMode).system
        = run env (System.new stage) ops) := by
  have h := registrations_from env ops (System.new stage) (KeysInv.keys_new env stage)
  have hn : nextIndex env (System.new stage) = env.DEFAULT_PROPERTY_MAX_COUNT := by
    simp [nextIndex, System.new, ProxyObject.new]
  rw [hn] at h
  have hk := (KeysInv.keys_new env stage).keys_run ops
  have hfail : ∀ name v,
      (RegisterProperty env (run env (System.new stage) ops) name v).failed = true →
      (RegisterProperty env (run env (System.new stage) ops) name v).system
        = run env (System.new stage) ops := by
    intro name v
    rw [RegisterProperty_eq env _ name v hk]
    by_cases hname : env.INVALID_INDEX
        = propertyIndexOf env (run env (System.new stage) ops) name
    · cases hnew : newAnimatableProperty v with
      | none => simp [hname, Outcome.system]
      | some c => simp [hname, Outcome.failed]
    · simp [hname, Outcome.system]
  refine ⟨h, ?_, ?_, hfail, ?_⟩
  rotate_left 2
  · intro name v accessMode
    by_cases hmode : accessMode = AccessMode.ANIMATABLE
    · have heq : RegisterPropertyWithMode env (run env (System.new stage) ops) name v accessMode
          = RegisterProperty env (run env (System.new stage) ops) name v := by
        simp [RegisterPropertyWithMode, hmode]
      rw [heq]
      exact hfail name v
    · rw [RegisterPropertyWithMode_eventSide env _ name v accessMode hk hmode]
      simp [Outcome.failed]
  · intro index hi
    rw [h] at hi
    simp only [List.mem_map, List.mem_range'_1] at hi
    obtain ⟨n, ⟨hn1, _⟩, hni⟩ := hi
    omega
  · rw [h]
    exact (List.nodup_range' _ _).map (fun a b hab => by simpa using hab)

/-- C3: on a fresh object of the small concrete type, "size" is the name of
a default property, so `GetPropertyIndex` returns the valid index 0 for it;
all the same a registration of "size" with READ_WRITE returns normally with
index 10, allocates the map with a new entry and moves the counter to 11. -/
theorem C3_duplicate_name_accepted :
    GetPropertyIndex demoEnv (System.new demoStage) "size" = .ok 0 (System.new demoStage) ∧
    RegisterPropertyWithMode demoEnv (System.new demoStage) "size" (PropertyValue.FLOAT 1)
        AccessMode.READ_WRITE
      = .ok 10
          { proxy :=
              { mNextCustomPropertyIndex := 11
                mCustomProperties := some
                  [(10, CustomProperty.eventSide "size" (PropertyValue.FLOAT 1)
                    AccessMode.READ_WRITE)] }
            stage := demoStage
            calls := [] } := by
  decide

theorem GetProperty_after_eventSide (env : Env) (s : System) (hk : KeysInv env s)
    (hs : env.sentinelNegative) (name : String) (v : PropertyValue) (accessMode : AccessMode) :
    GetProperty env
        { s with proxy := withEntry env s (CustomProperty.eventSide name v accessMode) }
        (nextIndex env s : Int)
      = .ok v { s with proxy := withEntry env s (CustomProperty.eventSide name v accessMode) } := by
  have hge : (env.DEFAULT_PROPERTY_MAX_COUNT : Int) ≤ (nextIndex env s : Int) := by
    have := nextIndex_ge env s hk
    omega
  rw [GetProperty_custom env _ _ (CustomProperty.eventSide name v accessMode) hs hge
    (by rw [customProperties_withEntry]; exact find_withEntry hk _)]
  simp [CustomProperty.eventSide, CustomProperty.IsAnimatable]

theorem GetProperty_after_animatable (env : Env) (s : System) (hk : KeysInv env s)
    (hs : env.sentinelNegative) (name : String) (v : PropertyValue)
    (hv : isAnimatableType v.GetType = true) :
    GetProperty env (withAnimatable env s name v.GetType (AnimatableProperty.new v))
        (nextIndex env s : Int)
      = .ok v (withAnimatable env s name v.GetType (AnimatableProperty.new v)) := by
  have hge : (env.DEFAULT_PROPERTY_MAX_COUNT : Int) ≤ (nextIndex env s : Int) := by
    have := nextIndex_ge env s hk
    omega
  rw [GetProperty_custom env _ _ (CustomProperty.animatable name v.GetType s.stage.heap.length)
    hs hge (by
      unfold withAnimatable
      rw [customProperties_withEntry]
      exact find_withEntry hk _)]
  simp [CustomProperty.animatable, CustomProperty.IsAnimatable, hv, castSceneGraphProperty,
    withAnimatable]
  have hkind : (AnimatableProperty.new v).kind = v.GetType := rfl
  simp only [hkind, if_true, AnimatableProperty.new_get]

/-- C4: in every reachable state, when a registration of a custom property
with initial value `v` succeeds, through `RegisterProperty( name, v )` or
through `RegisterProperty( name, v, accessMode )` with any access mode,
`GetProperty` on the returned index called right afterwards returns `v`. -/
theorem C4_get_after_register (env : Env) (s : System) (hr : Reachable env s)
    (hs : env.sentinelNegative) (name : String) (v : PropertyValue) (index : Int)
    (s1 : System) :
    (RegisterProperty env s name v = .ok index s1 → GetProperty env s1 index = .ok v s1) ∧
    (∀ accessMode, RegisterPropertyWithMode env s name v accessMode = .ok index s1 →
      GetProperty env s1 index = .ok v s1) := by
  have hk := hr.keys
  have h2 : RegisterProperty env s name v = .ok index s1 →
      GetProperty env s1 index = .ok v s1 := by
    intro hreg
    rw [RegisterProperty_eq env s name v hk] at hreg
    by_cases hname : env.INVALID_INDEX = propertyIndexOf env s name
    · cases hnew : newAnimatableProperty v with
      | none => simp [hname, hnew] at hreg
      | some c =>
        obtain ⟨hc, hv⟩ := newAnimatableProperty_some v c hnew
        subst hc
        simp only [hname, not_true_eq_false, if_false, hnew, Outcome.ok.injEq] at hreg
        obtain ⟨hi, hs1⟩ := hreg
        subst hi hs1
        exact GetProperty_after_animatable env s hk hs name v hv
    · simp [hname] at hreg
  refine ⟨h2, ?_⟩
  intro accessMode hreg
  by_cases hmode : accessMode = AccessMode.ANIMATABLE
  · apply h2
    simpa [RegisterPropertyWithMode, hmode] using hreg
  · rw [RegisterPropertyWithMode_eventSide env s name v accessMode hk hmode] at hreg
    simp only [Outcome.ok.injEq] at hreg
    obtain ⟨hi, hs1⟩ := hreg
    subst hi hs1
    exact GetProperty_after_eventSide env s hk hs name v accessMode

/-- Witness of C4: the read-only property "foo" with value 3.0 of the
example scenario, registered on a fresh object. -/
theorem C4_get_after_register_witness :
    GetProperty demoEnv
        (step demoEnv (System.new demoStage)
          (Op.RegisterPropertyWithMode "foo" (PropertyValue.FLOAT 3) AccessMode.READ_ONLY)) 10
      = .ok (PropertyValue.FLOAT 3)
        (step demoEnv (System.new demoStage)
          (Op.RegisterPropertyWithMode "foo" (PropertyValue.FLOAT 3) AccessMode.READ_ONLY)) :=
  (C4_get_after_register demoEnv (System.new demoStage)
    (Reachable.of_new demoEnv demoStage (by decide)) (by simp [Env.sentinelNegative, demoEnv])
    "foo" (PropertyValue.FLOAT 3) 10
    (step demoEnv (System.new demoStage)
      (Op.RegisterPropertyWithMode "foo" (PropertyValue.FLOAT 3) AccessMode.READ_ONLY))).2
    AccessMode.READ_ONLY (by decide)

/-- C10: `GetPropertyIndex` returns normally and leaves the system as it
was. It returns the index of the default table whenever that table knows the
name, whatever the custom properties are called; otherwise the key of an
entry of the custom-property map whose name is `name` (the first in
iteration order) if there is one; otherwise `Property::INVALID_INDEX`. -/
theorem C10_GetPropertyIndex_lookup_order (env : Env) (s : System) (name : String) :
    ∃ index, GetPropertyIndex env s name = .ok index s ∧
      (env.GetDefaultPropertyIndex name ≠ env.INVALID_INDEX →
        index = env.GetDefaultPropertyIndex name) ∧
      (env.GetDefaultPropertyIndex name = env.INVALID_INDEX →
        ((∃ kp ∈ customProperties s, kp.2.name = name) →
          (∃ p, (index, p) ∈ customProperties s ∧ p.name = name) ∧
          (customProperties s).findName name = some index) ∧
        ((∀ kp ∈ customProperties s, kp.2.name ≠ name) → index = env.INVALID_INDEX)) := by
  refine ⟨propertyIndexOf env s name, GetPropertyIndex_eq env s name, ?_, ?_⟩
  · intro hd
    have : ¬ env.INVALID_INDEX = env.GetDefaultPropertyIndex name := fun hh => hd hh.symm
    simp [propertyIndexOf, this]
  · intro hd
    have hi : propertyIndexOf env s name
        = ((customProperties s).findName name).getD env.INVALID_INDEX := by
      simp [propertyIndexOf, hd]
    rw [hi]
    cases hf : (customProperties s).findName name with
    | none =>
      refine ⟨fun hex => ?_, fun _ => rfl⟩
      obtain ⟨kp, hkp, hn⟩ := hex
      exact absurd hn (CustomPropertyLookup.findName_none _ _ hf kp hkp)
    | some k =>
      obtain ⟨p, hp, hn⟩ := CustomPropertyLookup.findName_some _ _ _ hf
      refine ⟨fun _ => ⟨⟨p, by simpa using hp, hn⟩, by simp⟩, fun hall => ?_⟩
      exact absurd hn (hall (k, p) hp)

theorem registered_eventSide_find {env : Env} {s s1 : System} (hk : KeysInv env s)
    {name : String} {v : PropertyValue} {accessMode : AccessMode} {index : Int}
    (hmode : accessMode ≠ AccessMode.ANIMATABLE)
    (hreg : RegisterPropertyWithMode env s name v accessMode = .ok index s1) :
    KeysInv env s1 ∧
    (customProperties s1).find index = some (CustomProperty.eventSide name v accessMode) := by
  rw [RegisterPropertyWithMode_eventSide env s name v accessMode hk hmode] at hreg
  simp only [Outcome.ok.injEq] at hreg
  obtain ⟨hi, hs1⟩ := hreg
  subst hi hs1
  exact ⟨hk.withEntry _ _ _, by rw [customProperties_withEntry]; exact find_withEntry hk _⟩

/-- C5: in every reachable state, when a custom property is registered with
access mode READ_ONLY and initial value `v`, then after any further events
`SetProperty` on its index with any value fails with the assertion
"Property is read-only" and leaves the whole system as it was (so every
other custom property, the property count and the next custom index are
unchanged), and `GetProperty` on its index returns `v`. -/
theorem C5_read_only_property (env : Env) (s : System) (hr : Reachable env s)
    (hs : env.sentinelNegative) (name : String) (v : PropertyValue) (index : Int)
    (s1 : System)
    (hreg : RegisterPropertyWithMode env s name v AccessMode.READ_ONLY = .ok index s1)
    (ops : List Op) (w : PropertyValue) :
    SetProperty env (run env s1 ops) index w
      = .assertion "Property is read-only" (run env s1 ops) ∧
    GetProperty env (run env s1 ops) index = .ok v (run env s1 ops) := by
  obtain ⟨hk1, hf1⟩ := registered_eventSide_find hr.keys (by decide) hreg
  obtain ⟨e1, hf2, hname, htype, hprop, hmode, hvalue⟩ := find_after_run ops hk1 index _ hf1
  have hk2 := hk1.keys_run ops
  have hge := key_ge_of_find hk2 hf2
  have hw : e1.IsWritable = false := by
    simp [CustomProperty.IsWritable, hmode, CustomProperty.eventSide]
  have ha : e1.IsAnimatable = false := by
    simp [CustomProperty.IsAnimatable, hprop, CustomProperty.eventSide]
  constructor
  · rw [SetProperty_custom env _ index e1 w hs hge hf2]
    simp [hw]
  · rw [GetProperty_custom env _ index e1 hs hge hf2]
    simp only [ha, Bool.false_eq_true, not_false_eq_true, if_true]
    rw [hvalue (by simp [CustomProperty.IsWritable, CustomProperty.eventSide])]
    rfl

/-- Witness of C5: the read-only property "foo" with value 3.0 of the
example scenario; after an attempt to set it to 5.0, a second attempt with
9.0 fails as well and the value read is still 3.0. -/
theorem C5_read_only_property_witness :
    SetProperty demoEnv
        (run demoEnv (step demoEnv (System.new demoStage)
          (Op.RegisterPropertyWithMode "foo" (PropertyValue.FLOAT 3) AccessMode.READ_ONLY))
          [Op.SetProperty 10 (PropertyValue.FLOAT 5)]) 10 (PropertyValue.FLOAT 9)
      = .assertion "Property is read-only"
        (run demoEnv (step demoEnv (System.new demoStage)
          (Op.RegisterPropertyWithMode "foo" (PropertyValue.FLOAT 3) AccessMode.READ_ONLY))
          [Op.SetProperty 10 (PropertyValue.FLOAT 5)]) ∧
    GetProperty demoEnv
        (run demoEnv (step demoEnv (System.new demoStage)
          (Op.RegisterPropertyWithMode "foo" (PropertyValue.FLOAT 3) AccessMode.READ_ONLY))
          [Op.SetProperty 10 (PropertyValue.FLOAT 5)]) 10
      = .ok (PropertyValue.FLOAT 3)
        (run demoEnv (step demoEnv (System.new demoStage)
          (Op.RegisterPropertyWithMode "foo" (PropertyValue.FLOAT 3) AccessMode.READ_ONLY))
          [Op.SetProperty 10 (PropertyValue.FLOAT 5)]) :=
  C5_read_only_property demoEnv (System.new demoStage)
    (Reachable.of_new demoEnv demoStage (by decide)) (by simp [Env.sentinelNegative, demoEnv])
    "foo" (PropertyValue.FLOAT 3) 10
    (step demoEnv (System.new demoStage)
      (Op.RegisterPropertyWithMode "foo" (PropertyValue.FLOAT 3) AccessMode.READ_ONLY))
    (by decide) [Op.SetProperty 10 (PropertyValue.FLOAT 5)] (PropertyValue.FLOAT 9)

/-- C6: in every reachable state, when a custom property is registered with
access mode READ_WRITE, then after any further events `SetProperty` on its
index with any value `w` succeeds and `GetProperty` on its index returns `w`
afterwards; the entry of every other index (name, type, value, cell and
access mode), the property count, the next custom index and the stage are
unchanged, and the property keeps its own name and type. -/
theorem C6_read_write_property (env : Env) (s : System) (hr : Reachable env s)
    (hs : env.sentinelNegative) (name : String) (v : PropertyValue) (index : Int)
    (s1 : System)
    (hreg : RegisterPropertyWithMode env s name v AccessMode.READ_WRITE = .ok index s1)
    (ops : List Op) (w : PropertyValue) :
    ∃ s3, SetProperty env (run env s1 ops) index w = .ok () s3 ∧
      GetProperty env s3 index = .ok w s3 ∧
      (∀ other, other ≠ index →
        (customProperties s3).find other = (customProperties (run env s1 ops)).find other) ∧
      (∃ e3, (customProperties s3).find index = some e3 ∧ e3.name = name ∧
        e3.type = v.GetType) ∧
      GetPropertyCount env s3 = GetPropertyCount env (run env s1 ops) ∧
      s3.proxy.mNextCustomPropertyIndex = (run env s1 ops).proxy.mNextCustomPropertyIndex ∧
      s3.stage = (run env s1 ops).stage := by
  obtain ⟨hk1, hf1⟩ := registered_eventSide_find hr.keys (by decide) hreg
  obtain ⟨e1, hf2, hname, htype, hprop, hmode, _⟩ := find_after_run ops hk1 index _ hf1
  have hk2 := hk1.keys_run ops
  have hge := key_ge_of_find hk2 hf2
  have hw : e1.IsWritable = true := by
    simp [CustomProperty.IsWritable, hmode, CustomProperty.eventSide]
  have hp1 : e1.mProperty = none := by simpa [CustomProperty.eventSide] using hprop
  obtain ⟨m, hm, hfm⟩ := customProperties_find_some hf2
  have hcp : customProperties (run env s1 ops) = m := by simp [customProperties, hm]
  have hset := SetProperty_custom env _ index e1 w hs hge hf2
  simp only [hw, not_true_eq_false, if_false, SetCustomProperty, hp1, hcp] at hset
  refine ⟨_, hset, ?_, ?_, ?_, ?_, rfl, rfl⟩
  · have hf3 : (customProperties
        { proxy := { (run env s1 ops).proxy with
            mCustomProperties := some (m.setValue index w) },
          stage := (run env s1 ops).stage,
          calls := (run env s1 ops).calls ++ [HookCall.SetCustomProperty index w] }).find index
        = some { e1 with value := w } := by
      simp [customProperties, CustomPropertyLookup.find_setValue_self, hfm]
    rw [GetProperty_custom env _ index _ hs hge hf3]
    simp [CustomProperty.IsAnimatable, hp1]
  · intro other hother
    simp [customProperties, hm, CustomPropertyLookup.find_setValue_other m index other w hother]
  · refine ⟨{ e1 with value := w }, ?_, ?_, ?_⟩
    · simp [customProperties, CustomPropertyLookup.find_setValue_self, hfm]
    · simpa [CustomProperty.eventSide] using hname
    · simpa [CustomProperty.eventSide] using htype
  · simp [GetPropertyCount, hm, CustomPropertyLookup.setValue_length]

/-- Witness of C6: a read-write property "a" with value 3.0; after a further
registration it is set to the string "x". -/
theorem C6_read_write_property_witness :
    ∃ s3, SetProperty demoEnv
        (run demoEnv demoRegistered [Op.RegisterProperty "b" (PropertyValue.BOOLEAN true)]) 10
        (PropertyValue.FLOAT 9) = .ok () s3 ∧
      GetProperty demoEnv s3 10 = .ok (PropertyValue.FLOAT 9) s3 ∧
      (∀ other, other ≠ 10 →
        (customProperties s3).find other
          = (customProperties (run demoEnv demoRegistered
              [Op.RegisterProperty "b" (PropertyValue.BOOLEAN true)])).find other) ∧
      (∃ e3, (customProperties s3).find 10 = some e3 ∧ e3.name = "a" ∧
        e3.type = (PropertyValue.FLOAT 3).GetType) ∧
      GetPropertyCount demoEnv s3
        = GetPropertyCount demoEnv (run demoEnv demoRegistered
            [Op.RegisterProperty "b" (PropertyValue.BOOLEAN true)]) ∧
      s3.proxy.mNextCustomPropertyIndex
        = (run demoEnv demoRegistered
            [Op.RegisterProperty "b" (PropertyValue.BOOLEAN true)]).proxy.mNextCustomPropertyIndex ∧
      s3.stage = (run demoEnv demoRegistered
            [Op.RegisterProperty "b" (PropertyValue.BOOLEAN true)]).stage :=
  C6_read_write_property demoEnv (System.new demoStage)
    (Reachable.of_new demoEnv demoStage (by decide)) (by simp [Env.sentinelNegative, demoEnv])
    "a" (PropertyValue.FLOAT 3) 10 demoRegistered (by decide)
    [Op.RegisterProperty "b" (PropertyValue.BOOLEAN true)] (PropertyValue.FLOAT 9)

theorem nextIndex_run {env : Env} (ops : List Op) {s : System} (hk : KeysInv env s) :
    nextIndex env (run env s ops) = nextIndex env s + (registrations env s ops).length := by
  induction ops generalizing s with
  | nil => simp [run, registrations]
  | cons op ops ih =>
    obtain ⟨hinv, hcase⟩ := hk.keys_step op
    have ih1 := ih hinv
    have hrun : run env s (op :: ops) = run env (step env s op) ops := rfl
    rw [hrun, ih1]
    rcases hcase with ⟨hr, hn⟩ | ⟨hr, hn⟩
    · simp [registrations, hr, hn]
    · simp [registrations, hr, hn]
      omega

theorem unallocated_iff {env : Env} {s : System} (hk : KeysInv env s) :
    s.proxy.mCustomProperties = none ↔ nextIndex env s = env.DEFAULT_PROPERTY_MAX_COUNT := by
  constructor
  · intro hn
    simp [nextIndex, hk.unallocated hn]
  · intro hn
    cases hm : s.proxy.mCustomProperties with
    | none => rfl
    | some m =>
      have hlt := (hk.allocated m hm).1
      have h0 : s.proxy.mNextCustomPropertyIndex ≠ 0 := by omega
      simp only [nextIndex, h0, if_false] at hn
      omega

theorem keys_run_eq (env : Env) (stage : Stage) (ops : List Op) :
    (customProperties (run env (System.new stage) ops)).map Prod.fst
      = registrations env (System.new stage) ops := by
  have hk0 := KeysInv.keys_new env stage
  have hk := hk0.keys_run ops
  have hn := nextIndex_run ops hk0
  have hn0 : nextIndex env (System.new stage) = env.DEFAULT_PROPERTY_MAX_COUNT := by
    simp [nextIndex, System.new, ProxyObject.new]
  rw [hn0] at hn
  have hregs := registrations_from env ops (System.new stage) hk0
  rw [hn0] at hregs
  cases hm : (run env (System.new stage) ops).proxy.mCustomProperties with
  | none =>
    have := (unallocated_iff hk).1 hm
    have hlen : (registrations env (System.new stage) ops).length = 0 := by omega
    simp only [customProperties, hm, Option.getD_none, List.map_nil]
    exact (List.length_eq_zero.1 hlen).symm
  | some m =>
    obtain ⟨hlt, hkeys⟩ := hk.allocated m hm
    have h0 : (run env (System.new stage) ops).proxy.mNextCustomPropertyIndex ≠ 0 := by omega
    have hnext : nextIndex env (run env (System.new stage) ops)
        = (run env (System.new stage) ops).proxy.mNextCustomPropertyIndex := by
      simp [nextIndex, h0]
    simp only [customProperties, hm, Option.getD_some]
    rw [hkeys, hregs]
    congr 2
    omega

/-- C7 as stated fails: on a fresh object, on which no custom property has
been registered, `SetProperty` and `GetProperty` on index 10, which is
`DEFAULT_PROPERTY_MAX_COUNT` and was returned by no registration, both return
normally; `SetProperty` does nothing and `GetProperty` returns the empty
value. -/
theorem C7_fresh_object_returns_normally :
    SetProperty demoEnv (System.new demoStage) 10 (PropertyValue.FLOAT 1)
      = .ok () (System.new demoStage) ∧
    GetProperty demoEnv (System.new demoStage) 10
      = .ok PropertyValue.NONE (System.new demoStage) := by
  decide

/-- C7, amended: take an object after any sequence of events and an index
that is at least `DEFAULT_PROPERTY_MAX_COUNT` and that no registration on the
object has returned. If at least one registration has succeeded,
`SetProperty` and `GetProperty` both fail with the assertion
"Cannot find property index" and change nothing. If none has, the map is not
allocated: `SetProperty` returns normally without any effect and
`GetProperty` returns the empty value. -/
theorem C7_unknown_custom_index (env : Env) (hs : env.sentinelNegative) (stage : Stage)
    (ops : List Op) (index : Int) (v : PropertyValue)
    (hge : (env.DEFAULT_PROPERTY_MAX_COUNT : Int) ≤ index)
    (hnew : index ∉ registrations env (System.new stage) ops) :
    (registrations env (System.new stage) ops ≠ [] →
      SetProperty env (run env (System.new stage) ops) index v
        = .assertion "Cannot find property index" (run env (System.new stage) ops) ∧
      GetProperty env (run env (System.new stage) ops) index
        = .assertion "Cannot find property index" (run env (System.new stage) ops)) ∧
    (registrations env (System.new stage) ops = [] →
      SetProperty env (run env (System.new stage) ops) index v
        = .ok () (run env (System.new stage) ops) ∧
      GetProperty env (run env (System.new stage) ops) index
        = .ok PropertyValue.NONE (run env (System.new stage) ops)) := by
  have hkeys := keys_run_eq env stage ops
  have h1 : index > env.INVALID_INDEX := by
    unfold Env.sentinelNegative at hs
    omega
  have h2 : ¬ index < (env.DEFAULT_PROPERTY_MAX_COUNT : Int) := by omega
  cases hm : (run env (System.new stage) ops).proxy.mCustomProperties with
  | none =>
    simp only [customProperties, hm, Option.getD_none, List.map_nil] at hkeys
    refine ⟨fun hne => absurd hkeys.symm hne, fun _ => ?_⟩
    simp [SetProperty, GetProperty, h1, h2, hm]
  | some m =>
    simp only [customProperties, hm, Option.getD_some] at hkeys
    have hf : m.find index = none :=
      CustomPropertyLookup.find_eq_none_of_not_mem m index (by rw [hkeys]; exact hnew)
    refine ⟨fun _ => ?_, fun hnil => ?_⟩
    · simp [SetProperty, GetProperty, h1, h2, hm, hf]
    · exfalso
      have hk := (KeysInv.keys_new env stage).keys_run ops
      obtain ⟨hlt, hk1⟩ := hk.allocated m hm
      rw [hkeys, hnil] at hk1
      have hlen := congrArg List.length hk1
      simp at hlen
      omega

/-- Witness of C7, amended: after the registration of "a", which returned
10, the index 11 is unknown. -/
theorem C7_unknown_custom_index_witness :
    SetProperty demoEnv demoRegistered 11 (PropertyValue.FLOAT 1)
      = .assertion "Cannot find property index" demoRegistered ∧
    GetProperty demoEnv demoRegistered 11
      = .assertion "Cannot find property index" demoRegistered :=
  (C7_unknown_custom_index demoEnv (by simp [Env.sentinelNegative, demoEnv]) demoStage
    [Op.RegisterPropertyWithMode "a" (PropertyValue.FLOAT 3) AccessMode.READ_WRITE] 11
    (PropertyValue.FLOAT 1) (by decide) (by decide)).1 (by decide)

theorem registered_animatable_find {env : Env} {s s1 : System} (hk : KeysInv env s)
    {name : String} {v : PropertyValue} {index : Int}
    (hreg : RegisterProperty env s name v = .ok index s1) :
    KeysInv env s1 ∧
    ∃ cell, (customProperties s1).find index
      = some (CustomProperty.animatable name v.GetType cell) := by
  rw [RegisterProperty_eq env s name v hk] at hreg
  by_cases hname : env.INVALID_INDEX = propertyIndexOf env s name
  · cases hnew : newAnimatableProperty v with
    | none => simp [hname, hnew] at hreg
    | some c =>
      simp only [hname, not_true_eq_false, if_false, hnew, Outcome.ok.injEq] at hreg
      obtain ⟨hi, hs1⟩ := hreg
      subst hi hs1
      refine ⟨hk.withEntry _ _ _, s.stage.heap.length, ?_⟩
      unfold withAnimatable
      rw [customProperties_withEntry]
      exact find_withEntry hk _
  · simp [hname] at hreg

/-- What `SetProperty` and `GetProperty` do on an animatable entry of a
reachable state. -/
theorem animatable_set_get (env : Env) (s : System) (hr : Reachable env s)
    (hs : env.sentinelNegative) (index : Int) (e : CustomProperty)
    (hf : (customProperties s).find index = some e) (ha : e.IsAnimatable = true)
    (w : PropertyValue) :
    ∃ cell c, e.mProperty = some cell ∧ s.stage.heap[cell]? = some c ∧ c.kind = e.type ∧
      c.wellTyped = true ∧
      GetProperty env s index = .ok (c.get s.stage.eventBufferIndex) s ∧
      GetProperty env (SetProperty env s index w).system index
        = .ok (c.get s.stage.eventBufferIndex) (SetProperty env s index w).system ∧
      GetPropertyType env (SetProperty env s index w).system index
        = .ok e.type (SetProperty env s index w).system ∧
      SetProperty env s index w =
        (if w.GetType = e.type then
          .ok ()
            { proxy := { s.proxy with
                mCustomProperties := some ((customProperties s).setValue index w) },
              stage := { s.stage with
                messages := s.stage.messages ++ [{ cell := cell, value := w }] },
              calls := s.calls ++ [HookCall.SetCustomProperty index w] }
        else
          .assertion "Property type mismatch"
            { proxy := { s.proxy with
                mCustomProperties := some ((customProperties s).setValue index w) },
              stage := s.stage,
              calls := s.calls ++ [HookCall.SetCustomProperty index w] }) := by
  have hk := hr.keys
  have hge := key_ge_of_find hk hf
  obtain ⟨cell, c, hp, hc, hkind, hwt, hget⟩ :=
    GetProperty_animatable env s index e hs hk hr.entries hf ha
  have hr1 : Reachable env (SetProperty env s index w).system :=
    hr.after_step (Op.SetProperty index w)
  obtain ⟨e1, hf1, _, htype1, hprop1, _, _⟩ :=
    find_after_step hk (Op.SetProperty index w) index e hf
  have hf1a : (customProperties (SetProperty env s index w).system).find index = some e1 := hf1
  have ha1 : e1.IsAnimatable = true := by
    simpa [CustomProperty.IsAnimatable, hprop1] using ha
  obtain ⟨cell1, c1, hp1, hc1, _, _, hget1⟩ :=
    GetProperty_animatable env _ index e1 hs hr1.keys hr1.entries hf1a ha1
  obtain ⟨hheap, hbuf⟩ := SetProperty_stage env s index w
  rw [hheap] at hc1
  rw [hbuf] at hget1
  have hcell : cell1 = cell := by
    rw [hprop1, hp] at hp1
    simpa using hp1.symm
  subst hcell
  rw [hc] at hc1
  simp only [Option.some.injEq] at hc1
  subst hc1
  refine ⟨cell1, c, hp, hc, hkind, hwt, hget, hget1, ?_, ?_⟩
  · rw [GetPropertyType_custom env _ index e1 hs hge hf1a, htype1]
  · have hmode : e.mAccessMode = AccessMode.ANIMATABLE := by
      have hok : entryOk s.stage.heap e :=
        hr.entries.entries (index, e) (CustomPropertyLookup.mem_of_find _ _ _ hf)
      rcases hok with ⟨hnone, _⟩ | ⟨_, _, _, _, _, _, hm⟩
      · simp [hnone] at hp
      · exact hm
    have hw : e.IsWritable = true := by simp [CustomProperty.IsWritable, hmode]
    rw [SetProperty_custom env s index e w hs hge hf]
    simp only [hw, not_true_eq_false, if_false, SetCustomProperty, hp]

/-- C8 as stated fails for a READ_WRITE property: "a" was registered with the
float 3.0, yet `SetProperty` with the string "x" succeeds, and afterwards
`GetProperty` returns the string while `GetPropertyType` still returns
FLOAT. -/
theorem C8_read_write_accepts_other_type :
    SetProperty demoEnv demoRegistered 10 (PropertyValue.STRING "x")
      = .ok () (step demoEnv demoRegistered (Op.SetProperty 10 (PropertyValue.STRING "x"))) ∧
    GetProperty demoEnv
        (step demoEnv demoRegistered (Op.SetProperty 10 (PropertyValue.STRING "x"))) 10
      = .ok (PropertyValue.STRING "x")
          (step demoEnv demoRegistered (Op.SetProperty 10 (PropertyValue.STRING "x"))) ∧
    GetPropertyType demoEnv
        (step demoEnv demoRegistered (Op.SetProperty 10 (PropertyValue.STRING "x"))) 10
      = .ok PropertyType.FLOAT
          (step demoEnv demoRegistered (Op.SetProperty 10 (PropertyValue.STRING "x"))) := by
  decide

/-- C8, amended. `SetProperty` compares no types itself: for a writable
custom property it stores the value in the entry and its result is that of
the `SetCustomProperty` of the concrete type. In every reachable state, when
a property is registered with access mode READ_WRITE and a value `v`, then
after any further events `SetProperty` on its index succeeds for every value
`w`, of whatever type; afterwards `GetProperty` returns `w` while
`GetPropertyType` still returns the type of `v`. When `RegisterProperty(
name, v )` registers an animatable property, then after any further events
`SetProperty` with a value of the type of `v` succeeds, and whenever
`SetProperty` on its index succeeds, the value that `GetProperty` returns
afterwards has the type that `GetPropertyType` returns, which is the type
of `v`. -/
theorem C8_set_property_type (env : Env) (s : System) (hr : Reachable env s)
    (hs : env.sentinelNegative) (name : String) (v : PropertyValue) (index : Int)
    (s1 : System) (ops : List Op) (w : PropertyValue) :
    (RegisterPropertyWithMode env s name v AccessMode.READ_WRITE = .ok index s1 →
      ∃ s3, SetProperty env (run env s1 ops) index w = .ok () s3 ∧
        GetProperty env s3 index = .ok w s3 ∧
        GetPropertyType env s3 index = .ok v.GetType s3) ∧
    (RegisterProperty env s name v = .ok index s1 →
      (w.GetType = v.GetType → ∃ s3, SetProperty env (run env s1 ops) index w = .ok () s3) ∧
      (∀ s3, SetProperty env (run env s1 ops) index w = .ok () s3 →
        ∃ r, GetProperty env s3 index = .ok r s3 ∧
          GetPropertyType env s3 index = .ok r.GetType s3 ∧ r.GetType = v.GetType)) ∧
    (∀ e, (customProperties s).find index = some e → e.IsWritable = true →
      SetProperty env s index w
        = SetCustomProperty
            { s with proxy := { s.proxy with
                mCustomProperties := some ((customProperties s).setValue index w) } }
            index { e with value := w } w) := by
  refine ⟨fun hreg => ?_, fun hreg => ?_, fun e hf hw => ?_⟩
  · obtain ⟨hk1, hf1⟩ := registered_eventSide_find hr.keys (by decide) hreg
    obtain ⟨e1, hf2, _, htype, hprop, hmode, _⟩ := find_after_run ops hk1 index _ hf1
    have hk2 := hk1.keys_run ops
    have hge := key_ge_of_find hk2 hf2
    have hw : e1.IsWritable = true := by
      simp [CustomProperty.IsWritable, hmode, CustomProperty.eventSide]
    have hp1 : e1.mProperty = none := by simpa [CustomProperty.eventSide] using hprop
    have htype1 : e1.type = v.GetType := by simpa [CustomProperty.eventSide] using htype
    obtain ⟨m, hm, hfm⟩ := customProperties_find_some hf2
    have hcp : customProperties (run env s1 ops) = m := by simp [customProperties, hm]
    have hset := SetProperty_custom env _ index e1 w hs hge hf2
    simp only [hw, not_true_eq_false, if_false, SetCustomProperty, hp1, hcp] at hset
    have hf3 : (customProperties
        { proxy := { (run env s1 ops).proxy with
            mCustomProperties := some (m.setValue index w) },
          stage := (run env s1 ops).stage,
          calls := (run env s1 ops).calls ++ [HookCall.SetCustomProperty index w] }).find index
        = some { e1 with value := w } := by
      simp [customProperties, CustomPropertyLookup.find_setValue_self, hfm]
    refine ⟨_, hset, ?_, ?_⟩
    · rw [GetProperty_custom env _ index _ hs hge hf3]
      simp [CustomProperty.IsAnimatable, hp1]
    · rw [GetPropertyType_custom env _ index _ hs hge hf3]
      simp [htype1]
  · obtain ⟨hk1, cell0, hf1⟩ := registered_animatable_find hr.keys hreg
    obtain ⟨e1, hf2, _, htype, hprop, _, _⟩ := find_after_run ops hk1 index _ hf1
    have hr1 : Reachable env s1 := by
      have := hr.after_step (Op.RegisterProperty name v)
      simp only [step, hreg, Outcome.system] at this
      exact this
    have hr2 := hr1.after_run ops
    have ha : e1.IsAnimatable = true := by
      simp [CustomProperty.IsAnimatable, hprop, CustomProperty.animatable]
    have htype1 : e1.type = v.GetType := by simpa [CustomProperty.animatable] using htype
    obtain ⟨cell, c, _, _, hkind, hwt, _, hget, hgt, hset⟩ :=
      animatable_set_get env _ hr2 hs index e1 hf2 ha w
    constructor
    · intro heq
      rw [hset, if_pos (heq.trans htype1.symm)]
      exact ⟨_, rfl⟩
    · intro s3 hok
      have hsys : (SetProperty env (run env s1 ops) index w).system = s3 := by
        rw [hok]
        rfl
      rw [hsys] at hget hgt
      refine ⟨_, hget, ?_, ?_⟩
      · rw [hgt, AnimatableProperty.get_type c hwt, hkind]
      · rw [AnimatableProperty.get_type c hwt, hkind, htype1]
  · have hge := key_ge_of_find hr.keys hf
    rw [SetProperty_custom env s index e w hs hge hf]
    simp [hw]

/-- Witness of C8, amended: the read-write property "a", registered with the
float 3.0, is set to the string "x" and then reads as that string while its
type stays FLOAT; the animatable float property "x" reads as a float after
it has been set to the float 9.0. -/
theorem C8_set_property_type_witness :
    (∃ s3, SetProperty demoEnv (run demoEnv demoRegistered []) 10 (PropertyValue.STRING "x")
        = .ok () s3 ∧
      GetProperty demoEnv s3 10 = .ok (PropertyValue.STRING "x") s3 ∧
      GetPropertyType demoEnv s3 10 = .ok (PropertyValue.FLOAT 3).GetType s3) ∧
    ∃ r, GetProperty demoEnv
          (step demoEnv demoAnimatable (Op.SetProperty 10 (PropertyValue.FLOAT 9))) 10
        = .ok r (step demoEnv demoAnimatable (Op.SetProperty 10 (PropertyValue.FLOAT 9))) ∧
      GetPropertyType demoEnv
          (step demoEnv demoAnimatable (Op.SetProperty 10 (PropertyValue.FLOAT 9))) 10
        = .ok r.GetType
            (step demoEnv demoAnimatable (Op.SetProperty 10 (PropertyValue.FLOAT 9))) ∧
      r.GetType = (PropertyValue.FLOAT 2).GetType :=
  ⟨(C8_set_property_type demoEnv (System.new demoStage)
      (Reachable.of_new demoEnv demoStage (by decide))
      (by simp [Env.sentinelNegative, demoEnv])
      "a" (PropertyValue.FLOAT 3) 10 demoRegistered []
      (PropertyValue.STRING "x")).1 (by decide),
   ((C8_set_property_type demoEnv (System.new demoStage)
      (Reachable.of_new demoEnv demoStage (by decide))
      (by simp [Env.sentinelNegative, demoEnv])
      "x" (PropertyValue.FLOAT 2) 10 demoAnimatable []
      (PropertyValue.FLOAT 9)).2.1 (by decide)).2
      (step demoEnv demoAnimatable (Op.SetProperty 10 (PropertyValue.FLOAT 9))) (by decide)⟩

/-- C9: in every reachable state, when `RegisterProperty( name, v )`
succeeds, then after any further events the animatable property has a cell,
and `GetProperty` on its index returns the copy of that cell at the event
buffer index. `SetProperty` with a value `w` of the type of the property
succeeds, stores `w` in the event-side entry and queues a message for the
cell; `GetProperty` called right after `SetProperty` (whether it succeeded
or not) still returns the copy that the cell held at the event buffer index
before the call, so it never reads the event-side cached value. -/
theorem C9_animatable_get_reads_cell (env : Env) (s : System) (hr : Reachable env s)
    (hs : env.sentinelNegative) (name : String) (v : PropertyValue) (index : Int)
    (s1 : System) (hreg : RegisterProperty env s name v = .ok index s1)
    (ops : List Op) (w : PropertyValue) :
    ∃ cell c, (run env s1 ops).stage.heap[cell]? = some c ∧
      GetProperty env (run env s1 ops) index
        = .ok (c.get (run env s1 ops).stage.eventBufferIndex) (run env s1 ops) ∧
      GetProperty env (SetProperty env (run env s1 ops) index w).system index
        = .ok (c.get (run env s1 ops).stage.eventBufferIndex)
            (SetProperty env (run env s1 ops) index w).system ∧
      (w.GetType = v.GetType →
        ∃ s3, SetProperty env (run env s1 ops) index w = .ok () s3 ∧
          (∃ e3, (customProperties s3).find index = some e3 ∧ e3.value = w) ∧
          s3.stage.messages
            = (run env s1 ops).stage.messages ++ [{ cell := cell, value := w }] ∧
          s3.stage.heap = (run env s1 ops).stage.heap ∧
          s3.stage.eventBufferIndex = (run env s1 ops).stage.eventBufferIndex) := by
  obtain ⟨hk1, cell0, hf1⟩ := registered_animatable_find hr.keys hreg
  obtain ⟨e1, hf2, _, htype, hprop, _, _⟩ := find_after_run ops hk1 index _ hf1
  have hr1 : Reachable env s1 := by
    have := hr.after_step (Op.RegisterProperty name v)
    simp only [step, hreg, Outcome.system] at this
    exact this
  have hr2 := hr1.after_run ops
  have ha : e1.IsAnimatable = true := by
    simp [CustomProperty.IsAnimatable, hprop, CustomProperty.animatable]
  have htype1 : e1.type = v.GetType := by simpa [CustomProperty.animatable] using htype
  obtain ⟨cell, c, _, hc, _, _, hget0, hget, _, hset⟩ :=
    animatable_set_get env _ hr2 hs index e1 hf2 ha w
  refine ⟨cell, c, hc, hget0, hget, fun ht => ?_⟩
  have ht1 : w.GetType = e1.type := by rw [htype1]; exact ht
  simp only [ht1, if_true] at hset
  refine ⟨_, hset, ⟨{ e1 with value := w }, ?_, rfl⟩, rfl, rfl, rfl⟩
  have hcp : ∀ (t : System) (m : CustomPropertyLookup),
      t.proxy.mCustomProperties = some m → customProperties t = m := by
    intro t m hm
    simp [customProperties, hm]
  rw [hcp _ _ rfl, CustomPropertyLookup.find_setValue_self, hf2]
  rfl

/-- Witness of C9: the animatable property "x" registered with 2.0 and then
set to 9.0 within the same frame. -/
theorem C9_animatable_get_reads_cell_witness :
    ∃ cell c, (run demoEnv demoAnimatable []).stage.heap[cell]? = some c ∧
      GetProperty demoEnv (run demoEnv demoAnimatable []) 10
        = .ok (c.get (run demoEnv demoAnimatable []).stage.eventBufferIndex)
            (run demoEnv demoAnimatable []) ∧
      GetProperty demoEnv
          (SetProperty demoEnv (run demoEnv demoAnimatable []) 10 (PropertyValue.FLOAT 9)).system
          10
        = .ok (c.get (run demoEnv demoAnimatable []).stage.eventBufferIndex)
            (SetProperty demoEnv (run demoEnv demoAnimatable []) 10
              (PropertyValue.FLOAT 9)).system ∧
      ((PropertyValue.FLOAT 9).GetType = (PropertyValue.FLOAT 2).GetType →
        ∃ s3, SetProperty demoEnv (run demoEnv demoAnimatable []) 10 (PropertyValue.FLOAT 9)
            = .ok () s3 ∧
          (∃ e3, (customProperties s3).find 10 = some e3 ∧ e3.value = PropertyValue.FLOAT 9) ∧
          s3.stage.messages
            = (run demoEnv demoAnimatable []).stage.messages
                ++ [{ cell := cell, value := PropertyValue.FLOAT 9 }] ∧
          s3.stage.heap = (run demoEnv demoAnimatable []).stage.heap ∧
          s3.stage.eventBufferIndex
            = (run demoEnv demoAnimatable []).stage.eventBufferIndex) :=
  C9_animatable_get_reads_cell demoEnv (System.new demoStage)
    (Reachable.of_new demoEnv demoStage (by decide)) (by simp [Env.sentinelNegative, demoEnv])
    "x" (PropertyValue.FLOAT 2) 10 demoAnimatable (by decide) [] (PropertyValue.FLOAT 9)

/-! ## Observers and notifications -/

theorem setEnabled_length (heap : List PropertyNotificationBody) (handle : Nat) (e : Bool) :
    (setEnabled heap handle e).length = heap.length := by
  induction heap generalizing handle with
  | nil => simp [setEnabled]
  | cons b rest ih =>
    cases handle with
    | zero => simp [setEnabled]
    | succ n => simp [setEnabled, ih]

/-- What a loop of `Enable` or `Disable` calls leaves alone. -/
theorem foldl_enabled_frame (e : Bool) (event : Nat → Event) (f : ProxySystem → Nat → ProxySystem)
    (hf : ∀ ps handle, f ps handle =
      { ps with notifications := setEnabled ps.notifications handle e,
                trace := ps.trace ++ [event handle] })
    (container : List Nat) (ps : ProxySystem) :
    (container.foldl f ps).trace = ps.trace ++ container.map event ∧
    (container.foldl f ps).notifications.length = ps.notifications.length ∧
    (container.foldl f ps).system = ps.system ∧
    (container.foldl f ps).mObservers = ps.mObservers ∧
    (container.foldl f ps).mConstraints = ps.mConstraints ∧
    (container.foldl f ps).mRemovedConstraints = ps.mRemovedConstraints ∧
    (container.foldl f ps).mPropertyNotifications = ps.mPropertyNotifications ∧
    (container.foldl f ps).sceneObject = ps.sceneObject ∧
    (container.foldl f ps).constraints = ps.constraints := by
  induction container generalizing ps with
  | nil => simp
  | cons handle rest ih =>
    obtain ⟨h1, h2, h3, h4, h5, h6, h7, h8, h9⟩ := ih (f ps handle)
    simp only [List.foldl_cons]
    rw [h1, h2, h3, h4, h5, h6, h7, h8, h9, hf]
    simp [setEnabled_length]

theorem foldl_Enable (container : List Nat) (ps : ProxySystem) :
    (container.foldl PropertyNotificationEnable ps).trace
        = ps.trace ++ container.map Event.Enable ∧
    (container.foldl PropertyNotificationEnable ps).notifications.length
        = ps.notifications.length ∧
    (container.foldl PropertyNotificationEnable ps).system = ps.system ∧
    (container.foldl PropertyNotificationEnable ps).mObservers = ps.mObservers ∧
    (container.foldl PropertyNotificationEnable ps).mConstraints = ps.mConstraints ∧
    (container.foldl PropertyNotificationEnable ps).mRemovedConstraints
        = ps.mRemovedConstraints ∧
    (container.foldl PropertyNotificationEnable ps).mPropertyNotifications
        = ps.mPropertyNotifications ∧
    (container.foldl PropertyNotificationEnable ps).sceneObject = ps.sceneObject ∧
    (container.foldl PropertyNotificationEnable ps).constraints = ps.constraints :=
  foldl_enabled_frame true Event.Enable PropertyNotificationEnable (fun _ _ => rfl) container ps

theorem foldl_Disable (container : List Nat) (ps : ProxySystem) :
    (container.foldl PropertyNotificationDisable ps).trace
        = ps.trace ++ container.map Event.Disable ∧
    (container.foldl PropertyNotificationDisable ps).notifications.length
        = ps.notifications.length ∧
    (container.foldl PropertyNotificationDisable ps).system = ps.system ∧
    (container.foldl PropertyNotificationDisable ps).mObservers = ps.mObservers ∧
    (container.foldl PropertyNotificationDisable ps).mConstraints = ps.mConstraints ∧
    (container.foldl PropertyNotificationDisable ps).mRemovedConstraints
        = ps.mRemovedConstraints ∧
    (container.foldl PropertyNotificationDisable ps).mPropertyNotifications
        = ps.mPropertyNotifications ∧
    (container.foldl PropertyNotificationDisable ps).sceneObject = ps.sceneObject ∧
    (container.foldl PropertyNotificationDisable ps).constraints = ps.constraints :=
  foldl_enabled_frame false Event.Disable PropertyNotificationDisable (fun _ _ => rfl)
    container ps

theorem EnablePropertyNotifications_frame (ps : ProxySystem) :
    (EnablePropertyNotifications ps).trace
        = ps.trace ++ (notificationContainer ps).map Event.Enable ∧
    (EnablePropertyNotifications ps).notifications.length = ps.notifications.length ∧
    (EnablePropertyNotifications ps).system = ps.system ∧
    (EnablePropertyNotifications ps).mObservers = ps.mObservers ∧
    (EnablePropertyNotifications ps).mConstraints = ps.mConstraints ∧
    (EnablePropertyNotifications ps).mRemovedConstraints = ps.mRemovedConstraints ∧
    (EnablePropertyNotifications ps).mPropertyNotifications = ps.mPropertyNotifications ∧
    (EnablePropertyNotifications ps).sceneObject = ps.sceneObject ∧
    (EnablePropertyNotifications ps).constraints = ps.constraints := by
  unfold EnablePropertyNotifications notificationContainer
  cases hm : ps.mPropertyNotifications with
  | none => simp [hm]
  | some container =>
    have := foldl_Enable container ps
    simpa [hm] using this

theorem DisablePropertyNotifications_frame (ps : ProxySystem) :
    (DisablePropertyNotifications ps).trace
        = ps.trace ++ (notificationContainer ps).map Event.Disable ∧
    (DisablePropertyNotifications ps).notifications.length = ps.notifications.length ∧
    (DisablePropertyNotifications ps).system = ps.system ∧
    (DisablePropertyNotifications ps).mObservers = ps.mObservers ∧
    (DisablePropertyNotifications ps).mConstraints = ps.mConstraints ∧
    (DisablePropertyNotifications ps).mRemovedConstraints = ps.mRemovedConstraints ∧
    (DisablePropertyNotifications ps).mPropertyNotifications = ps.mPropertyNotifications ∧
    (DisablePropertyNotifications ps).sceneObject = ps.sceneObject ∧
    (DisablePropertyNotifications ps).constraints = ps.constraints := by
  unfold DisablePropertyNotifications notificationContainer
  cases hm : ps.mPropertyNotifications with
  | none => simp [hm]
  | some container =>
    have := foldl_Disable container ps
    simpa [hm] using this

/-! ## What the constraint functions leave alone -/

theorem constraintsOnly_refl (ps : ProxySystem) : constraintsOnly ps ps :=
  ⟨rfl, rfl, rfl, rfl⟩

theorem constraintsOnly_trans {ps ps1 ps2 : ProxySystem} (h1 : constraintsOnly ps ps1)
    (h2 : constraintsOnly ps1 ps2) : constraintsOnly ps ps2 :=
  ⟨h2.1.trans h1.1, h2.2.1.trans h1.2.1, h2.2.2.1.trans h1.2.2.1, h2.2.2.2.trans h1.2.2.2⟩

theorem removeOne_constraintsOnly (penv : ProxyEnv) (ps : ProxySystem) (handle : Nat) :
    constraintsOnly ps (removeOne penv ps handle) := by
  unfold removeOne
  simp only
  split <;> exact ⟨rfl, rfl, rfl, rfl⟩

theorem foldl_removeOne_constraintsOnly (penv : ProxyEnv) (container : List Nat)
    (ps : ProxySystem) : constraintsOnly ps (container.foldl (removeOne penv) ps) := by
  induction container generalizing ps with
  | nil => exact constraintsOnly_refl ps
  | cons handle rest ih =>
    exact constraintsOnly_trans (removeOne_constraintsOnly penv ps handle) (ih _)

theorem DeleteRemovedConstraints_constraintsOnly (penv : ProxyEnv) (ps : ProxySystem) :
    constraintsOnly ps (DeleteRemovedConstraints penv ps) := by
  unfold DeleteRemovedConstraints
  split <;> exact ⟨rfl, rfl, rfl, rfl⟩

theorem RemoveConstraints_constraintsOnly (penv : ProxyEnv) (ps : ProxySystem) :
    constraintsOnly ps (RemoveConstraints penv ps) := by
  unfold RemoveConstraints
  cases ps.mConstraints with
  | none => exact constraintsOnly_refl ps
  | some container =>
    cases ps.sceneObject with
    | none => exact ⟨rfl, rfl, rfl, rfl⟩
    | some _ =>
      have h := constraintsOnly_trans (DeleteRemovedConstraints_constraintsOnly penv ps)
        (foldl_removeOne_constraintsOnly penv container (DeleteRemovedConstraints penv ps))
      exact ⟨h.1, h.2.1, h.2.2.1, h.2.2.2⟩

theorem RemoveConstraint_constraintsOnly (penv : ProxyEnv) (ps : ProxySystem)
    (activeConstraint : Nat) :
    constraintsOnly ps (RemoveConstraint penv ps activeConstraint).system := by
  have hd := DeleteRemovedConstraints_constraintsOnly penv ps
  unfold RemoveConstraint
  cases ps.mConstraints with
  | none => exact constraintsOnly_refl ps
  | some container =>
    cases ps.sceneObject with
    | none => exact ⟨rfl, rfl, rfl, rfl⟩
    | some _ =>
      simp only
      cases findConstraint container activeConstraint with
      | none => exact hd
      | some it =>
        simp only
        split
        · split <;> exact ⟨hd.1, hd.2.1, hd.2.2.1, hd.2.2.2⟩
        · exact ⟨hd.1, hd.2.1, hd.2.2.1, hd.2.2.2⟩

theorem DoApplyConstraint_constraintsOnly (penv : ProxyEnv) (ps : ProxySystem)
    (constraint : Constraint) (callback : Option Nat) :
    constraintsOnly ps (DoApplyConstraint penv ps constraint callback).system :=
  ⟨rfl, rfl, rfl, rfl⟩

/-! ## The invariant of the observer list and the notification container -/

theorem ContainersInv.containers_new (penv : ProxyEnv) (stage : Stage) :
    ContainersInv penv (ProxySystem.new stage) :=
  ⟨fun _ => List.nodup_nil, fun handle h => by simp [notificationContainer, ProxySystem.new] at h,
   by simp [notificationContainer, ProxySystem.new]⟩

theorem ContainersInv.of_constraintsOnly {penv : ProxyEnv} {ps ps1 : ProxySystem}
    (h : ContainersInv penv ps) (hc : constraintsOnly ps ps1) : ContainersInv penv ps1 := by
  obtain ⟨_, h2, h3, h4⟩ := hc
  refine ⟨fun hd => by rw [h2]; exact h.observers hd, ?_, ?_⟩
  · intro handle hh
    simp only [notificationContainer, h3, h4] at hh ⊢
    exact h.handles handle hh
  · simp only [notificationContainer, h3]
    exact h.distinct

theorem ContainersInv.of_frame {penv : ProxyEnv} {ps ps1 : ProxySystem}
    (h : ContainersInv penv ps) (ho : ps1.mObservers = ps.mObservers)
    (hn : ps1.mPropertyNotifications = ps.mPropertyNotifications)
    (hl : ps1.notifications.length = ps.notifications.length) : ContainersInv penv ps1 := by
  refine ⟨fun hd => by rw [ho]; exact h.observers hd, ?_, ?_⟩
  · intro handle hh
    simp only [notificationContainer, hn, hl] at hh ⊢
    exact h.handles handle hh
  · simp only [notificationContainer, hn]
    exact h.distinct

theorem AddPropertyNotification_cases (penv : ProxyEnv) (ps : ProxySystem) (index : Int)
    (condition : Nat) :
    (∃ msg, AddPropertyNotification penv ps index condition = .assertion msg ps) ∨
    AddPropertyNotification penv ps index condition
      = pushPropertyNotification ps index condition := by
  unfold AddPropertyNotification
  by_cases h1 : index ≥ (penv.DEFAULT_PROPERTY_MAX_COUNT : Int)
  · cases hm : ps.system.proxy.mCustomProperties with
    | none => simp [h1]
    | some m =>
      cases hf : m.find index with
      | none => simp [h1, hf]
      | some entry =>
        by_cases ha : entry.IsAnimatable = true
        · simp [h1, hf, ha]
        · simp [h1, hf, ha]
  · simp [h1]

theorem pushPropertyNotification_eq (ps : ProxySystem) (index : Int) (condition : Nat) :
    pushPropertyNotification ps index condition =
      .ok ps.notifications.length
        { ps with
          notifications := ps.notifications ++
            [{ index := index, condition := condition, enabled := ps.sceneObject.isSome }],
          mPropertyNotifications :=
            some (notificationContainer ps ++ [ps.notifications.length]) } := rfl

theorem ContainersInv.containers_step {penv : ProxyEnv} {ps : ProxySystem}
    (h : ContainersInv penv ps) (op : ProxyOp) : ContainersInv penv (proxyStep penv ps op) := by
  cases op with
  | property op => exact h.of_frame rfl rfl rfl
  | AddObserver observer =>
    simp only [proxyStep, AddObserver]
    by_cases hd : penv.debug = true
    · by_cases hmem : observer ∈ ps.mObservers
      · simp only [hd, hmem, decide_True, Bool.and_self, if_true, ProxyOutcome.system]
        exact h
      · simp only [hd, hmem, decide_False, Bool.and_false, Bool.false_eq_true, if_false,
          ProxyOutcome.system]
        refine ⟨fun _ => ?_, h.handles, h.distinct⟩
        exact List.Nodup.append (h.observers hd) (List.nodup_singleton _)
          (by simpa using hmem)
    · simp only [hd, Bool.false_and, Bool.false_eq_true, if_false, ProxyOutcome.system]
      exact ⟨fun hd1 => absurd hd1 hd, h.handles, h.distinct⟩
  | RemoveObserver observer =>
    have hinv : ContainersInv penv { ps with mObservers := ps.mObservers.erase observer } :=
      ⟨fun hd => (h.observers hd).erase observer, h.handles, h.distinct⟩
    simp only [proxyStep, RemoveObserver]
    split <;> exact hinv
  | OnSceneObjectAdd =>
    obtain ⟨_, a2, _, a4, _, _, a7, _, _⟩ := EnablePropertyNotifications_frame
      { ps with trace := ps.trace ++ ps.mObservers.map Event.SceneObjectAdded }
    exact h.of_frame a4 a7 a2
  | OnSceneObjectRemove =>
    obtain ⟨_, a2, _, a4, _, _, a7, _, _⟩ := DisablePropertyNotifications_frame
      { ps with trace := ps.trace ++ ps.mObservers.map Event.SceneObjectRemoved }
    exact h.of_frame a4 a7 a2
  | AddPropertyNotification index condition =>
    simp only [proxyStep]
    rcases AddPropertyNotification_cases penv ps index condition with ⟨msg, hm⟩ | hm
    · rw [hm]
      exact h
    · rw [hm, pushPropertyNotification_eq]
      simp only [ProxyOutcome.system]
      refine ⟨h.observers, ?_, ?_⟩
      · intro handle hh
        simp only [notificationContainer, Option.getD_some, List.mem_append,
          List.mem_singleton, List.length_append, List.length_singleton] at hh ⊢
        rcases hh with hh | hh
        · have := h.handles handle hh
          omega
        · omega
      · simp only [notificationContainer, Option.getD_some]
        refine List.Nodup.append h.distinct (List.nodup_singleton _) ?_
        intro a ha hb
        simp only [List.mem_singleton] at hb
        subst hb
        have := h.handles _ ha
        omega
  | RemovePropertyNotification n =>
    simp only [proxyStep, RemovePropertyNotification]
    cases hm : ps.mPropertyNotifications with
    | none => simpa [hm] using h
    | some container =>
      have hc : notificationContainer ps = container := by simp [notificationContainer, hm]
      simp only
      by_cases hmem : n ∈ container
      · simp only [hmem, if_true, PropertyNotificationDisable]
        refine ⟨h.observers, ?_, ?_⟩
        · intro handle hh
          simp only [notificationContainer, Option.getD_some, setEnabled_length] at hh ⊢
          exact h.handles handle (by rw [hc]; exact List.mem_of_mem_erase hh)
        · simp only [notificationContainer, Option.getD_some]
          exact (hc ▸ h.distinct).erase n
      · simp only [hmem, if_false]
        exact h
  | RemovePropertyNotifications =>
    simp only [proxyStep, RemovePropertyNotifications]
    cases hm : ps.mPropertyNotifications with
    | none => simpa [hm] using h
    | some container =>
      obtain ⟨_, _, _, a4, _, _, _, _, _⟩ := foldl_Disable container ps
      simp only
      refine ⟨fun hd => by rw [a4]; exact h.observers hd, ?_, ?_⟩
      · intro handle hh
        simp [notificationContainer] at hh
      · simp [notificationContainer]
  | ApplyConstraint constraint callback =>
    exact h.of_constraintsOnly (DoApplyConstraint_constraintsOnly penv ps constraint callback)
  | RemoveConstraint activeConstraint =>
    exact h.of_constraintsOnly (RemoveConstraint_constraintsOnly penv ps activeConstraint)
  | RemoveConstraints =>
    exact h.of_constraintsOnly (RemoveConstraints_constraintsOnly penv ps)
  | world sceneObject constraints =>
    simp only [proxyStep]
    split
    · exact h.of_frame rfl rfl rfl
    · exact h

theorem ContainersInv.containers_run {penv : ProxyEnv} (ops : List ProxyOp) {ps : ProxySystem}
    (h : ContainersInv penv ps) : ContainersInv penv (proxyRun penv ps ops) := by
  induction ops generalizing ps with
  | nil => exact h
  | cons op ops ih => exact ih (h.containers_step op)

theorem ProxyReachable.containers {penv : ProxyEnv} {ps : ProxySystem}
    (h : ProxyReachable penv ps) : ContainersInv penv ps := by
  obtain ⟨stage, ops, _, hrun⟩ := h
  rw [← hrun]
  exact (ContainersInv.containers_new penv stage).containers_run ops

theorem ProxyReachable.of_proxy_new (penv : ProxyEnv) (stage : Stage)
    (h : stage.wellTyped = true) : ProxyReachable penv (ProxySystem.new stage) :=
  ⟨stage, [], h, rfl⟩

theorem ProxyReachable.of_proxy_run (penv : ProxyEnv) (stage : Stage)
    (h : stage.wellTyped = true) (ops : List ProxyOp) :
    ProxyReachable penv (proxyRun penv (ProxySystem.new stage) ops) :=
  ⟨stage, ops, h, rfl⟩

/-! ## The claims on observers, notifications and constraints -/

/-- C15: in every reachable state, `RemovePropertyNotification( n )` with `n`
in the container takes out its first occurrence and keeps the others in
order, makes exactly one call, `Disable` on `n`, and `n` is no longer in the
container, so no notification that stays is disabled; with `n` absent it
changes nothing and makes no call. `RemovePropertyNotifications()` leaves
the container empty and makes exactly one `Disable` call for every
notification that was in it, in container order. -/
theorem C15_remove_property_notifications (penv : ProxyEnv) (ps : ProxySystem)
    (hr : ProxyReachable penv ps) (n : Nat) :
    (n ∈ notificationContainer ps →
      ∃ before after, n ∉ before ∧ notificationContainer ps = before ++ n :: after ∧
        notificationContainer (RemovePropertyNotification ps n) = before ++ after ∧
        n ∉ notificationContainer (RemovePropertyNotification ps n) ∧
        (RemovePropertyNotification ps n).trace = ps.trace ++ [Event.Disable n] ∧
        (RemovePropertyNotification ps n).notifications
          = setEnabled ps.notifications n false) ∧
    (n ∉ notificationContainer ps → RemovePropertyNotification ps n = ps) ∧
    notificationContainer (RemovePropertyNotifications ps) = [] ∧
    (RemovePropertyNotifications ps).trace
      = ps.trace ++ (notificationContainer ps).map Event.Disable ∧
    (∀ handle ∈ notificationContainer ps,
      ((notificationContainer ps).map Event.Disable).count (Event.Disable handle) = 1) := by
  have hinv := hr.containers
  refine ⟨?_, ?_, ?_, ?_, ?_⟩
  · intro hmem
    obtain ⟨before, after, hnot, hsplit, herase⟩ := List.exists_erase_eq hmem
    have hnodup := hinv.distinct
    rw [hsplit] at hnodup
    have hafter : n ∉ after := by
      have := (List.nodup_append.1 hnodup).2.1
      exact (List.nodup_cons.1 this).1
    cases hm : ps.mPropertyNotifications with
    | none => simp [notificationContainer, hm] at hmem
    | some container =>
      have hc : notificationContainer ps = container := by simp [notificationContainer, hm]
      rw [hc] at hmem herase hsplit
      refine ⟨before, after, hnot, by rw [hc]; exact hsplit, ?_, ?_, ?_, ?_⟩
      · simp [RemovePropertyNotification, hm, hmem, PropertyNotificationDisable,
          notificationContainer, herase]
      · simp [RemovePropertyNotification, hm, hmem, PropertyNotificationDisable,
          notificationContainer, herase, hnot, hafter]
      · simp [RemovePropertyNotification, hm, hmem, PropertyNotificationDisable]
      · simp [RemovePropertyNotification, hm, hmem, PropertyNotificationDisable]
  · intro hmem
    cases hm : ps.mPropertyNotifications with
    | none => simp [RemovePropertyNotification, hm]
    | some container =>
      have hc : n ∉ container := by simpa [notificationContainer, hm] using hmem
      simp [RemovePropertyNotification, hm, hc]
  · cases hm : ps.mPropertyNotifications with
    | none => simp [RemovePropertyNotifications, hm, notificationContainer]
    | some container => simp [RemovePropertyNotifications, hm, notificationContainer]
  · cases hm : ps.mPropertyNotifications with
    | none => simp [RemovePropertyNotifications, hm, notificationContainer]
    | some container =>
      simp [RemovePropertyNotifications, hm, notificationContainer,
        (foldl_Disable container ps).1]
  · intro handle hh
    rw [List.count_map_of_injective _ _ (fun a b hab => by injection hab) handle]
    exact List.count_eq_one_of_mem hinv.distinct hh

/-- Witness of C15: of the two notifications 0 and 1, notification 0 is
removed. -/
theorem C15_remove_property_notifications_witness :
    ∃ before after, 0 ∉ before ∧ notificationContainer demoNotified = before ++ 0 :: after ∧
      notificationContainer (RemovePropertyNotification demoNotified 0) = before ++ after ∧
      0 ∉ notificationContainer (RemovePropertyNotification demoNotified 0) ∧
      (RemovePropertyNotification demoNotified 0).trace
        = demoNotified.trace ++ [Event.Disable 0] ∧
      (RemovePropertyNotification demoNotified 0).notifications
        = setEnabled demoNotified.notifications 0 false :=
  (C15_remove_property_notifications demoProxyEnv demoNotified
    (ProxyReachable.of_proxy_run demoProxyEnv demoStage (by decide) _) 0).1 (by decide)

/-- C18 as stated fails in a build without `DALI_ASSERT_DEBUG`: the second
`AddObserver` of observer 3 returns normally and the observer list holds
observer 3 twice. -/
theorem C18_release_build_adds_twice :
    AddObserver releaseProxyEnv
        (proxyStep releaseProxyEnv (ProxySystem.new demoStage) (ProxyOp.AddObserver 3)) 3
      = .ok () { ProxySystem.new demoStage with mObservers := [3, 3] } := by
  decide

/-- C18, amended to builds with `DALI_ASSERT_DEBUG`: there, in every
reachable state, `AddObserver( o )` for an observer that is already in the
observer list fails with an assertion and leaves the object as it was, and
the observer list contains no observer twice. In every build `AddObserver`
of an observer that is not in the list appends it at the end and leaves the
earlier ones in order. In a build without `DALI_ASSERT_DEBUG`,
`AddObserver( o )` returns normally and appends the observer at the end
whether or not it is in the list already, so that an observer that was in
the list is in it once more than before. -/
theorem C18_add_observer (penv : ProxyEnv) (ps : ProxySystem) (hr : ProxyReachable penv ps)
    (observer : Nat) :
    (penv.debug = true → observer ∈ ps.mObservers →
      AddObserver penv ps observer
        = .assertion
            "mObservers.End() == std::find( mObservers.Begin(), mObservers.End(), &observer)"
            ps) ∧
    (penv.debug = true → ps.mObservers.Nodup) ∧
    (observer ∉ ps.mObservers →
      AddObserver penv ps observer
        = .ok () { ps with mObservers := ps.mObservers ++ [observer] }) ∧
    (penv.debug = false →
      AddObserver penv ps observer
        = .ok () { ps with mObservers := ps.mObservers ++ [observer] } ∧
      (ps.mObservers ++ [observer]).count observer = ps.mObservers.count observer + 1 ∧
      (observer ∈ ps.mObservers → ¬ (ps.mObservers ++ [observer]).Nodup)) := by
  refine ⟨fun hd hmem => ?_, hr.containers.observers, fun hmem => ?_, fun hd => ⟨?_, ?_, ?_⟩⟩
  · simp [AddObserver, hd, hmem]
  · simp [AddObserver, hmem]
  · simp [AddObserver, hd]
  · simp
  · intro hmem hnodup
    have hdisjoint := (List.nodup_append.1 hnodup).2.2
    exact hdisjoint hmem (List.mem_singleton_self observer)

/-- Witness of C18, amended: in the debug build the second `AddObserver` of
observer 3 fails. -/
theorem C18_add_observer_witness :
    AddObserver demoProxyEnv
        (proxyRun demoProxyEnv (ProxySystem.new demoStage) [ProxyOp.AddObserver 3]) 3
      = .assertion
          "mObservers.End() == std::find( mObservers.Begin(), mObservers.End(), &observer)"
          (proxyRun demoProxyEnv (ProxySystem.new demoStage) [ProxyOp.AddObserver 3]) :=
  (C18_add_observer demoProxyEnv
    (proxyRun demoProxyEnv (ProxySystem.new demoStage) [ProxyOp.AddObserver 3])
    (ProxyReachable.of_proxy_run demoProxyEnv demoStage (by decide) _) 3).1
    (by decide) (by decide)

theorem count_map_append_other (observers : List Nat) (others : List Event)
    (f : Nat → Event) (hf : Function.Injective f) (hother : ∀ observer, f observer ∉ others)
    (observer : Nat) :
    (observers.map f ++ others).count (f observer) = observers.count observer := by
  rw [List.count_append, List.count_map_of_injective _ _ hf,
    List.count_eq_zero.2 (hother observer), Nat.add_zero]

theorem drop_trace_append (trace calls others : List Event) :
    (trace ++ calls ++ others).drop trace.length = calls ++ others := by
  rw [List.append_assoc, List.drop_left]

/-- C16 as stated fails in a build without `DALI_ASSERT_DEBUG`: there
`AddObserver( 3 )` twice leaves observer 3 twice in the observer list, and
`OnSceneObjectAdd` calls `SceneObjectAdded` on observer 3 twice and
`OnSceneObjectRemove` calls `SceneObjectRemoved` on it twice. -/
theorem C16_release_build_notifies_twice :
    demoObservedTwice.mObservers = [3, 3] ∧
    (OnSceneObjectAdd demoObservedTwice).trace
      = demoObservedTwice.trace ++ [Event.SceneObjectAdded 3, Event.SceneObjectAdded 3] ∧
    (OnSceneObjectRemove demoObservedTwice).trace
      = demoObservedTwice.trace
          ++ [Event.SceneObjectRemoved 3, Event.SceneObjectRemoved 3] := by
  decide

/-- C16, amended: in every build `OnSceneObjectAdd` makes, in this order, one
`SceneObjectAdded` call for every entry of the observer list in registration
order and then one `Enable` call for every entry of the notification
container in container order, and nothing else; `OnSceneObjectRemove` does
the same with `SceneObjectRemoved` and `Disable`. Neither changes the
observer list or the notification container. An observer is therefore
called as many times as it occurs in the observer list; in a build with
`DALI_ASSERT_DEBUG`, where no reachable observer list holds an observer
twice, every registered observer is called exactly once. -/
theorem C16_scene_object_add_remove (ps : ProxySystem) :
    (OnSceneObjectAdd ps).trace
      = ps.trace ++ ps.mObservers.map Event.SceneObjectAdded
          ++ (notificationContainer ps).map Event.Enable ∧
    (OnSceneObjectAdd ps).mObservers = ps.mObservers ∧
    (OnSceneObjectAdd ps).mPropertyNotifications = ps.mPropertyNotifications ∧
    (OnSceneObjectRemove ps).trace
      = ps.trace ++ ps.mObservers.map Event.SceneObjectRemoved
          ++ (notificationContainer ps).map Event.Disable ∧
    (OnSceneObjectRemove ps).mObservers = ps.mObservers ∧
    (OnSceneObjectRemove ps).mPropertyNotifications = ps.mPropertyNotifications ∧
    (∀ observer,
      ((OnSceneObjectAdd ps).trace.drop ps.trace.length).count
          (Event.SceneObjectAdded observer) = ps.mObservers.count observer ∧
      ((OnSceneObjectRemove ps).trace.drop ps.trace.length).count
          (Event.SceneObjectRemoved observer) = ps.mObservers.count observer) ∧
    (∀ penv : ProxyEnv, penv.debug = true → ProxyReachable penv ps →
      ∀ observer ∈ ps.mObservers,
        ((OnSceneObjectAdd ps).trace.drop ps.trace.length).count
            (Event.SceneObjectAdded observer) = 1 ∧
        ((OnSceneObjectRemove ps).trace.drop ps.trace.length).count
            (Event.SceneObjectRemoved observer) = 1) := by
  obtain ⟨a1, _, _, a4, _, _, a7, _, _⟩ := EnablePropertyNotifications_frame
    { ps with trace := ps.trace ++ ps.mObservers.map Event.SceneObjectAdded }
  obtain ⟨r1, _, _, r4, _, _, r7, _, _⟩ := DisablePropertyNotifications_frame
    { ps with trace := ps.trace ++ ps.mObservers.map Event.SceneObjectRemoved }
  have hadd : (OnSceneObjectAdd ps).trace
      = ps.trace ++ ps.mObservers.map Event.SceneObjectAdded
          ++ (notificationContainer ps).map Event.Enable := a1
  have hremove : (OnSceneObjectRemove ps).trace
      = ps.trace ++ ps.mObservers.map Event.SceneObjectRemoved
          ++ (notificationContainer ps).map Event.Disable := r1
  have hcount : ∀ observer,
      ((OnSceneObjectAdd ps).trace.drop ps.trace.length).count
          (Event.SceneObjectAdded observer) = ps.mObservers.count observer ∧
      ((OnSceneObjectRemove ps).trace.drop ps.trace.length).count
          (Event.SceneObjectRemoved observer) = ps.mObservers.count observer := by
    intro observer
    rw [hadd, hremove, drop_trace_append, drop_trace_append]
    constructor
    · exact count_map_append_other ps.mObservers _ Event.SceneObjectAdded
        (fun a b hab => by injection hab) (fun o => by simp) observer
    · exact count_map_append_other ps.mObservers _ Event.SceneObjectRemoved
        (fun a b hab => by injection hab) (fun o => by simp) observer
  refine ⟨a1, a4, a7, r1, r4, r7, hcount, ?_⟩
  intro penv hdebug hr observer hmem
  have hnodup := hr.containers.observers hdebug
  rw [(hcount observer).1, (hcount observer).2]
  exact ⟨List.count_eq_one_of_mem hnodup hmem, List.count_eq_one_of_mem hnodup hmem⟩

/-- Witness of C16, amended: on the object observed by 3, 4 and 5 in the debug
build, observer 4 is called exactly once by `OnSceneObjectAdd` and exactly
once by `OnSceneObjectRemove`. -/
theorem C16_scene_object_add_remove_witness :
    ((OnSceneObjectAdd demoObserved).trace.drop demoObserved.trace.length).count
        (Event.SceneObjectAdded 4) = 1 ∧
    ((OnSceneObjectRemove demoObserved).trace.drop demoObserved.trace.length).count
        (Event.SceneObjectRemoved 4) = 1 :=
  (C16_scene_object_add_remove demoObserved).2.2.2.2.2.2.2 demoProxyEnv (by decide)
    (ProxyReachable.of_proxy_run demoProxyEnv demoStage (by decide) _) 4 (by decide)

/-- C17 as stated fails in a build without `DALI_ASSERT_DEBUG`: there
`AddObserver( 3 )` twice leaves observer 3 twice in the observer list, and
the destructor calls `ProxyDestroyed` on observer 3 twice. -/
theorem C17_release_build_destroyed_twice :
    demoObservedTwice.mObservers = [3, 3] ∧
    (destroy demoObservedTwice).trace
      = demoObservedTwice.trace ++ [Event.ProxyDestroyed 3, Event.ProxyDestroyed 3] ++
          [Event.deleteCustomProperties, Event.deleteConstraints,
           Event.deleteRemovedConstraints, Event.deletePropertyNotifications] := by
  decide

/-- C17, amended: in every build the destructor makes one `ProxyDestroyed`
call for every entry of the observer list, in registration order, and only
after the last of them releases the custom-property map, the constraint
container, the pending-removal list and the notification container, which
are all gone afterwards. An observer is therefore called as many times as
it occurs in the observer list; in a build with `DALI_ASSERT_DEBUG`, where
no reachable observer list holds an observer twice, every registered
observer is called exactly once. -/
theorem C17_destruction_notifies_first (ps : ProxySystem) :
    (destroy ps).trace
      = ps.trace ++ ps.mObservers.map Event.ProxyDestroyed ++
          [Event.deleteCustomProperties, Event.deleteConstraints,
           Event.deleteRemovedConstraints, Event.deletePropertyNotifications] ∧
    (∀ observer, (ps.mObservers.map Event.ProxyDestroyed).count (Event.ProxyDestroyed observer)
      = ps.mObservers.count observer) ∧
    (destroy ps).system.proxy.mCustomProperties = none ∧
    (destroy ps).mConstraints = none ∧
    (destroy ps).mRemovedConstraints = none ∧
    (destroy ps).mPropertyNotifications = none ∧
    (∀ observer, ((destroy ps).trace.drop ps.trace.length).count
        (Event.ProxyDestroyed observer) = ps.mObservers.count observer) ∧
    (∀ penv : ProxyEnv, penv.debug = true → ProxyReachable penv ps →
      ∀ observer ∈ ps.mObservers,
        ((destroy ps).trace.drop ps.trace.length).count (Event.ProxyDestroyed observer)
          = 1) := by
  have htrace : (destroy ps).trace
      = ps.trace ++ ps.mObservers.map Event.ProxyDestroyed ++
          [Event.deleteCustomProperties, Event.deleteConstraints,
           Event.deleteRemovedConstraints, Event.deletePropertyNotifications] := rfl
  have hcount : ∀ observer, ((destroy ps).trace.drop ps.trace.length).count
      (Event.ProxyDestroyed observer) = ps.mObservers.count observer := by
    intro observer
    rw [htrace, drop_trace_append]
    exact count_map_append_other ps.mObservers _ Event.ProxyDestroyed
      (fun a b hab => by injection hab) (fun o => by simp) observer
  refine ⟨rfl, ?_, rfl, rfl, rfl, rfl, hcount, ?_⟩
  · intro observer
    exact List.count_map_of_injective _ _ (fun a b hab => by injection hab) observer
  · intro penv hdebug hr observer hmem
    rw [hcount observer]
    exact List.count_eq_one_of_mem (hr.containers.observers hdebug) hmem

/-- Witness of C17, amended: on the object observed by 3, 4 and 5 in the debug
build, the destructor calls observer 5 exactly once. -/
theorem C17_destruction_notifies_first_witness :
    ((destroy demoObserved).trace.drop demoObserved.trace.length).count
        (Event.ProxyDestroyed 5) = 1 :=
  (C17_destruction_notifies_first demoObserved).2.2.2.2.2.2.2 demoProxyEnv (by decide)
    (ProxyReachable.of_proxy_run demoProxyEnv demoStage (by decide) _) 5 (by decide)

theorem findConstraint_append_self (container : List Nat) (handle : Nat) :
    ∃ it, findConstraint (container ++ [handle]) handle = some it ∧
      (container ++ [handle])[it]? = some handle ∧ it ≤ container.length ∧
      (handle ∉ container → it = container.length) := by
  induction container with
  | nil => exact ⟨0, by simp [findConstraint], by simp, by simp, by simp⟩
  | cons c rest ih =>
    by_cases hc : c = handle
    · exact ⟨0, by simp [findConstraint, hc], by simp [hc], by simp, by simp [hc]⟩
    · obtain ⟨it, h1, h2, h3, h4⟩ := ih
      refine ⟨it + 1, by simp [findConstraint, hc, h1], by simpa using h2, by simp; omega, ?_⟩
      intro hmem
      have : handle ∉ rest := fun hh => hmem (List.mem_cons_of_mem _ hh)
      simp [h4 this]

/-- C19: `ApplyConstraint( constraint )` and `ApplyConstraint( constraint,
callback )` are `DoApplyConstraint` without and with the callback. For
every object, `DoApplyConstraint` creates one active constraint, returns its
handle, appends that handle at the end of the constraint container (which is
allocated on first use) with the earlier entries in order, and makes exactly
one call, `FirstApply` on the new active constraint with the apply time of
the constraint and the callback. The returned handle is found in the
container by `std::find`, so a later `RemoveConstraint` finds it. Nothing
else of the object changes. -/
theorem C19_apply_constraint (penv : ProxyEnv) (ps : ProxySystem) (constraint : Constraint)
    (callback : Nat) :
    ApplyConstraint penv ps constraint = DoApplyConstraint penv ps constraint none ∧
    ApplyConstraintWithCallback penv ps constraint callback
      = DoApplyConstraint penv ps constraint (some callback) ∧
    ∀ optional : Option Nat,
      ∃ ps1, DoApplyConstraint penv ps constraint optional = .ok ps.constraints.length ps1 ∧
        ps1.mConstraints = some (constraintContainer ps ++ [ps.constraints.length]) ∧
        ps1.trace = ps.trace
          ++ [Event.FirstApply ps.constraints.length constraint.applyTime optional] ∧
        ps1.constraints.length = ps.constraints.length + 1 ∧
        constraintState ps1 ps.constraints.length
          = penv.FirstApply (penv.CreateActiveConstraint constraint) constraint.applyTime
              optional ∧
        (∃ it, findConstraint (constraintContainer ps1) ps.constraints.length = some it ∧
          (constraintContainer ps1)[it]? = some ps.constraints.length) ∧
        ps1.mRemovedConstraints = ps.mRemovedConstraints ∧
        constraintsOnly ps ps1 ∧ ps1.sceneObject = ps.sceneObject := by
  refine ⟨rfl, rfl, fun optional => ⟨_, rfl, rfl, rfl, ?_, ?_, ?_, rfl, ⟨rfl, rfl, rfl, rfl⟩, rfl⟩⟩
  · have hlen : ∀ (l : List Nat) (n v : Nat), (setConstraintState l n v).length = l.length := by
      intro l
      induction l with
      | nil => intro n v; simp [setConstraintState]
      | cons c rest ih =>
        intro n v
        cases n with
        | zero => simp [setConstraintState]
        | succ k => simp [setConstraintState, ih]
    simp [ActiveConstraintFirstApply, hlen]
  · have hset : ∀ (l : List Nat) (c v : Nat),
        (setConstraintState (l ++ [c]) l.length v).getD l.length 0 = v := by
      intro l
      induction l with
      | nil => intro c v; simp [setConstraintState]
      | cons d rest ih =>
        intro c v
        simpa [setConstraintState] using ih c v
    have hget : ∀ (l : List Nat) (c : Nat), (l ++ [c]).getD l.length 0 = c := by
      intro l c
      simp [List.getD_eq_getElem?_getD]
    simp only [ActiveConstraintFirstApply, constraintState, hset, hget]
  · obtain ⟨it, h1, h2, _, _⟩ :=
      findConstraint_append_self (constraintContainer ps) ps.constraints.length
    exact ⟨it, h1, h2⟩

/-- C20: on the attached object with the constraint container [0, 1],
`RemoveConstraint( 0 )` calls `BeginRemove` on constraint 0, which reports
`IsRemoving` afterwards, and takes it out of the container; but the
pending-removal list receives constraint 1, which is still in the constraint
container, and not constraint 0. `RemoveConstraint( 1 )`, for the last
position, reads the container past its end and nothing is pushed. -/
theorem C20_remove_constraint_pushes_next :
    constraintContainer demoConstrained = [0, 1] ∧
    RemoveConstraint demoProxyEnv demoConstrained 0
      = .ok () (proxyStep demoProxyEnv demoConstrained (ProxyOp.RemoveConstraint 0)) ∧
    (proxyStep demoProxyEnv demoConstrained (ProxyOp.RemoveConstraint 0)).trace
      = demoConstrained.trace ++ [Event.BeginRemove 0] ∧
    ActiveConstraintIsRemoving demoProxyEnv
      (proxyStep demoProxyEnv demoConstrained (ProxyOp.RemoveConstraint 0)) 0 = true ∧
    (proxyStep demoProxyEnv demoConstrained (ProxyOp.RemoveConstraint 0)).mConstraints
      = some [1] ∧
    (proxyStep demoProxyEnv demoConstrained (ProxyOp.RemoveConstraint 0)).mRemovedConstraints
      = some [1] ∧
    RemoveConstraint demoProxyEnv demoConstrained 1
      = .undefined
          { demoConstrained with
            mConstraints := some [0]
            mRemovedConstraints := some []
            constraints := [0, 2]
            trace := demoConstrained.trace ++ [Event.BeginRemove 1] } := by
  decide

/-! ## The property part of the whole object -/

theorem proxyStep_system (penv : ProxyEnv) (ps : ProxySystem) (op : ProxyOp) :
    (proxyStep penv ps op).system =
      match op with
      | .property op1 => step penv.toEnv ps.system op1
      | _ => ps.system := by
  cases op with
  | property op => rfl
  | AddObserver observer =>
    simp only [proxyStep, AddObserver]
    split <;> rfl
  | RemoveObserver observer =>
    simp only [proxyStep, RemoveObserver]
    split <;> rfl
  | OnSceneObjectAdd => exact (EnablePropertyNotifications_frame _).2.2.1
  | OnSceneObjectRemove => exact (DisablePropertyNotifications_frame _).2.2.1
  | AddPropertyNotification index condition =>
    simp only [proxyStep]
    rcases AddPropertyNotification_cases penv ps index condition with ⟨msg, hm⟩ | hm
    · rw [hm]
      rfl
    · rw [hm]
      rfl
  | RemovePropertyNotification n =>
    simp only [proxyStep, RemovePropertyNotification]
    split
    · split <;> rfl
    · rfl
  | RemovePropertyNotifications =>
    simp only [proxyStep, RemovePropertyNotifications]
    split
    · exact (foldl_Disable _ ps).2.2.1
    · rfl
  | ApplyConstraint constraint callback => rfl
  | RemoveConstraint activeConstraint =>
    exact (RemoveConstraint_constraintsOnly penv ps activeConstraint).1
  | RemoveConstraints => exact (RemoveConstraints_constraintsOnly penv ps).1
  | world sceneObject constraints =>
    simp only [proxyStep]
    split <;> rfl

theorem proxyRun_system (penv : ProxyEnv) (ops : List ProxyOp) (ps : ProxySystem) :
    (proxyRun penv ps ops).system = run penv.toEnv ps.system (propertyOps ops) := by
  induction ops generalizing ps with
  | nil => rfl
  | cons op ops ih =>
    have hrun : proxyRun penv ps (op :: ops) = proxyRun penv (proxyStep penv ps op) ops := rfl
    rw [hrun, ih, proxyStep_system]
    cases op <;> rfl

/-- C11: after every sequence of events on a freshly constructed object,
`GetPropertyCount()` is `GetDefaultPropertyCount()` plus the number of
successful custom-property registrations made so far, which is the size of
the custom-property map, taken as 0 while the map is not allocated. -/
theorem C11_property_count (penv : ProxyEnv) (stage : Stage) (ops : List ProxyOp) :
    GetPropertyCount penv.toEnv (proxyRun penv (ProxySystem.new stage) ops).system
      = penv.GetDefaultPropertyCount
          + (registrations penv.toEnv (System.new stage) (propertyOps ops)).length ∧
    GetPropertyCount penv.toEnv (proxyRun penv (ProxySystem.new stage) ops).system
      = penv.GetDefaultPropertyCount
          + (customProperties (proxyRun penv (ProxySystem.new stage) ops).system).length := by
  have hcount : ∀ s : System,
      GetPropertyCount penv.toEnv s = penv.GetDefaultPropertyCount + (customProperties s).length := by
    intro s
    unfold GetPropertyCount customProperties
    cases s.proxy.mCustomProperties <;> simp
  refine ⟨?_, hcount _⟩
  rw [hcount, proxyRun_system]
  have hkeys := keys_run_eq penv.toEnv stage (propertyOps ops)
  have hlen := congrArg List.length hkeys
  simp only [List.length_map] at hlen
  show penv.GetDefaultPropertyCount
      + (customProperties (run penv.toEnv (System.new stage) (propertyOps ops))).length = _
  rw [hlen]

/-- C12: in every reachable state, `RegisterProperty( name, v, ANIMATABLE )`
is `RegisterProperty( name, v )`, with the same result and the same effect.
When it succeeds it has created one scene-graph cell initialised with `v`,
made exactly one call into the concrete type,
`InstallSceneObjectProperty` with the cell, the name and the new index, and
`IsPropertyAnimatable` on the new index returns true. When a registration
with READ_WRITE or READ_ONLY succeeds, no call into the concrete type was
made, the stage is as before and `IsPropertyAnimatable` on the new index
returns false. -/
theorem C12_animatable_registration (env : Env) (s : System) (hr : Reachable env s)
    (hs : env.sentinelNegative) (name : String) (v : PropertyValue) :
    RegisterPropertyWithMode env s name v AccessMode.ANIMATABLE
      = RegisterProperty env s name v ∧
    (∀ index s1, RegisterProperty env s name v = .ok index s1 →
      s1.stage.heap = s.stage.heap ++ [AnimatableProperty.new v] ∧
      s1.calls = s.calls
        ++ [HookCall.InstallSceneObjectProperty s.stage.heap.length name index] ∧
      (customProperties s1).find index
        = some (CustomProperty.animatable name v.GetType s.stage.heap.length) ∧
      IsPropertyAnimatable env s1 index = .ok true s1) ∧
    (∀ accessMode index s1, accessMode ≠ AccessMode.ANIMATABLE →
      RegisterPropertyWithMode env s name v accessMode = .ok index s1 →
      s1.calls = s.calls ∧ s1.stage = s.stage ∧
      IsPropertyAnimatable env s1 index = .ok false s1) := by
  have hk := hr.keys
  have hge : (env.DEFAULT_PROPERTY_MAX_COUNT : Int) ≤ (nextIndex env s : Int) := by
    have := nextIndex_ge env s hk
    omega
  have hanim : ∀ (t : System) (index : Int) (e : CustomProperty),
      (env.DEFAULT_PROPERTY_MAX_COUNT : Int) ≤ index →
      (customProperties t).find index = some e →
      IsPropertyAnimatable env t index = .ok e.IsAnimatable t := by
    intro t index e hge1 hf
    obtain ⟨m, hm, hfm⟩ := customProperties_find_some hf
    have h1 : index > env.INVALID_INDEX := by
      unfold Env.sentinelNegative at hs
      omega
    have h2 : ¬ index < (env.DEFAULT_PROPERTY_MAX_COUNT : Int) := by omega
    unfold IsPropertyAnimatable
    simp only [h1, not_true_eq_false, if_false, h2, hm, hfm]
  refine ⟨by simp [RegisterPropertyWithMode], ?_, ?_⟩
  · intro index s1 hreg
    rw [RegisterProperty_eq env s name v hk] at hreg
    by_cases hname : env.INVALID_INDEX = propertyIndexOf env s name
    · cases hnew : newAnimatableProperty v with
      | none => simp [hname, hnew] at hreg
      | some c =>
        obtain ⟨hc, _⟩ := newAnimatableProperty_some v c hnew
        subst hc
        simp only [hname, not_true_eq_false, if_false, hnew, Outcome.ok.injEq] at hreg
        obtain ⟨hi, hs1⟩ := hreg
        subst hi hs1
        have hf : (customProperties
            (withAnimatable env s name v.GetType (AnimatableProperty.new v))).find
              (nextIndex env s : Int)
            = some (CustomProperty.animatable name v.GetType s.stage.heap.length) := by
          unfold withAnimatable
          rw [customProperties_withEntry]
          exact find_withEntry hk _
        refine ⟨rfl, rfl, hf, ?_⟩
        rw [hanim _ _ _ hge hf]
        rfl
    · simp [hname] at hreg
  · intro accessMode index s1 hmode hreg
    rw [RegisterPropertyWithMode_eventSide env s name v accessMode hk hmode] at hreg
    simp only [Outcome.ok.injEq] at hreg
    obtain ⟨hi, hs1⟩ := hreg
    subst hi hs1
    have hf : (customProperties
        { s with proxy := withEntry env s (CustomProperty.eventSide name v accessMode) }).find
          (nextIndex env s : Int)
        = some (CustomProperty.eventSide name v accessMode) := by
      rw [customProperties_withEntry]
      exact find_withEntry hk _
    refine ⟨rfl, rfl, ?_⟩
    rw [hanim _ _ _ hge hf]
    rfl

/-- Witness of C12: the animatable property "x" registered on a fresh object
of the small concrete type. -/
theorem C12_animatable_registration_witness :
    demoAnimatable.stage.heap
      = (System.new demoStage).stage.heap ++ [AnimatableProperty.new (PropertyValue.FLOAT 2)] ∧
    demoAnimatable.calls = (System.new demoStage).calls
      ++ [HookCall.InstallSceneObjectProperty (System.new demoStage).stage.heap.length "x" 10] ∧
    (customProperties demoAnimatable).find 10
      = some (CustomProperty.animatable "x" (PropertyValue.FLOAT 2).GetType
          (System.new demoStage).stage.heap.length) ∧
    IsPropertyAnimatable demoEnv demoAnimatable 10 = .ok true demoAnimatable :=
  (C12_animatable_registration demoEnv (System.new demoStage)
    (Reachable.of_new demoEnv demoStage (by decide)) (by simp [Env.sentinelNegative, demoEnv])
    "x" (PropertyValue.FLOAT 2)).2.1 10 demoAnimatable (by decide)

/-- C13: for every index from 0 below `DEFAULT_PROPERTY_MAX_COUNT` and every
state, `SetProperty` fails with the assertion "Property is read-only" and
leaves everything as it was, with no call of `SetDefaultProperty`, when
`IsDefaultPropertyWritable( index )` is false; and when it is true
`SetProperty` returns normally after exactly one call,
`SetDefaultProperty( index, v )`, into the concrete type. In both cases the
custom-property map and the next custom index are unchanged. -/
theorem C13_set_default_property (env : Env) (hs : env.sentinelNegative) (s : System)
    (index : Int) (v : PropertyValue) (h0 : 0 ≤ index)
    (hlt : index < (env.DEFAULT_PROPERTY_MAX_COUNT : Int)) :
    (env.IsDefaultPropertyWritable index = false →
      SetProperty env s index v = .assertion "Property is read-only" s) ∧
    (env.IsDefaultPropertyWritable index = true →
      SetProperty env s index v
        = .ok () { s with calls := s.calls ++ [HookCall.SetDefaultProperty index v] }) ∧
    ((SetProperty env s index v).failed = true ↔ env.IsDefaultPropertyWritable index = false) ∧
    (SetProperty env s index v).system.proxy = s.proxy := by
  have h1 : index > env.INVALID_INDEX := by
    unfold Env.sentinelNegative at hs
    omega
  cases hw : env.IsDefaultPropertyWritable index <;>
    simp [SetProperty, h1, hlt, hw, Outcome.failed, Outcome.system]

/-- Witness of C13: the read-only default property "id" (index 1) and the
writable default property "size" (index 0) of the small concrete type. -/
theorem C13_set_default_property_witness :
    SetProperty demoEnv (System.new demoStage) 1 (PropertyValue.FLOAT 1)
      = .assertion "Property is read-only" (System.new demoStage) ∧
    SetProperty demoEnv (System.new demoStage) 0 (PropertyValue.FLOAT 1)
      = .ok () { System.new demoStage with
          calls := (System.new demoStage).calls
            ++ [HookCall.SetDefaultProperty 0 (PropertyValue.FLOAT 1)] } :=
  ⟨(C13_set_default_property demoEnv (by simp [Env.sentinelNegative, demoEnv])
      (System.new demoStage) 1 (PropertyValue.FLOAT 1) (by decide) (by decide)).1 (by decide),
   (C13_set_default_property demoEnv (by simp [Env.sentinelNegative, demoEnv])
      (System.new demoStage) 0 (PropertyValue.FLOAT 1) (by decide) (by decide)).2.1
      (by decide)⟩

/-- C14 as stated fails for default properties: "id" (index 1) of the small
concrete type is a default property that is not animatable, yet
`AddPropertyNotification( 1, condition )` returns normally with the new
notification 0, which is now in the container. -/
theorem C14_default_property_not_checked :
    IsPropertyAnimatable demoEnv (System.new demoStage) 1 = .ok false (System.new demoStage) ∧
    AddPropertyNotification demoProxyEnv (ProxySystem.new demoStage) 1 5
      = .ok 0 (proxyStep demoProxyEnv (ProxySystem.new demoStage)
          (ProxyOp.AddPropertyNotification 1 5)) ∧
    notificationContainer (proxyStep demoProxyEnv (ProxySystem.new demoStage)
        (ProxyOp.AddPropertyNotification 1 5)) = [0] := by
  decide

/-- C14, amended: for every custom property in the map that is not
animatable, `AddPropertyNotification( index, condition )` fails with the
assertion "Property notification added to non animatable property" and
leaves the object, and so the notification container, as it was. For an
animatable custom property, and for every index below
`DEFAULT_PROPERTY_MAX_COUNT` whether that default property is animatable or
not, it creates one notification bound to the index and the condition,
appends it at the end of the container (allocated on first use) and returns
it. -/
theorem C14_add_property_notification (penv : ProxyEnv) (ps : ProxySystem) (index : Int)
    (condition : Nat) :
    (∀ e, (penv.DEFAULT_PROPERTY_MAX_COUNT : Int) ≤ index →
      (customProperties ps.system).find index = some e → e.IsAnimatable = false →
      AddPropertyNotification penv ps index condition
        = .assertion
            "Property notification added to non animatable property (currently not suppported )"
            ps) ∧
    ((index < (penv.DEFAULT_PROPERTY_MAX_COUNT : Int) ∨
        ∃ e, (customProperties ps.system).find index = some e ∧ e.IsAnimatable = true) →
      AddPropertyNotification penv ps index condition
        = .ok ps.notifications.length
            { ps with
              notifications := ps.notifications ++
                [{ index := index, condition := condition,
                   enabled := ps.sceneObject.isSome }],
              mPropertyNotifications :=
                some (notificationContainer ps ++ [ps.notifications.length]) }) := by
  constructor
  · intro e hge hf ha
    obtain ⟨m, hm, hfm⟩ := customProperties_find_some hf
    simp [AddPropertyNotification, hge, hm, hfm, ha]
  · intro h
    rw [← pushPropertyNotification_eq]
    unfold AddPropertyNotification
    by_cases hge : index ≥ (penv.DEFAULT_PROPERTY_MAX_COUNT : Int)
    · rcases h with hlt | ⟨e, hf, ha⟩
      · omega
      · obtain ⟨m, hm, hfm⟩ := customProperties_find_some hf
        simp [hge, hm, hfm, ha]
    · simp [hge]

/-- Witness of C14, amended: on the object with the READ_WRITE property "a"
at index 10, a notification on index 10 is refused, and one on the default
index 0 is appended. -/
theorem C14_add_property_notification_witness :
    AddPropertyNotification demoProxyEnv demoProxyRegistered 10 5
      = .assertion
          "Property notification added to non animatable property (currently not suppported )"
          demoProxyRegistered ∧
    AddPropertyNotification demoProxyEnv demoProxyRegistered 0 5
      = .ok demoProxyRegistered.notifications.length
          { demoProxyRegistered with
            notifications := demoProxyRegistered.notifications ++
              [{ index := 0, condition := 5,
                 enabled := demoProxyRegistered.sceneObject.isSome }],
            mPropertyNotifications :=
              some (notificationContainer demoProxyRegistered
                ++ [demoProxyRegistered.notifications.length]) } :=
  ⟨(C14_add_property_notification demoProxyEnv demoProxyRegistered 10 5).1
      (CustomProperty.eventSide "a" (PropertyValue.FLOAT 3) AccessMode.READ_WRITE)
      (by decide) (by decide) (by decide),
   (C14_add_property_notification demoProxyEnv demoProxyRegistered 0 5).2
      (Or.inl (by decide))⟩

/-! ## The pending-removal list -/

theorem DeleteRemovedConstraints_removed (penv : ProxyEnv) (ps : ProxySystem) :
    removedContainer (DeleteRemovedConstraints penv ps)
      = (removedContainer ps).filter (fun handle => ActiveConstraintIsRemoving penv ps handle) ∧
    (DeleteRemovedConstraints penv ps).mConstraints = ps.mConstraints ∧
    (DeleteRemovedConstraints penv ps).sceneObject = ps.sceneObject ∧
    (DeleteRemovedConstraints penv ps).constraints = ps.constraints ∧
    (DeleteRemovedConstraints penv ps).trace = ps.trace := by
  unfold DeleteRemovedConstraints removedContainer
  cases hm : ps.mRemovedConstraints with
  | none => simp [hm]
  | some removed => simp

/-- C22: on every object without a scene object, `RemoveConstraint( h )` with
`h` in the constraint container erases the first occurrence of `h`, keeps
the other constraints in order and deletes the pending-removal list;
`RemoveConstraints()` deletes the constraint container and the
pending-removal list (and does nothing when the constraint container is not
allocated). In both cases no call is made on any constraint, so `BeginRemove`
is not called, the states of the constraints are untouched and the
pending-removal list receives no entry. -/
theorem C22_remove_without_scene_object (penv : ProxyEnv) (ps : ProxySystem)
    (hs : ps.sceneObject = none) :
    (∀ handle, handle ∈ constraintContainer ps →
      ∃ before after, handle ∉ before ∧ constraintContainer ps = before ++ handle :: after ∧
        RemoveConstraint penv ps handle
          = .ok () { ps with mConstraints := some (before ++ after),
                             mRemovedConstraints := none }) ∧
    (ps.mConstraints ≠ none →
      RemoveConstraints penv ps
        = { ps with mConstraints := none, mRemovedConstraints := none }) ∧
    (ps.mConstraints = none → RemoveConstraints penv ps = ps) ∧
    constraintContainer (RemoveConstraints penv ps) = [] ∧
    (RemoveConstraints penv ps).trace = ps.trace ∧
    (RemoveConstraints penv ps).constraints = ps.constraints ∧
    (∀ x ∈ removedContainer (RemoveConstraints penv ps), x ∈ removedContainer ps) := by
  refine ⟨?_, ?_, ?_, ?_, ?_, ?_, ?_⟩
  · intro handle hmem
    obtain ⟨before, after, hnot, hsplit, herase⟩ := List.exists_erase_eq hmem
    cases hc : ps.mConstraints with
    | none => simp [constraintContainer, hc] at hmem
    | some container =>
      have hcc : constraintContainer ps = container := by simp [constraintContainer, hc]
      rw [hcc] at herase
      exact ⟨before, after, hnot, hsplit, by simp [RemoveConstraint, hc, hs, herase]⟩
  · intro hne
    cases hc : ps.mConstraints with
    | none => exact absurd hc hne
    | some container => simp [RemoveConstraints, hc, hs]
  · intro hc
    simp [RemoveConstraints, hc]
  · cases hc : ps.mConstraints with
    | none => simp [RemoveConstraints, hc, constraintContainer]
    | some container => simp [RemoveConstraints, hc, hs, constraintContainer]
  · cases hc : ps.mConstraints with
    | none => simp [RemoveConstraints, hc]
    | some container => simp [RemoveConstraints, hc, hs]
  · cases hc : ps.mConstraints with
    | none => simp [RemoveConstraints, hc]
    | some container => simp [RemoveConstraints, hc, hs]
  · cases hc : ps.mConstraints with
    | none => simp [RemoveConstraints, hc]
    | some container => simp [RemoveConstraints, hc, hs, removedContainer]

/-- Witness of C22: on the detached object with the constraint container [1],
`RemoveConstraints()` deletes both containers and makes no call. -/
theorem C22_remove_without_scene_object_witness :
    RemoveConstraints demoProxyEnv demoDetached
      = { demoDetached with mConstraints := none, mRemovedConstraints := none } :=
  (C22_remove_without_scene_object demoProxyEnv demoDetached (by decide)).2.1 (by decide)

/-- C30: in every state reachable from a freshly constructed object through
any sequence of events, either the next custom index is 0 and the
custom-property map is not allocated, or the keys of the map are, in order,
exactly the indices from `DEFAULT_PROPERTY_MAX_COUNT` up to, but excluding,
the next custom index; and no call of either `RegisterProperty` overload
fails with the assertion "Custom property already registered". -/
theorem C30_keys_contiguous (penv : ProxyEnv) (ps : ProxySystem)
    (hr : ProxyReachable penv ps) :
    ((ps.system.proxy.mNextCustomPropertyIndex = 0 ∧
        ps.system.proxy.mCustomProperties = none) ∨
      (∃ m, ps.system.proxy.mCustomProperties = some m ∧
        penv.DEFAULT_PROPERTY_MAX_COUNT < ps.system.proxy.mNextCustomPropertyIndex ∧
        m.map Prod.fst =
          (List.range' penv.DEFAULT_PROPERTY_MAX_COUNT
            (ps.system.proxy.mNextCustomPropertyIndex - penv.DEFAULT_PROPERTY_MAX_COUNT)).map
            (fun n : Nat => (n : Int)))) ∧
    (∀ name v s1, RegisterProperty penv.toEnv ps.system name v
      ≠ .assertion "Custom property already registered" s1) ∧
    (∀ name v accessMode s1, RegisterPropertyWithMode penv.toEnv ps.system name v accessMode
      ≠ .assertion "Custom property already registered" s1) := by
  have hk : KeysInv penv.toEnv ps.system := by
    obtain ⟨stage, ops, _, hrun⟩ := hr
    rw [← hrun, proxyRun_system]
    exact (KeysInv.keys_new penv.toEnv stage).keys_run _
  have hreg : ∀ name v s1, RegisterProperty penv.toEnv ps.system name v
      ≠ .assertion "Custom property already registered" s1 := by
    intro name v s1
    rw [RegisterProperty_eq penv.toEnv ps.system name v hk]
    by_cases hname : penv.INVALID_INDEX = propertyIndexOf penv.toEnv ps.system name
    · cases hnew : newAnimatableProperty v with
      | none =>
        simp only [hname, not_true_eq_false, if_false]
        intro h
        injection h with hmsg
        exact absurd hmsg (by decide)
      | some c =>
        simp only [hname, not_true_eq_false, if_false]
        intro h
        cases h
    · simp only [hname, not_false_eq_true, if_true]
      intro h
      injection h with hmsg
      exact absurd hmsg (by decide)
  refine ⟨?_, hreg, ?_⟩
  · cases hm : ps.system.proxy.mCustomProperties with
    | none => exact Or.inl ⟨hk.unallocated hm, rfl⟩
    | some m =>
      obtain ⟨hlt, hkeys⟩ := hk.allocated m hm
      exact Or.inr ⟨m, rfl, hlt, hkeys⟩
  · intro name v accessMode s1
    by_cases hmode : accessMode = AccessMode.ANIMATABLE
    · have heq : RegisterPropertyWithMode penv.toEnv ps.system name v accessMode
          = RegisterProperty penv.toEnv ps.system name v := by
        simp [RegisterPropertyWithMode, hmode]
      rw [heq]
      exact hreg name v s1
    · rw [RegisterPropertyWithMode_eventSide penv.toEnv ps.system name v accessMode hk hmode]
      intro h
      cases h

/-- Witness of C30: the object on which "a" has been registered at index 10;
the next custom index is 11 and the keys are [10]. -/
theorem C30_keys_contiguous_witness :
    ((demoProxyRegistered.system.proxy.mNextCustomPropertyIndex = 0 ∧
        demoProxyRegistered.system.proxy.mCustomProperties = none) ∨
      (∃ m, demoProxyRegistered.system.proxy.mCustomProperties = some m ∧
        demoProxyEnv.DEFAULT_PROPERTY_MAX_COUNT
          < demoProxyRegistered.system.proxy.mNextCustomPropertyIndex ∧
        m.map Prod.fst =
          (List.range' demoProxyEnv.DEFAULT_PROPERTY_MAX_COUNT
            (demoProxyRegistered.system.proxy.mNextCustomPropertyIndex
              - demoProxyEnv.DEFAULT_PROPERTY_MAX_COUNT)).map (fun n : Nat => (n : Int)))) :=
  (C30_keys_contiguous demoProxyEnv demoProxyRegistered
    (ProxyReachable.of_proxy_run demoProxyEnv demoStage (by decide) _)).1

/-! ## The claims on the texture upload pipeline -/

theorem notifyAndRender_append (gs : GraphicsSystem) (message : TextureMessage) :
    (notifyAndRender { gs with queue := gs.queue ++ [message] }).trace
      = (notifyAndRender gs).trace ++ messageCalls message ∧
    (notifyAndRender { gs with queue := gs.queue ++ [message] }).queue = [] := by
  simp [notifyAndRender, List.append_assoc]

theorem notifyAndRender_upload (gs : GraphicsSystem) (texture : Texture)
    (pixelData : PixelData) (params : UploadParams) :
    (notifyAndRender (queueUpload gs texture pixelData params)).trace
      = (notifyAndRender gs).trace ++ uploadCalls texture pixelData params :=
  (notifyAndRender_append gs (TextureMessage.upload texture pixelData params)).1

theorem TextureUpload_accepted (gs : GraphicsSystem) (texture : Texture)
    (pixelData : PixelData) (params : UploadParams)
    (hwidth : 0 < params.width) (hheight : 0 < params.height)
    (hsize : params.width * params.height * pixelData.pixelFormat.bytesPerPixel
      ≤ pixelData.bufferSize) :
    TextureUpload gs texture pixelData params
      = .ok (queueUpload gs texture pixelData params) := by
  unfold TextureUpload
  rw [if_neg (by omega), if_neg (by omega)]

theorem uploadCalls_length (texture : Texture) (pixelData : PixelData)
    (params : UploadParams) : (uploadCalls texture pixelData params).length = 1 := by
  unfold uploadCalls
  simp only
  split <;> split <;> rfl

theorem mipmapSize_zero (size : Nat) : mipmapSize size 0 = size := by
  simp [mipmapSize]

/-- C24: an upload of a region that is not empty, from pixel data that holds
at least the bytes of the region, is accepted and queued. For every 2D
texture with an uncompressed format, the queued upload to mip level 0 whose
region is the whole texture at offset (0,0) adds, at the next notify and
render, exactly one backend call, `TexImage2D` with target `GL_TEXTURE_2D`,
level 0 and the width and height of the texture; a queued upload of any
other region adds exactly one backend call, `TexSubImage2D` with target
`GL_TEXTURE_2D`, level 0 and the offset and size of the region, and no
`TexImage2D`. -/
theorem C24_upload_2d_full_or_sub (gs : GraphicsSystem) (texture : Texture)
    (pixelData : PixelData) (params : UploadParams)
    (h2d : texture.type = TextureType.TEXTURE_2D) (hformat : texture.format.compressed = false)
    (hlevel : params.mipmap = 0) :
    (0 < params.width → 0 < params.height →
      params.width * params.height * pixelData.pixelFormat.bytesPerPixel
        ≤ pixelData.bufferSize →
      TextureUpload gs texture pixelData params
        = .ok (queueUpload gs texture pixelData params)) ∧
    ((params.xOffset = 0 ∧ params.yOffset = 0 ∧ params.width = texture.width ∧
        params.height = texture.height) →
      (notifyAndRender (queueUpload gs texture pixelData params)).trace
        = (notifyAndRender gs).trace ++
          [GlCall.TexImage2D GL_TEXTURE_2D 0 texture.width texture.height
            (some pixelData.buffer)]) ∧
    (¬ (params.xOffset = 0 ∧ params.yOffset = 0 ∧ params.width = texture.width ∧
        params.height = texture.height) →
      (notifyAndRender (queueUpload gs texture pixelData params)).trace
        = (notifyAndRender gs).trace ++
          [GlCall.TexSubImage2D GL_TEXTURE_2D 0 params.xOffset params.yOffset params.width
            params.height (some pixelData.buffer)]) := by
  refine ⟨TextureUpload_accepted gs texture pixelData params, ?_⟩
  rw [notifyAndRender_upload]
  constructor
  · rintro ⟨hx, hy, hw, hh⟩
    simp [uploadCalls, coversLevel, uploadTarget, h2d, hformat, hlevel, hx, hy, hw, hh,
      mipmapSize_zero]
  · intro hnot
    have hcov : coversLevel texture params = false := by
      simp only [coversLevel, hlevel, mipmapSize_zero, Bool.and_eq_false_iff,
        decide_eq_false_iff_not]
      by_contra hcon
      push_neg at hcon
      exact hnot ⟨hcon.1.1.1, hcon.1.1.2, hcon.1.2, hcon.2⟩
    simp [uploadCalls, hcov, uploadTarget, h2d, hformat, hlevel]

/-- Witness of C24: the two uploads of `UtcDaliTextureUpload01`, the whole
64 x 64 texture and then the region 32 x 32 at offset (32,32), and the
upload of `UtcDaliTextureUploadSmallerThanSize`, 32 x 32 at offset (0,0);
all three are accepted. -/
theorem C24_upload_2d_full_or_sub_witness :
    TextureUploadAll GraphicsSystem.new demoTexture demoPixelData
      = .ok (queueUpload GraphicsSystem.new demoTexture demoPixelData
          { layer := 0, mipmap := 0, xOffset := 0, yOffset := 0, width := 64,
            height := 64 }) ∧
    (notifyAndRender (queueUpload GraphicsSystem.new demoTexture demoPixelData
        { layer := 0, mipmap := 0, xOffset := 0, yOffset := 0, width := 64,
          height := 64 })).trace
      = [GlCall.TexImage2D GL_TEXTURE_2D 0 64 64 (some 1)] ∧
    TextureUpload GraphicsSystem.new demoTexture demoPixelDataSubImage
        { layer := 0, mipmap := 0, xOffset := 32, yOffset := 32, width := 32, height := 32 }
      = .ok (queueUpload GraphicsSystem.new demoTexture demoPixelDataSubImage
          { layer := 0, mipmap := 0, xOffset := 32, yOffset := 32, width := 32,
            height := 32 }) ∧
    (notifyAndRender (queueUpload GraphicsSystem.new demoTexture demoPixelDataSubImage
        { layer := 0, mipmap := 0, xOffset := 32, yOffset := 32, width := 32,
          height := 32 })).trace
      = [GlCall.TexSubImage2D GL_TEXTURE_2D 0 32 32 32 32 (some 2)] ∧
    TextureUploadAll GraphicsSystem.new demoTexture demoPixelDataSmaller
      = .ok (queueUpload GraphicsSystem.new demoTexture demoPixelDataSmaller
          { layer := 0, mipmap := 0, xOffset := 0, yOffset := 0, width := 32,
            height := 32 }) ∧
    (notifyAndRender (queueUpload GraphicsSystem.new demoTexture demoPixelDataSmaller
        { layer := 0, mipmap := 0, xOffset := 0, yOffset := 0, width := 32,
          height := 32 })).trace
      = [GlCall.TexSubImage2D GL_TEXTURE_2D 0 0 0 32 32 (some 3)] :=
  ⟨(C24_upload_2d_full_or_sub GraphicsSystem.new demoTexture demoPixelData
      { layer := 0, mipmap := 0, xOffset := 0, yOffset := 0, width := 64, height := 64 }
      rfl rfl rfl).1 (by decide) (by decide) (by decide),
   (C24_upload_2d_full_or_sub GraphicsSystem.new demoTexture demoPixelData
      { layer := 0, mipmap := 0, xOffset := 0, yOffset := 0, width := 64, height := 64 }
      rfl rfl rfl).2.1 (by decide),
   (C24_upload_2d_full_or_sub GraphicsSystem.new demoTexture demoPixelDataSubImage
      { layer := 0, mipmap := 0, xOffset := 32, yOffset := 32, width := 32, height := 32 }
      rfl rfl rfl).1 (by decide) (by decide) (by decide),
   (C24_upload_2d_full_or_sub GraphicsSystem.new demoTexture demoPixelDataSubImage
      { layer := 0, mipmap := 0, xOffset := 32, yOffset := 32, width := 32, height := 32 }
      rfl rfl rfl).2.2 (by decide),
   (C24_upload_2d_full_or_sub GraphicsSystem.new demoTexture demoPixelDataSmaller
      { layer := 0, mipmap := 0, xOffset := 0, yOffset := 0, width := 32, height := 32 }
      rfl rfl rfl).1 (by decide) (by decide) (by decide),
   (C24_upload_2d_full_or_sub GraphicsSystem.new demoTexture demoPixelDataSmaller
      { layer := 0, mipmap := 0, xOffset := 0, yOffset := 0, width := 32, height := 32 }
      rfl rfl rfl).2.2 (by decide)⟩

/-- C25 as stated fails on the second upload of `UtcDaliTextureUpload01`
(lines 167-181): the pixel data is declared as 64 x 64 RGBA8888 but holds
8192 bytes, which is neither 64 * 64 * 4 nor the 32 * 32 * 4 of the region;
the upload is accepted and `TexSubImage2D` is issued for it, as the test
expects. -/
theorem C25_mismatched_byte_count_uploaded :
    demoPixelDataSubImage.bufferSize
      ≠ demoPixelDataSubImage.width * demoPixelDataSubImage.height
          * demoPixelDataSubImage.pixelFormat.bytesPerPixel ∧
    demoPixelDataSubImage.bufferSize ≠ 32 * 32 * demoPixelDataSubImage.pixelFormat.bytesPerPixel ∧
    TextureUpload GraphicsSystem.new demoTexture demoPixelDataSubImage
        { layer := 0, mipmap := 0, xOffset := 32, yOffset := 32, width := 32, height := 32 }
      = .ok (queueUpload GraphicsSystem.new demoTexture demoPixelDataSubImage
          { layer := 0, mipmap := 0, xOffset := 32, yOffset := 32, width := 32,
            height := 32 }) ∧
    (notifyAndRender (queueUpload GraphicsSystem.new demoTexture demoPixelDataSubImage
        { layer := 0, mipmap := 0, xOffset := 32, yOffset := 32, width := 32,
          height := 32 })).trace
      = [GlCall.TexSubImage2D GL_TEXTURE_2D 0 32 32 32 32 (some 2)] := by
  decide

/-- C25, amended: an upload compares the byte count of the pixel data with
the bytes of the region that is uploaded, width times height of the region
times the bytes per pixel of the format of the pixel data, and not with the
declared size of the pixel data. When the pixel data holds fewer bytes than
the region, the upload fails with a hard failure and leaves the graphics
system as it was: nothing is queued, so that no backend call is issued for
it. When the region is not empty and the pixel data holds at least the
bytes of the region, whatever its declared size, the upload is queued and
results at the next notify and render in exactly one backend call. -/
theorem C25_upload_byte_count (gs : GraphicsSystem) (texture : Texture)
    (pixelData : PixelData) (params : UploadParams) :
    (pixelData.bufferSize
        < params.width * params.height * pixelData.pixelFormat.bytesPerPixel →
      TextureUpload gs texture pixelData params
        = .assertion "pixel-buffer/size mismatch" gs) ∧
    (0 < params.width → 0 < params.height →
      params.width * params.height * pixelData.pixelFormat.bytesPerPixel
        ≤ pixelData.bufferSize →
      TextureUpload gs texture pixelData params
        = .ok (queueUpload gs texture pixelData params) ∧
      (queueUpload gs texture pixelData params).queue
        = gs.queue ++ [TextureMessage.upload texture pixelData params] ∧
      (notifyAndRender (queueUpload gs texture pixelData params)).trace
        = (notifyAndRender gs).trace ++ uploadCalls texture pixelData params ∧
      (uploadCalls texture pixelData params).length = 1) := by
  constructor
  · intro hsmall
    have hwidth : ¬ params.width = 0 := by
      intro h
      rw [h] at hsmall
      simp at hsmall
    have hheight : ¬ params.height = 0 := by
      intro h
      rw [h] at hsmall
      simp at hsmall
    unfold TextureUpload
    rw [if_neg (by simp [hwidth, hheight]), if_pos hsmall]
  · intro hwidth hheight hsize
    exact ⟨TextureUpload_accepted gs texture pixelData params hwidth hheight hsize, rfl,
      notifyAndRender_upload gs texture pixelData params,
      uploadCalls_length texture pixelData params⟩

/-- Witness of C25, amended: the upload of the whole 64 x 64 texture from a
buffer of 100 bytes fails; the upload of the region 32 x 32 from the buffer
of 8192 bytes that is declared as 64 x 64 is accepted. -/
theorem C25_upload_byte_count_witness :
    TextureUpload GraphicsSystem.new demoTexture demoPixelDataShort
        { layer := 0, mipmap := 0, xOffset := 0, yOffset := 0, width := 64, height := 64 }
      = .assertion "pixel-buffer/size mismatch" GraphicsSystem.new ∧
    TextureUpload GraphicsSystem.new demoTexture demoPixelDataSubImage
        { layer := 0, mipmap := 0, xOffset := 32, yOffset := 32, width := 32, height := 32 }
      = .ok (queueUpload GraphicsSystem.new demoTexture demoPixelDataSubImage
          { layer := 0, mipmap := 0, xOffset := 32, yOffset := 32, width := 32,
            height := 32 }) :=
  ⟨(C25_upload_byte_count GraphicsSystem.new demoTexture demoPixelDataShort
      { layer := 0, mipmap := 0, xOffset := 0, yOffset := 0, width := 64, height := 64 }).1
      (by decide),
   ((C25_upload_byte_count GraphicsSystem.new demoTexture demoPixelDataSubImage
      { layer := 0, mipmap := 0, xOffset := 32, yOffset := 32, width := 32, height := 32 }).2
      (by decide) (by decide) (by decide)).1⟩

/-- C26: an upload of a region that is not empty, from pixel data that holds
at least the bytes of the region, is accepted and queued. For every cube
texture and every layer, the one backend call of a queued upload has the
target `GL_TEXTURE_CUBE_MAP_POSITIVE_X` plus the layer, and the layers 0 to
5 give POSITIVE_X, NEGATIVE_X, POSITIVE_Y, NEGATIVE_Y, POSITIVE_Z,
NEGATIVE_Z in this order; for every 2D texture the target is
`GL_TEXTURE_2D` whatever the layer. -/
theorem C26_upload_target (gs : GraphicsSystem) (texture : Texture) (pixelData : PixelData)
    (params : UploadParams) :
    (0 < params.width → 0 < params.height →
      params.width * params.height * pixelData.pixelFormat.bytesPerPixel
        ≤ pixelData.bufferSize →
      TextureUpload gs texture pixelData params
        = .ok (queueUpload gs texture pixelData params)) ∧
    (notifyAndRender (queueUpload gs texture pixelData params)).trace
      = (notifyAndRender gs).trace ++ uploadCalls texture pixelData params ∧
    (uploadCalls texture pixelData params).length = 1 ∧
    (texture.type = TextureType.TEXTURE_CUBE →
      ∀ call ∈ uploadCalls texture pixelData params,
        call.target = GL_TEXTURE_CUBE_MAP_POSITIVE_X + params.layer) ∧
    (texture.type = TextureType.TEXTURE_2D →
      ∀ call ∈ uploadCalls texture pixelData params, call.target = GL_TEXTURE_2D) ∧
    (List.range 6).map (fun layer => GL_TEXTURE_CUBE_MAP_POSITIVE_X + layer)
      = [GL_TEXTURE_CUBE_MAP_POSITIVE_X, GL_TEXTURE_CUBE_MAP_NEGATIVE_X,
         GL_TEXTURE_CUBE_MAP_POSITIVE_Y, GL_TEXTURE_CUBE_MAP_NEGATIVE_Y,
         GL_TEXTURE_CUBE_MAP_POSITIVE_Z, GL_TEXTURE_CUBE_MAP_NEGATIVE_Z] := by
  have htarget : ∀ call ∈ uploadCalls texture pixelData params,
      call.target = uploadTarget texture params.layer := by
    intro call hcall
    unfold uploadCalls at hcall
    simp only at hcall
    split at hcall <;> split at hcall <;> simp only [List.mem_singleton] at hcall <;>
      subst hcall <;> rfl
  refine ⟨TextureUpload_accepted gs texture pixelData params,
    notifyAndRender_upload gs texture pixelData params,
    uploadCalls_length texture pixelData params, ?_, ?_, by decide⟩
  · intro hcube call hcall
    rw [htarget call hcall]
    simp [uploadTarget, hcube]
  · intro h2d call hcall
    rw [htarget call hcall]
    simp [uploadTarget, h2d]

/-- Witness of C26: the upload to the NEGATIVE_X face (layer 1) of
`UtcDaliTextureUpload02` is accepted and has the target
`GL_TEXTURE_CUBE_MAP_NEGATIVE_X`. -/
theorem C26_upload_target_witness :
    TextureUpload GraphicsSystem.new demoCubeTexture demoPixelData
        { layer := 1, mipmap := 0, xOffset := 0, yOffset := 0, width := 64, height := 64 }
      = .ok (queueUpload GraphicsSystem.new demoCubeTexture demoPixelData
          { layer := 1, mipmap := 0, xOffset := 0, yOffset := 0, width := 64,
            height := 64 }) ∧
    ∀ call ∈ uploadCalls demoCubeTexture demoPixelData
        { layer := 1, mipmap := 0, xOffset := 0, yOffset := 0, width := 64, height := 64 },
      call.target = GL_TEXTURE_CUBE_MAP_POSITIVE_X + 1 :=
  ⟨(C26_upload_target GraphicsSystem.new demoCubeTexture demoPixelData
    { layer := 1, mipmap := 0, xOffset := 0, yOffset := 0, width := 64, height := 64 }).1
    (by decide) (by decide) (by decide),
   (C26_upload_target GraphicsSystem.new demoCubeTexture demoPixelData
    { layer := 1, mipmap := 0, xOffset := 0, yOffset := 0, width := 64, height := 64 }).2.2.2.1
    rfl⟩

/-- C27: for every texture and every mipmap level, from 1 as well as 0, whose
width and height, those of the texture halved level times, are not 0: an
upload of the region that covers the whole level at offset (0,0), from
pixel data that holds at least the bytes of the region, is accepted and
adds exactly one backend call at the next notify and render: the full-image
call (the compressed variant for a compressed format) with that level and
those dimensions. No call for level 0 or any other level is made. -/
theorem C27_upload_mipmap_level (gs : GraphicsSystem) (texture : Texture)
    (pixelData : PixelData) (params : UploadParams)
    (hx : params.xOffset = 0) (hy : params.yOffset = 0)
    (hw : params.width = texture.width / 2 ^ params.mipmap)
    (hh : params.height = texture.height / 2 ^ params.mipmap)
    (hwidth : 0 < texture.width / 2 ^ params.mipmap)
    (hheight : 0 < texture.height / 2 ^ params.mipmap)
    (hsize : params.width * params.height * pixelData.pixelFormat.bytesPerPixel
      ≤ pixelData.bufferSize) :
    TextureUpload gs texture pixelData params
      = .ok (queueUpload gs texture pixelData params) ∧
    (notifyAndRender (queueUpload gs texture pixelData params)).trace
      = (notifyAndRender gs).trace ++
        [if texture.format.compressed then
          GlCall.CompressedTexImage2D (uploadTarget texture params.layer) params.mipmap
            (texture.width / 2 ^ params.mipmap) (texture.height / 2 ^ params.mipmap)
            (some pixelData.buffer)
         else
          GlCall.TexImage2D (uploadTarget texture params.layer) params.mipmap
            (texture.width / 2 ^ params.mipmap) (texture.height / 2 ^ params.mipmap)
            (some pixelData.buffer)] ∧
    (∀ call ∈ uploadCalls texture pixelData params, call.level = some params.mipmap) := by
  have hcov : coversLevel texture params = true := by
    simp [coversLevel, hx, hy, hw, hh, mipmapSize]
  have hcalls : uploadCalls texture pixelData params =
      [if texture.format.compressed then
          GlCall.CompressedTexImage2D (uploadTarget texture params.layer) params.mipmap
            (texture.width / 2 ^ params.mipmap) (texture.height / 2 ^ params.mipmap)
            (some pixelData.buffer)
         else
          GlCall.TexImage2D (uploadTarget texture params.layer) params.mipmap
            (texture.width / 2 ^ params.mipmap) (texture.height / 2 ^ params.mipmap)
            (some pixelData.buffer)] := by
    unfold uploadCalls
    simp only [hcov, if_true]
    split <;> simp [hw, hh]
  refine ⟨TextureUpload_accepted gs texture pixelData params (hw ▸ hwidth) (hh ▸ hheight)
    hsize, ?_, ?_⟩
  · rw [notifyAndRender_upload, hcalls]
  · intro call hcall
    rw [hcalls] at hcall
    simp only [List.mem_singleton] at hcall
    subst hcall
    split <;> rfl

/-- Witness of C27: the upload to mipmap level 1 of `UtcDaliTextureUpload03`,
32 x 32 for the 64 x 64 texture. -/
theorem C27_upload_mipmap_level_witness :
    TextureUpload GraphicsSystem.new demoTexture demoPixelData
        { layer := 0, mipmap := 1, xOffset := 0, yOffset := 0, width := 32, height := 32 }
      = .ok (queueUpload GraphicsSystem.new demoTexture demoPixelData
          { layer := 0, mipmap := 1, xOffset := 0, yOffset := 0, width := 32,
            height := 32 }) ∧
    (notifyAndRender (queueUpload GraphicsSystem.new demoTexture demoPixelData
        { layer := 0, mipmap := 1, xOffset := 0, yOffset := 0, width := 32,
          height := 32 })).trace
      = (notifyAndRender GraphicsSystem.new).trace ++
        [if demoTexture.format.compressed then
          GlCall.CompressedTexImage2D (uploadTarget demoTexture 0) 1 (64 / 2 ^ 1) (64 / 2 ^ 1)
            (some 1)
         else
          GlCall.TexImage2D (uploadTarget demoTexture 0) 1 (64 / 2 ^ 1) (64 / 2 ^ 1)
            (some 1)] :=
  ⟨(C27_upload_mipmap_level GraphicsSystem.new demoTexture demoPixelData
    { layer := 0, mipmap := 1, xOffset := 0, yOffset := 0, width := 32, height := 32 }
    rfl rfl (by decide) (by decide) (by decide) (by decide) (by decide)).1,
   (C27_upload_mipmap_level GraphicsSystem.new demoTexture demoPixelData
    { layer := 0, mipmap := 1, xOffset := 0, yOffset := 0, width := 32, height := 32 }
    rfl rfl (by decide) (by decide) (by decide) (by decide) (by decide)).2.1⟩

/-- C28: for every texture, one `GenerateMipmaps()` call adds exactly one
backend call at the next notify and render, `GenerateMipmap` with target
`GL_TEXTURE_2D` for a 2D texture and with target `GL_TEXTURE_CUBE_MAP` for a
cube texture, which is none of the six face targets. -/
theorem C28_generate_mipmaps (gs : GraphicsSystem) (texture : Texture) :
    (notifyAndRender (TextureGenerateMipmaps gs texture)).trace
      = (notifyAndRender gs).trace ++
        [GlCall.GenerateMipmap
          (match texture.type with
           | .TEXTURE_2D => GL_TEXTURE_2D
           | .TEXTURE_CUBE => GL_TEXTURE_CUBE_MAP)] ∧
    (∀ face, face < 6 → GL_TEXTURE_CUBE_MAP ≠ GL_TEXTURE_CUBE_MAP_POSITIVE_X + face) := by
  constructor
  · have h := (notifyAndRender_append gs (TextureMessage.generateMipmaps texture)).1
    unfold TextureGenerateMipmaps
    rw [h]
    simp only [messageCalls, generateMipmapsCalls]
    cases texture.type <;> rfl
  · intro face _
    simp only [GL_TEXTURE_CUBE_MAP, GL_TEXTURE_CUBE_MAP_POSITIVE_X]
    omega

/-- C29: an upload of a region that is not empty, from pixel data that holds
at least the bytes of the region, is accepted and queued. For every
texture with a compressed format a queued upload results in exactly one
backend call, `CompressedTexImage2D` when the region covers the level and
`CompressedTexSubImage2D` otherwise, and it is the compressed variant, with
the same target, level, offsets and dimensions, of the call that the same
upload to a texture of the same type and size with an uncompressed format
results in; for an uncompressed format no call of an upload is a compressed
variant. -/
theorem C29_compressed_upload (gs : GraphicsSystem) (texture : Texture)
    (pixelData : PixelData) (params : UploadParams) (uncompressed : PixelFormat)
    (hun : uncompressed.compressed = false) :
    (0 < params.width → 0 < params.height →
      params.width * params.height * pixelData.pixelFormat.bytesPerPixel
        ≤ pixelData.bufferSize →
      TextureUpload gs texture pixelData params
        = .ok (queueUpload gs texture pixelData params)) ∧
    (notifyAndRender (queueUpload gs texture pixelData params)).trace
      = (notifyAndRender gs).trace ++ uploadCalls texture pixelData params ∧
    (texture.format.compressed = true →
      uploadCalls texture pixelData params
        = (uploadCalls { texture with format := uncompressed } pixelData params).map
            GlCall.compressedVariant ∧
      uploadCalls texture pixelData params
        = [if coversLevel texture params then
            GlCall.CompressedTexImage2D (uploadTarget texture params.layer) params.mipmap
              params.width params.height (some pixelData.buffer)
           else
            GlCall.CompressedTexSubImage2D (uploadTarget texture params.layer) params.mipmap
              params.xOffset params.yOffset params.width params.height
              (some pixelData.buffer)]) ∧
    (texture.format.compressed = false →
      (∀ call ∈ uploadCalls texture pixelData params, call.isCompressed = false) ∧
      uploadCalls texture pixelData params
        = [if coversLevel texture params then
            GlCall.TexImage2D (uploadTarget texture params.layer) params.mipmap
              params.width params.height (some pixelData.buffer)
           else
            GlCall.TexSubImage2D (uploadTarget texture params.layer) params.mipmap
              params.xOffset params.yOffset params.width params.height
              (some pixelData.buffer)]) := by
  refine ⟨TextureUpload_accepted gs texture pixelData params,
    notifyAndRender_upload gs texture pixelData params, ?_, ?_⟩
  · intro hc
    have hcov : coversLevel { texture with format := uncompressed } params
        = coversLevel texture params := rfl
    have htarget : uploadTarget { texture with format := uncompressed } params.layer
        = uploadTarget texture params.layer := rfl
    constructor
    · unfold uploadCalls
      simp only [hc, hun, hcov, htarget, if_true]
      split <;> simp [GlCall.compressedVariant]
    · unfold uploadCalls
      simp only [hc, if_true]
      split <;> rfl
  · intro hc
    have hcalls : uploadCalls texture pixelData params
        = [if coversLevel texture params then
            GlCall.TexImage2D (uploadTarget texture params.layer) params.mipmap
              params.width params.height (some pixelData.buffer)
           else
            GlCall.TexSubImage2D (uploadTarget texture params.layer) params.mipmap
              params.xOffset params.yOffset params.width params.height
              (some pixelData.buffer)] := by
      unfold uploadCalls
      simp only [hc]
      split <;> simp
    refine ⟨?_, hcalls⟩
    intro call hcall
    rw [hcalls] at hcall
    simp only [List.mem_singleton] at hcall
    subst hcall
    split <;> rfl

/-- Witness of C29: the two uploads of `UtcDaliTextureUpload05` to the
compressed 64 x 64 texture, the whole texture and the region 32 x 32 at
offset (32,32); the first is accepted. -/
theorem C29_compressed_upload_witness :
    TextureUpload GraphicsSystem.new demoCompressedTexture demoPixelData
        { layer := 0, mipmap := 0, xOffset := 0, yOffset := 0, width := 64, height := 64 }
      = .ok (queueUpload GraphicsSystem.new demoCompressedTexture demoPixelData
          { layer := 0, mipmap := 0, xOffset := 0, yOffset := 0, width := 64,
            height := 64 }) ∧
    uploadCalls demoCompressedTexture demoPixelData
        { layer := 0, mipmap := 0, xOffset := 0, yOffset := 0, width := 64, height := 64 }
      = (uploadCalls { demoCompressedTexture with format := Pixel.RGBA8888 } demoPixelData
          { layer := 0, mipmap := 0, xOffset := 0, yOffset := 0, width := 64,
            height := 64 }).map GlCall.compressedVariant ∧
    uploadCalls demoCompressedTexture demoPixelDataSubImage
        { layer := 0, mipmap := 0, xOffset := 32, yOffset := 32, width := 32, height := 32 }
      = (uploadCalls { demoCompressedTexture with format := Pixel.RGBA8888 }
          demoPixelDataSubImage
          { layer := 0, mipmap := 0, xOffset := 32, yOffset := 32, width := 32,
            height := 32 }).map GlCall.compressedVariant :=
  ⟨(C29_compressed_upload GraphicsSystem.new demoCompressedTexture demoPixelData
      { layer := 0, mipmap := 0, xOffset := 0, yOffset := 0, width := 64, height := 64 }
      Pixel.RGBA8888 rfl).1 (by decide) (by decide) (by decide),
   ((C29_compressed_upload GraphicsSystem.new demoCompressedTexture demoPixelData
      { layer := 0, mipmap := 0, xOffset := 0, yOffset := 0, width := 64, height := 64 }
      Pixel.RGBA8888 rfl).2.2.1 rfl).1,
   ((C29_compressed_upload GraphicsSystem.new demoCompressedTexture demoPixelDataSubImage
      { layer := 0, mipmap := 0, xOffset := 32, yOffset := 32, width := 32, height := 32 }
      Pixel.RGBA8888 rfl).2.2.1 rfl).1⟩

/-! ## The last claims on properties, the sweep and observers -/

theorem isAnimatableType_iff (t : PropertyType) :
    isAnimatableType t = true ↔ t ∈ animatableTypes := by
  cases t <;> simp [isAnimatableType, animatableTypes]

/-- C31: in every reachable state, when `RegisterProperty( name, v )`
succeeds, the type of `v` is one of BOOLEAN, FLOAT, VECTOR2, VECTOR3,
VECTOR4, MATRIX, MATRIX3, ROTATION, and the new entry points to a new cell
created for `v`. After any further events the entry still has that type and
points to a cell of the heap that was created for exactly that type, so the
type-dispatched cast of `GetProperty` yields that cell and not NULL, and
`GetProperty` returns normally, with neither the assertion "PropertyType
enumeration is out of bounds" nor a null pointer. -/
theorem C31_animatable_entry_well_typed (env : Env) (s : System) (hr : Reachable env s)
    (hs : env.sentinelNegative) (name : String) (v : PropertyValue) (index : Int)
    (s1 : System) (hreg : RegisterProperty env s name v = .ok index s1) (ops : List Op) :
    v.GetType ∈ animatableTypes ∧
    (∃ cell0, (customProperties s1).find index
        = some (CustomProperty.animatable name v.GetType cell0) ∧
      s1.stage.heap[cell0]? = some (AnimatableProperty.new v)) ∧
    ∃ e cell c, (customProperties (run env s1 ops)).find index = some e ∧
      e.type = v.GetType ∧ e.mProperty = some cell ∧
      (run env s1 ops).stage.heap[cell]? = some c ∧ c.kind = e.type ∧
      castSceneGraphProperty (run env s1 ops) e e.type = some c ∧
      GetProperty env (run env s1 ops) index
        = .ok (c.get (run env s1 ops).stage.eventBufferIndex) (run env s1 ops) := by
  have hk := hr.keys
  obtain ⟨hk1, cell0, hf1⟩ := registered_animatable_find hk hreg
  have hr1 : Reachable env s1 := by
    have := hr.after_step (Op.RegisterProperty name v)
    simp only [step, hreg, Outcome.system] at this
    exact this
  have hr2 := hr1.after_run ops
  obtain ⟨e1, hf2, _, htype, hprop, _, _⟩ := find_after_run ops hk1 index _ hf1
  have ha : e1.IsAnimatable = true := by
    simp [CustomProperty.IsAnimatable, hprop, CustomProperty.animatable]
  have htype1 : e1.type = v.GetType := by simpa [CustomProperty.animatable] using htype
  obtain ⟨cell, c, hp, hc, hkind, _, hget⟩ :=
    GetProperty_animatable env _ index e1 hs hr2.keys hr2.entries hf2 ha
  refine ⟨?_, ?_, e1, cell, c, hf2, htype1, hp, hc, hkind, ?_, hget⟩
  · rw [RegisterProperty_eq env s name v hk] at hreg
    by_cases hname : env.INVALID_INDEX = propertyIndexOf env s name
    · cases hnew : newAnimatableProperty v with
      | none => simp [hname, hnew] at hreg
      | some c0 =>
        exact (isAnimatableType_iff _).1 (newAnimatableProperty_some v c0 hnew).2
    · simp [hname] at hreg
  · rw [RegisterProperty_eq env s name v hk] at hreg
    by_cases hname : env.INVALID_INDEX = propertyIndexOf env s name
    · cases hnew : newAnimatableProperty v with
      | none => simp [hname, hnew] at hreg
      | some c0 =>
        obtain ⟨hc0, _⟩ := newAnimatableProperty_some v c0 hnew
        subst hc0
        simp only [hname, not_true_eq_false, if_false, hnew, Outcome.ok.injEq] at hreg
        obtain ⟨hi, hs1⟩ := hreg
        subst hi hs1
        refine ⟨s.stage.heap.length, ?_, by simp [withAnimatable]⟩
        unfold withAnimatable
        rw [customProperties_withEntry]
        exact find_withEntry hk _
    · simp [hname] at hreg
  · simp [castSceneGraphProperty, hp, hc, hkind]

/-- Witness of C31: the animatable float property "x", read after it has
been set. -/
theorem C31_animatable_entry_well_typed_witness :
    ∃ e cell c,
      (customProperties (run demoEnv demoAnimatable
        [Op.SetProperty 10 (PropertyValue.FLOAT 9)])).find 10 = some e ∧
      e.type = (PropertyValue.FLOAT 2).GetType ∧ e.mProperty = some cell ∧
      (run demoEnv demoAnimatable
        [Op.SetProperty 10 (PropertyValue.FLOAT 9)]).stage.heap[cell]? = some c ∧
      c.kind = e.type ∧
      castSceneGraphProperty
        (run demoEnv demoAnimatable [Op.SetProperty 10 (PropertyValue.FLOAT 9)]) e e.type
        = some c ∧
      GetProperty demoEnv
          (run demoEnv demoAnimatable [Op.SetProperty 10 (PropertyValue.FLOAT 9)]) 10
        = .ok (c.get (run demoEnv demoAnimatable
              [Op.SetProperty 10 (PropertyValue.FLOAT 9)]).stage.eventBufferIndex)
            (run demoEnv demoAnimatable [Op.SetProperty 10 (PropertyValue.FLOAT 9)]) :=
  (C31_animatable_entry_well_typed demoEnv (System.new demoStage)
    (Reachable.of_new demoEnv demoStage (by decide)) (by simp [Env.sentinelNegative, demoEnv])
    "x" (PropertyValue.FLOAT 2) 10 demoAnimatable (by decide)
    [Op.SetProperty 10 (PropertyValue.FLOAT 9)]).2.2

/-- C32: in every reachable state and for every name that
`GetPropertyIndex` does not know, `RegisterProperty( name, v, ANIMATABLE )`
is `RegisterProperty( name, v )`, and it fails with an assertion exactly
when the type of `v` is not one of BOOLEAN, FLOAT, VECTOR2, VECTOR3,
VECTOR4, MATRIX, MATRIX3, ROTATION. The failure is the assertion
"PropertyType enumeration is out of bounds" and leaves the whole system as
it was: no index is consumed, no map entry is added and no call into the
concrete type is made. Otherwise the registration succeeds. -/
theorem C32_animatable_registration_type (env : Env) (s : System) (hr : Reachable env s)
    (name : String) (v : PropertyValue)
    (hunused : GetPropertyIndex env s name = .ok env.INVALID_INDEX s) :
    RegisterPropertyWithMode env s name v AccessMode.ANIMATABLE
      = RegisterProperty env s name v ∧
    ((RegisterProperty env s name v).failed = true ↔ v.GetType ∉ animatableTypes) ∧
    (v.GetType ∉ animatableTypes →
      RegisterProperty env s name v
        = .assertion "PropertyType enumeration is out of bounds" s) ∧
    (v.GetType ∈ animatableTypes →
      RegisterProperty env s name v
        = .ok (nextIndex env s : Int)
            (withAnimatable env s name v.GetType (AnimatableProperty.new v))) := by
  have hk := hr.keys
  have hname : env.INVALID_INDEX = propertyIndexOf env s name := by
    rw [GetPropertyIndex_eq] at hunused
    simp only [Outcome.ok.injEq, and_true] at hunused
    exact hunused.symm
  have heq := RegisterProperty_eq env s name v hk
  rw [if_neg (not_not.2 hname)] at heq
  have hbad : v.GetType ∉ animatableTypes →
      RegisterProperty env s name v
        = .assertion "PropertyType enumeration is out of bounds" s := by
    intro hnot
    have hf : isAnimatableType v.GetType = false := by
      cases h : isAnimatableType v.GetType
      · rfl
      · exact absurd ((isAnimatableType_iff _).1 h) hnot
    rw [heq, newAnimatableProperty_none v hf]
  have hgood : v.GetType ∈ animatableTypes →
      RegisterProperty env s name v
        = .ok (nextIndex env s : Int)
            (withAnimatable env s name v.GetType (AnimatableProperty.new v)) := by
    intro hin
    rw [heq, newAnimatableProperty_of_type v ((isAnimatableType_iff _).2 hin)]
  refine ⟨by simp [RegisterPropertyWithMode], ?_, hbad, hgood⟩
  constructor
  · intro hfail hin
    rw [hgood hin] at hfail
    simp [Outcome.failed] at hfail
  · intro hnot
    rw [hbad hnot]
    rfl

/-- Witness of C32: on a fresh object of the small concrete type the unused
name "s" cannot be registered as animatable with a string value. -/
theorem C32_animatable_registration_type_witness :
    RegisterProperty demoEnv (System.new demoStage) "s" (PropertyValue.STRING "text")
      = .assertion "PropertyType enumeration is out of bounds" (System.new demoStage) :=
  (C32_animatable_registration_type demoEnv (System.new demoStage)
    (Reachable.of_new demoEnv demoStage (by decide)) "s" (PropertyValue.STRING "text")
    (by decide)).2.2.1 (by decide)

/-- C33: `DeleteRemovedConstraints()` replaces the pending-removal list, when
it is allocated, by its entries whose `IsRemoving()` is true, in their
original order, and leaves every other member of the object and its
surroundings as they were: the list afterwards is the filter of the list
before, a sublist of it, and a handle is in it exactly when it was in it
before and its `IsRemoving()` is true, as often as before. The list stays
allocated once it is. On an object whose list was never allocated the call
changes nothing. -/
theorem C33_delete_removed_constraints (penv : ProxyEnv) (ps : ProxySystem) :
    DeleteRemovedConstraints penv ps
      = { ps with mRemovedConstraints := ps.mRemovedConstraints.map (fun removed =>
            removed.filter (fun handle => ActiveConstraintIsRemoving penv ps handle)) } ∧
    removedContainer (DeleteRemovedConstraints penv ps)
      = (removedContainer ps).filter (fun handle => ActiveConstraintIsRemoving penv ps handle) ∧
    (removedContainer (DeleteRemovedConstraints penv ps)).Sublist (removedContainer ps) ∧
    (∀ handle, handle ∈ removedContainer (DeleteRemovedConstraints penv ps) ↔
      handle ∈ removedContainer ps ∧ ActiveConstraintIsRemoving penv ps handle = true) ∧
    (∀ handle, (removedContainer (DeleteRemovedConstraints penv ps)).count handle
      = if ActiveConstraintIsRemoving penv ps handle = true
        then (removedContainer ps).count handle else 0) ∧
    (DeleteRemovedConstraints penv ps).mRemovedConstraints.isSome
      = ps.mRemovedConstraints.isSome ∧
    DeleteRemovedConstraints penv { ps with mRemovedConstraints := none }
      = { ps with mRemovedConstraints := none } := by
  have hfilter := (DeleteRemovedConstraints_removed penv ps).1
  refine ⟨?_, hfilter, ?_, ?_, ?_, ?_, rfl⟩
  · unfold DeleteRemovedConstraints
    cases hm : ps.mRemovedConstraints with
    | none =>
      cases ps
      simp only [Option.map_none'] at hm ⊢
      subst hm
      rfl
    | some removed => simp
  · rw [hfilter]
    exact List.filter_sublist _
  · intro handle
    rw [hfilter, List.mem_filter]
  · intro handle
    rw [hfilter]
    cases hrem : ActiveConstraintIsRemoving penv ps handle with
    | true =>
      rw [if_pos rfl]
      exact List.count_filter (by simpa using hrem)
    | false =>
      rw [if_neg (by simp)]
      apply List.count_eq_zero.2
      intro hin
      have h := (List.mem_filter.1 hin).2
      rw [hrem] at h
      exact absurd h (by simp)
  · unfold DeleteRemovedConstraints
    cases hm : ps.mRemovedConstraints with
    | none => simp [hm]
    | some removed => simp

/-- Witness of C33: on the attached object whose only constraint has been
removed, the sweep keeps the constraint while its removal is in flight and
discards it once the removal has finished; the list stays allocated. -/
theorem C33_delete_removed_constraints_witness :
    (DeleteRemovedConstraints demoProxyEnv demoPending).mRemovedConstraints = some [0] ∧
    (DeleteRemovedConstraints demoProxyEnv demoFinished).mRemovedConstraints = some [] :=
  ⟨((C33_delete_removed_constraints demoProxyEnv demoPending).1 ▸ by decide),
   ((C33_delete_removed_constraints demoProxyEnv demoFinished).1 ▸ by decide)⟩

/-- C34 as stated fails in a build without `DALI_ASSERT_DEBUG`:
`RemoveObserver` of observer 3, which is not in the observer list, returns
normally; the list, which holds observer 4, is left as it was. -/
theorem C34_release_build_returns_normally :
    RemoveObserver releaseProxyEnv
        (proxyStep releaseProxyEnv (ProxySystem.new demoStage) (ProxyOp.AddObserver 4)) 3
      = .ok () { ProxySystem.new demoStage with mObservers := [4] } := by
  decide

/-- C34, amended in its last part to builds with `DALI_ASSERT_DEBUG`. In
every build, for a duplicate-free observer list and an observer in it,
`RemoveObserver( o )` returns normally and yields the list with that
observer deleted and the others in their order; for an observer that is not
in the list, `AddObserver( o )` followed by `RemoveObserver( o )` gives the
object back as it was. For an observer that is not in the list
`RemoveObserver( o )` leaves the object as it was; its closing assertion
fails in a build with `DALI_ASSERT_DEBUG`, and in a build without it the
call returns normally. -/
theorem C34_remove_observer (penv : ProxyEnv) (ps : ProxySystem) (observer : Nat) :
    (ps.mObservers.Nodup → observer ∈ ps.mObservers →
      ∃ before after, ps.mObservers = before ++ observer :: after ∧
        RemoveObserver penv ps observer = .ok () { ps with mObservers := before ++ after } ∧
        observer ∉ before ++ after) ∧
    (observer ∉ ps.mObservers →
      AddObserver penv ps observer
        = .ok () { ps with mObservers := ps.mObservers ++ [observer] } ∧
      RemoveObserver penv (AddObserver penv ps observer).system observer = .ok () ps) ∧
    (observer ∉ ps.mObservers → penv.debug = true →
      RemoveObserver penv ps observer = .assertion "endIter != mObservers.End()" ps) ∧
    (observer ∉ ps.mObservers → penv.debug = false →
      RemoveObserver penv ps observer = .ok () ps) := by
  refine ⟨fun hnodup hmem => ?_, fun hmem => ?_, fun hmem hd => ?_, fun hmem hd => ?_⟩
  · obtain ⟨before, after, hbefore, hsplit, herase⟩ := List.exists_erase_eq hmem
    refine ⟨before, after, hsplit, ?_, ?_⟩
    · simp [RemoveObserver, hmem, herase]
    · rw [hsplit] at hnodup
      have hafter : observer ∉ after := by
        have h := (List.nodup_append.1 hnodup).2.1
        exact (List.nodup_cons.1 h).1
      simp [hbefore, hafter]
  · have hadd : AddObserver penv ps observer
        = .ok () { ps with mObservers := ps.mObservers ++ [observer] } := by
      simp [AddObserver, hmem]
    refine ⟨hadd, ?_⟩
    rw [hadd]
    have herase : (ps.mObservers ++ [observer]).erase observer = ps.mObservers := by
      rw [List.erase_append_right _ hmem]
      simp
    simp [ProxyOutcome.system, RemoveObserver, herase]
  · have herase : ps.mObservers.erase observer = ps.mObservers := List.erase_of_not_mem hmem
    simp [RemoveObserver, hmem, hd, herase]
  · have herase : ps.mObservers.erase observer = ps.mObservers := List.erase_of_not_mem hmem
    simp [RemoveObserver, hd, herase]

/-- Witness of C34, amended: on the object observed by 3, 4 and 5 in the
debug build, `RemoveObserver( 4 )` leaves 3 and 5 in their order, and
`RemoveObserver( 7 )` fails its closing assertion. -/
theorem C34_remove_observer_witness :
    (∃ before after, demoObserved.mObservers = before ++ 4 :: after ∧
      RemoveObserver demoProxyEnv demoObserved 4
        = .ok () { demoObserved with mObservers := before ++ after } ∧
      4 ∉ before ++ after) ∧
    RemoveObserver demoProxyEnv demoObserved 7
      = .assertion "endIter != mObservers.End()" demoObserved :=
  ⟨(C34_remove_observer demoProxyEnv demoObserved 4).1 (by decide) (by decide),
   (C34_remove_observer demoProxyEnv demoObserved 7).2.2.1 (by decide) (by decide)⟩

end Dali
